import Mathlib

/-!
# StarRocks storage directory manager (be/src/storage/data_dir.cpp)

A shallow embedding of `DataDir`: the garbage-collection sweeps and the two-phase
startup loader, with the collaborators that live outside the file (tablet catalog,
transaction manager, metadata store, file system) given as oracles.

Conventions.
* `std::set<std::string>` and `std::set<int64_t>` are lists in iteration order.
* The collaborators are read through a `World` snapshot. A sweep receives a
  timeline `Nat → World`; the snapshot at `n` is what the collaborators answer while
  the candidate with loop counter `n` (the value of `counter` after `++counter`) is
  processed.
* Calls that change something outside the directory object are recorded as `Action`s.
* The loop counters (`int counter`, `size_t` record counters) are natural numbers; they
  count paths or records and stay far below the machine range.
* Initialization, the health check, the shard counter, the set of live tablets and the
  path scans take the answers of the file system as oracles of their own.
* The capacity test is taken in IEEE 754 binary64 arithmetic (`Double`,
  `round_to_double`); the age test of the temp-merge-file sweep is the unsigned 64-bit
  comparison of the source, taken modulo `2 ^ 64`.

The header-decoding loop of the parquet `PageReader`
(be/src/formats/parquet/page_reader.cpp) is embedded as well, with the input stream and
the thrift decoder as oracles and the 64-bit sizes taken modulo `2 ^ 64`.
-/

namespace StarRocks

/-! ## Plain data -/

/-- Error kinds carried by `Status`. -/
inductive Status where
  | OK
  | NotFound
  | AlreadyExist
  | IOError
  | TimedOut
  | Corruption
  | InternalError
  | MemoryAllocFailed
  | Unknown
deriving DecidableEq, Repr

def Status.ok (s : Status) : Bool := s = Status.OK

def Status.is_not_found (s : Status) : Bool := s = Status.NotFound

def Status.is_already_exist (s : Status) : Bool := s = Status.AlreadyExist

def Status.is_time_out (s : Status) : Bool := s = Status.TimedOut

inductive KeysType where
  | DUP_KEYS
  | UNIQUE_KEYS
  | AGG_KEYS
  | PRIMARY_KEYS
deriving DecidableEq, Repr

inductive TabletState where
  | TABLET_NOTREADY
  | TABLET_RUNNING
  | TABLET_TOMBSTONED
  | TABLET_STOPPED
  | TABLET_SHUTDOWN
deriving DecidableEq, Repr

inductive DiskState where
  | ONLINE
  | OFFLINE
  | DISABLED
  | DECOMMISSIONED
deriving DecidableEq, Repr

/-- Rowset ids are compared and looked up only; their layout is not used. -/
abbrev RowsetId := String

/-- Identity of one incarnation of a tablet (`TabletUid`, a pair of 64-bit words). -/
structure TabletUid where
  hi : Int
  lo : Int
deriving DecidableEq, Repr

structure TabletInfo where
  tablet_id : Int
  schema_hash : Int
  tablet_uid : TabletUid
deriving DecidableEq, Repr

/-- What the directory code reads from a `Tablet` handle. -/
structure Tablet where
  tablet_id : Int
  schema_hash : Int
  tablet_uid : TabletUid
  keys_type : KeysType
  tablet_state : TabletState
  is_migrating : Bool
  /-- Result of `tablet->updates()->need_apply()`. -/
  need_apply : Bool
  /-- Result of `tablet->check_rowset_id(id)`. -/
  check_rowset_id : RowsetId → Bool
  schema_hash_path : String
  /-- Result of `tablet->data_dir()->path_hash()`. -/
  data_dir_path_hash : Int

/-- One delta-column-group record: only its file list is read. -/
structure DeltaColumnGroup where
  relative_column_files : List String
deriving DecidableEq, Repr

/-- Values of `config::` read by the directory code. -/
structure Config where
  path_gc_check_step : Int
  path_gc_check_step_interval_ms : Int
  load_tablet_timeout_seconds : Int
  ignore_load_tablet_failure : Bool
  sync_tablet_meta : Bool
  storage_flood_stage_usage_percent : Int
  storage_flood_stage_left_capacity_bytes : Int

/-- The part of the `DataDir` object the sweeps and the loader touch. -/
structure DataDir where
  path : String
  path_hash : Int
  state : DiskState
  stop_bg_worker : Bool
  all_check_paths : List String
  all_tablet_schemahash_paths : List String
  all_check_dcg_files : List String
  all_check_crm_files : List String
  /-- The constructor sets `_available_bytes(0)`. -/
  available_bytes : Int := 0
  /-- The constructor sets `_disk_capacity_bytes(0)`. -/
  disk_capacity_bytes : Int := 0
  /-- The constructor sets `_current_shard(0)`. -/
  current_shard : Nat := 0
  /-- The member `_tablet_set`, empty on construction. -/
  tablet_set : List TabletInfo := []

/-! ## Path helpers (`std::filesystem::path`, POSIX separator) -/

/-- The member `filename()`: the characters after the last separator. -/
def filename (p : String) : String :=
  String.mk (p.data.reverse.takeWhile (fun c => c ≠ '/')).reverse

/-- The member `parent_path()`: the path without its last component and without the
separators in front of that component; the root directory is its own parent. -/
def parent_path (p : String) : String :=
  let rest := p.data.reverse.dropWhile (fun c => c ≠ '/')
  let stripped := rest.dropWhile (fun c => c = '/')
  if rest ≠ [] ∧ stripped = [] then "/" else String.mk stripped.reverse

/-! ## Collaborators -/

/-- Handle of a data directory as returned by `StorageEngine::get_store`. -/
abbrev StoreId := String

/-- One snapshot of the answers of the collaborators used by the sweeps. -/
structure World where
  /-- Models `TabletManager::get_tablet_id_and_schema_hash_from_path`: `none` when it returns
  false, otherwise the two output values. -/
  get_tablet_id_and_schema_hash_from_path : String → Option (Int × Int)
  /-- Models `TabletManager::get_rowset_id_from_path`: `none` when it returns false. -/
  get_rowset_id_from_path : String → Option RowsetId
  /-- Models `TabletManager::get_tablet(tablet_id, include_deleted)`; `none` is `nullptr`. -/
  get_tablet : Int → Bool → Option Tablet
  check_clone_tablet : Int → Bool
  /-- Models `StorageEngine::check_rowset_id_in_unused_rowsets`. -/
  check_rowset_id_in_unused_rowsets : RowsetId → Bool
  /-- Models `StorageEngine::get_store`; `none` is `nullptr`. -/
  get_store : String → Option StoreId
  try_delete_unused_tablet_path : StoreId → Int → Int → String → Status
  /-- Models `TabletMetaManager::scan_tablet_delta_column_group`: status and the records read. -/
  scan_tablet_delta_column_group : Int → Status × List DeltaColumnGroup
  path_exists : String → Status
  delete_dir_recursive : String → Status
  /-- Models `FileSystem::get_file_modified_time`: `none` when the status is not OK,
  otherwise the time in seconds, an unsigned 64-bit value (`StatusOr<uint64_t>` in
  `fs/fs.h`, which is not part of this file). -/
  get_file_modified_time : String → Option Nat
  /-- Result of `time(nullptr)`, a signed 64-bit `time_t`. -/
  now : Int

/-- Calls with an effect outside the directory object, in program order. -/
inductive Action where
  | sleep (ms : Int)
  | try_delete_unused_tablet_path (store : StoreId) (tablet_id schema_hash : Int)
      (tablet_id_path : String)
  | log_tablet_path (paths : List String)
  | delete_dir_recursive (path : String)
deriving DecidableEq, Repr

/-- The pacing at the head of every sweep loop body: sleep every
`path_gc_check_step` candidates. -/
def gc_pacing (cfg : Config) (counter : Nat) : List Action :=
  if 0 < cfg.path_gc_check_step ∧ (counter : Int) % cfg.path_gc_check_step = 0 then
    [Action.sleep cfg.path_gc_check_step_interval_ms]
  else []

/-- Models `DataDir::_process_garbage_path`: delete recursively if the path still exists. -/
def process_garbage_path (w : World) (path : String) : List Action :=
  if (w.path_exists path).ok then [Action.delete_dir_recursive path] else []

/-! ## Tablet-directory sweep -/

def LOG_GC_BATCH_SIZE : Nat := 50

/-- Flush of the batch of logged paths (`log_tablet_path`): nothing for an empty batch. -/
def log_tablet_path (paths : List String) : List Action :=
  if paths = [] then [] else [Action.log_tablet_path paths]

/-- One iteration of the loop of `perform_path_gc_by_tablet`. `counter` is the value
after `++counter`, `batch` is `delete_success_tablet_paths`. Returns the new batch and
the actions of this iteration. -/
def gc_by_tablet_step (cfg : Config) (w : World) (counter : Nat) (batch : List String)
    (path : String) : List String × List Action :=
  let pacing := gc_pacing cfg counter
  match w.get_tablet_id_and_schema_hash_from_path path with
  | none => (batch, pacing)
  | some (tablet_id, schema_hash) =>
    if tablet_id < 1 ∨ schema_hash < 1 then (batch, pacing)
    else
      match w.get_tablet tablet_id true with
      | some _ => (batch, pacing)
      | none =>
        let tablet_id_path := parent_path path
        let data_dir_string := parent_path (parent_path (parent_path tablet_id_path))
        match w.get_store data_dir_string with
        | none => (batch, pacing)
        | some data_dir =>
          let call :=
            Action.try_delete_unused_tablet_path data_dir tablet_id schema_hash tablet_id_path
          if (w.try_delete_unused_tablet_path data_dir tablet_id schema_hash
                tablet_id_path).ok then
            if LOG_GC_BATCH_SIZE < batch.length then
              ([tablet_id_path], pacing ++ [call] ++ log_tablet_path batch)
            else (batch ++ [tablet_id_path], pacing ++ [call])
          else (batch, pacing ++ [call])

/-- The loop of `perform_path_gc_by_tablet` over the remaining candidates, followed by
the final flush of the log batch. `counter` is the number of candidates already
processed. -/
def gc_by_tablet_loop (cfg : Config) (tl : Nat → World) :
    Nat → List String → List String → List Action
  | _, batch, [] => log_tablet_path batch
  | counter, batch, path :: rest =>
    let r := gc_by_tablet_step cfg (tl (counter + 1)) (counter + 1) batch path
    r.2 ++ gc_by_tablet_loop cfg tl (counter + 1) r.1 rest

/-- Models `DataDir::perform_path_gc_by_tablet`: the directory afterwards and the actions. -/
def perform_path_gc_by_tablet (cfg : Config) (tl : Nat → World) (dir : DataDir) :
    DataDir × List Action :=
  if dir.stop_bg_worker ∨ dir.all_tablet_schemahash_paths = [] then (dir, [])
  else
    ({ dir with all_tablet_schemahash_paths := [] },
      gc_by_tablet_loop cfg tl 0 [] dir.all_tablet_schemahash_paths)

/-! ## Rowset-id sweep -/

/-- One iteration of the loop of `perform_path_gc_by_rowsetid`; `counter` is the value
after `++counter`. -/
def gc_by_rowsetid_step (cfg : Config) (w : World) (counter : Nat) (path : String) :
    List Action :=
  gc_pacing cfg counter ++
  match w.get_tablet_id_and_schema_hash_from_path path with
  | none => []
  | some (tablet_id, schema_hash) =>
    if 0 < tablet_id ∧ 0 < schema_hash then
      match w.get_rowset_id_from_path path with
      | none => []
      | some rowset_id =>
        match w.get_tablet tablet_id false with
        | none => []
        | some tablet =>
          if (!tablet.check_rowset_id rowset_id
              && !w.check_rowset_id_in_unused_rowsets rowset_id) = true then
            process_garbage_path w path
          else []
    else []

/-- The loop of `perform_path_gc_by_rowsetid`; `counter` is the number of candidates
already processed. -/
def gc_by_rowsetid_loop (cfg : Config) (tl : Nat → World) : Nat → List String → List Action
  | _, [] => []
  | counter, path :: rest =>
    gc_by_rowsetid_step cfg (tl (counter + 1)) (counter + 1) path
      ++ gc_by_rowsetid_loop cfg tl (counter + 1) rest

/-- Models `DataDir::perform_path_gc_by_rowsetid`: the directory afterwards and the actions. -/
def perform_path_gc_by_rowsetid (cfg : Config) (tl : Nat → World) (dir : DataDir) :
    DataDir × List Action :=
  if dir.stop_bg_worker ∨ dir.all_check_paths = [] then (dir, [])
  else ({ dir with all_check_paths := [] }, gc_by_rowsetid_loop cfg tl 0 dir.all_check_paths)

/-! ## Delta-column-file sweep -/

/-- The per-sweep map from tablet id to the file names its delta column groups
reference (`unordered_map<int64_t, unordered_set<string>>`); a key occurs at most once
because an entry is added only when the key is absent. -/
abbrev DcgCache := List (Int × List String)

/-- The file names inserted into the set of one tablet: the `relative_column_files` of
every record. -/
def dcg_file_names (dcgs : List DeltaColumnGroup) : List String :=
  (dcgs.map (fun dcg => dcg.relative_column_files)).flatten

/-- Models `DataDir::_need_gc_delta_column_files`: the result and the map afterwards. -/
def need_gc_delta_column_files (w : World) (path : String) (tablet_id : Int)
    (delta_column_files : DcgCache) : Bool × DcgCache :=
  match w.get_tablet tablet_id false with
  | none => (false, delta_column_files)
  | some tablet =>
    if tablet.keys_type ≠ KeysType.PRIMARY_KEYS ∨
        tablet.tablet_state ≠ TabletState.TABLET_RUNNING ∨
        w.check_clone_tablet tablet_id = true ∨ tablet.is_migrating = true then
      (false, delta_column_files)
    else
      match delta_column_files.lookup tablet_id with
      | none =>
        if tablet.need_apply = true then (false, delta_column_files)
        else if (w.scan_tablet_delta_column_group tablet_id).1.ok = false then
          (false, delta_column_files)
        else
          let files := dcg_file_names (w.scan_tablet_delta_column_group tablet_id).2
          (decide (filename path ∉ files), (tablet_id, files) :: delta_column_files)
      | some files => (decide (filename path ∉ files), delta_column_files)

/-- Models `is_delta_column_file`: the name ends with `.cols`. -/
def is_delta_column_file (path : String) : Bool :=
  ".cols".data.isSuffixOf path.data

/-- One iteration of the loop of `perform_delta_column_files_gc`: the map afterwards and
the actions. -/
def dcg_gc_step (cfg : Config) (w : World) (counter : Nat) (delta_column_files : DcgCache)
    (path : String) : DcgCache × List Action :=
  let pacing := gc_pacing cfg counter
  match w.get_tablet_id_and_schema_hash_from_path path with
  | none => (delta_column_files, pacing)
  | some (tablet_id, schema_hash) =>
    if 0 < tablet_id ∧ 0 < schema_hash then
      let r := need_gc_delta_column_files w path tablet_id delta_column_files
      if r.1 = true then (r.2, pacing ++ process_garbage_path w path) else (r.2, pacing)
    else (delta_column_files, pacing)

/-- The loop of `perform_delta_column_files_gc`: the map after the last candidate and
the actions. -/
def dcg_gc_loop (cfg : Config) (tl : Nat → World) :
    Nat → DcgCache → List String → DcgCache × List Action
  | _, cache, [] => (cache, [])
  | counter, cache, path :: rest =>
    let r := dcg_gc_step cfg (tl (counter + 1)) (counter + 1) cache path
    let r' := dcg_gc_loop cfg tl (counter + 1) r.1 rest
    (r'.1, r.2 ++ r'.2)

/-- Models `DataDir::perform_delta_column_files_gc`: the directory afterwards and the actions. -/
def perform_delta_column_files_gc (cfg : Config) (tl : Nat → World) (dir : DataDir) :
    DataDir × List Action :=
  if dir.stop_bg_worker ∨ dir.all_check_dcg_files = [] then (dir, [])
  else
    ({ dir with all_check_dcg_files := [] },
      (dcg_gc_loop cfg tl 0 [] dir.all_check_dcg_files).2)

/-! ## Startup load: data -/

/-- The rowset states the loader tells apart: it names `COMMITTED` and `VISIBLE`;
`OTHER` is any other value of the enum. -/
inductive RowsetStatePB where
  | COMMITTED
  | VISIBLE
  | OTHER
deriving DecidableEq, Repr

structure PUniqueId where
  hi : Int
  lo : Int
deriving DecidableEq, Repr

/-- What the loader reads from, and writes to, a parsed `RowsetMeta`. -/
structure RowsetMeta where
  rowset_id : RowsetId
  tablet_id : Int
  tablet_uid : TabletUid
  tablet_schema_hash : Int
  partition_id : Int
  txn_id : Int
  load_id : PUniqueId
  rowset_state : RowsetStatePB
  /-- Whether `tablet_schema()` is non-null. -/
  has_tablet_schema : Bool
  skip_tablet_schema : Bool
  version : Int × Int
deriving DecidableEq, Repr

/-- A rowset object built by `RowsetFactory::create_rowset`; it shares the meta. -/
structure Rowset where
  rowset_meta : RowsetMeta
  schema_hash_path : String
deriving DecidableEq, Repr

/-- Arguments of `TxnManager::commit_txn` (the metadata store handle is left out). -/
structure CommitTxnArgs where
  partition_id : Int
  txn_id : Int
  tablet_id : Int
  schema_hash : Int
  tablet_uid : TabletUid
  load_id : PUniqueId
  rowset : Rowset
  is_recovery : Bool
deriving DecidableEq, Repr

/-- A tablet-meta record as handed to the visitor of the walk. -/
structure TabletMetaRecord where
  tablet_id : Int
  schema_hash : Int
  value : String
deriving DecidableEq, Repr

/-- A rowset-meta record as handed to the visitor of the traversal. -/
structure RowsetRecord where
  tablet_uid : TabletUid
  rowset_id : RowsetId
  meta_str : String
deriving DecidableEq, Repr

/-- Calls of the loader into its collaborators, in program order. -/
inductive LoadCall where
  | walk_until_timeout (limit_sec : Int)
  | walk
  | compact
  | drop_tablet_keep_meta_and_files (tablet_id : Int)
  | load_tablet_from_meta (tablet_id schema_hash : Int) (value : String)
  | commit_txn (args : CommitTxnArgs)
  | load_rowset (tablet_id : Int) (tablet_uid : TabletUid) (rowset : Rowset)
deriving DecidableEq, Repr

/-- Answers of the metadata store and of the catalog during phase 1. -/
structure MetaStore where
  /-- Models `TabletMetaManager::walk_until_timeout`: the records handed to the visitor before
  the walk returns, and the status it returns. -/
  walk_until_timeout : Int → List TabletMetaRecord × Status
  /-- Models `TabletMetaManager::walk`, the same without a time bound. -/
  walk : List TabletMetaRecord × Status
  /-- Models `TabletManager::load_tablet_from_meta`, as answered during the bounded walk
  (`0`) and during the retry walk (`1`). -/
  load_tablet_from_meta : Nat → TabletMetaRecord → Status
  compact : Status
  drop_tablet : Int → Status

/-- One snapshot of the answers of the collaborators used by the rowset visitor. -/
structure LoadWorld where
  /-- The constructor `RowsetMeta(meta_str, &parsed)`: `none` when `parsed` is false. -/
  parse_rowset_meta : String → Option RowsetMeta
  get_tablet : Int → Bool → Option Tablet
  /-- Status of `RowsetFactory::create_rowset`. -/
  create_rowset : Tablet → RowsetMeta → Status
  commit_txn : CommitTxnArgs → Status
  /-- Status of `Tablet::load_rowset`. -/
  load_rowset : Tablet → Rowset → Status

/-- Modelled from the spec: the iteration of the metadata store (`KVStore::iterate`
behind `TabletMetaManager::walk` and `RowsetMetaManager::traverse_rowset_metas`), which
is not in this file. The visitor is a callback yielding "continue?"; the records are
handed to it one by one and the iteration stops after the first record for which it
answers false. The visitor sees the 1-based position of the record. Returns the final
state and the records that were handed to the visitor. -/
def iterate_store {σ α : Type} (visitor : Nat → σ → α → σ × Bool) :
    Nat → σ → List α → σ × List α
  | _, s, [] => (s, [])
  | n, s, a :: rest =>
    let r := visitor (n + 1) s a
    if r.2 = true then
      let r' := iterate_store visitor (n + 1) r.1 rest
      (r'.1, a :: r'.2)
    else (r.1, [a])

/-! ## Startup load, phase 1: tablets -/

/-- Insertion into a `std::set<int64_t>`, kept in ascending order without duplicates. -/
def set_insert (x : Int) : List Int → List Int
  | [] => [x]
  | y :: ys => if x < y then x :: y :: ys else if x = y then y :: ys else y :: set_insert x ys

structure TabletLoadState where
  tablet_ids : List Int
  failed_tablet_ids : List Int
  calls : List LoadCall
deriving DecidableEq, Repr

/-- The lambda `load_tablet_func`; `answer` is what `load_tablet_from_meta` returns. -/
def load_tablet_func (answer : TabletMetaRecord → Status) (st : TabletLoadState)
    (r : TabletMetaRecord) : TabletLoadState × Bool :=
  let status := answer r
  let calls := st.calls ++ [LoadCall.load_tablet_from_meta r.tablet_id r.schema_hash r.value]
  if (!status.ok && !status.is_not_found && !status.is_already_exist) = true then
    ({ st with failed_tablet_ids := set_insert r.tablet_id st.failed_tablet_ids,
               calls := calls }, true)
  else ({ st with tablet_ids := set_insert r.tablet_id st.tablet_ids, calls := calls }, true)

/-- How phase 1 ends: `LOG(FATAL)` stops the process. -/
inductive TabletLoadExit where
  | finished
  | fatal_load_failure
  | fatal_walk_failure
deriving DecidableEq, Repr

structure TabletLoadResult where
  state : TabletLoadState
  load_tablet_status : Status
  exit : TabletLoadExit
deriving DecidableEq, Repr

/-- Phase 1 of `DataDir::load`, up to and including the two fatal checks. -/
def load_tablets (cfg : Config) (ms : MetaStore) : TabletLoadResult :=
  let first := ms.walk_until_timeout cfg.load_tablet_timeout_seconds
  let st1 := (iterate_store (fun _ => load_tablet_func (ms.load_tablet_from_meta 0)) 0
    { tablet_ids := [], failed_tablet_ids := [],
      calls := [LoadCall.walk_until_timeout cfg.load_tablet_timeout_seconds] } first.1).1
  let r : TabletLoadState × Status :=
    if first.2.is_time_out = true then
      let calls := st1.calls ++ [LoadCall.compact]
        ++ st1.tablet_ids.map LoadCall.drop_tablet_keep_meta_and_files ++ [LoadCall.walk]
      ((iterate_store (fun _ => load_tablet_func (ms.load_tablet_from_meta 1)) 0
        { tablet_ids := [], failed_tablet_ids := [], calls := calls } ms.walk.1).1, ms.walk.2)
    else (st1, first.2)
  let exit :=
    if r.1.failed_tablet_ids.length ≠ 0 ∧ cfg.ignore_load_tablet_failure = false then
      TabletLoadExit.fatal_load_failure
    else if r.2.ok = false then TabletLoadExit.fatal_walk_failure
    else TabletLoadExit.finished
  { state := r.1, load_tablet_status := r.2, exit := exit }

/-! ## Startup load, phase 2: rowsets -/

structure RowsetLoadState where
  error_rowset_count : Nat
  total_rowset_count : Nat
  calls : List LoadCall
deriving DecidableEq, Repr

/-- The meta after `set_tablet_schema` and `set_skip_tablet_schema(true)`, which the
loader applies when the meta carries no schema. -/
def fill_tablet_schema (m : RowsetMeta) : RowsetMeta :=
  if m.has_tablet_schema = true then m
  else { m with has_tablet_schema := true, skip_tablet_schema := true }

/-- The lambda `load_rowset_func`: the state afterwards and the returned flag. -/
def load_rowset_func (w : LoadWorld) (st : RowsetLoadState) (r : RowsetRecord) :
    RowsetLoadState × Bool :=
  let st := { st with total_rowset_count := st.total_rowset_count + 1 }
  let failed := { st with error_rowset_count := st.error_rowset_count + 1 }
  match w.parse_rowset_meta r.meta_str with
  | none => (failed, true)
  | some rowset_meta =>
    match w.get_tablet rowset_meta.tablet_id false with
    | none => (failed, true)
    | some tablet =>
      if (w.create_rowset tablet rowset_meta).ok = false then (failed, true)
      else if rowset_meta.rowset_state = RowsetStatePB.COMMITTED ∧
          rowset_meta.tablet_uid = tablet.tablet_uid then
        let rowset_meta := fill_tablet_schema rowset_meta
        let args : CommitTxnArgs :=
          { partition_id := rowset_meta.partition_id, txn_id := rowset_meta.txn_id,
            tablet_id := rowset_meta.tablet_id, schema_hash := rowset_meta.tablet_schema_hash,
            tablet_uid := rowset_meta.tablet_uid, load_id := rowset_meta.load_id,
            rowset := { rowset_meta := rowset_meta,
                        schema_hash_path := tablet.schema_hash_path },
            is_recovery := true }
        let commit_txn_status := w.commit_txn args
        let called := { st with calls := st.calls ++ [LoadCall.commit_txn args] }
        if (!commit_txn_status.ok && !commit_txn_status.is_already_exist) = true then
          ({ called with error_rowset_count := st.error_rowset_count + 1 }, true)
        else (called, true)
      else if rowset_meta.rowset_state = RowsetStatePB.VISIBLE ∧
          rowset_meta.tablet_uid = tablet.tablet_uid then
        if tablet.keys_type = KeysType.PRIMARY_KEYS then (st, true)
        else
          let rowset : Rowset :=
            { rowset_meta := rowset_meta, schema_hash_path := tablet.schema_hash_path }
          let publish_status := w.load_rowset tablet rowset
          let called := { st with calls := st.calls
            ++ [LoadCall.load_rowset tablet.tablet_id tablet.tablet_uid rowset] }
          if (!publish_status.ok && !publish_status.is_already_exist) = true then
            ({ called with error_rowset_count := st.error_rowset_count + 1 }, true)
          else (called, true)
      else (failed, true)

/-- Phase 2 of `DataDir::load`: the traversal of the rowset-meta records with
`load_rowset_func`, counters starting at zero. `tl n` is the snapshot in which the
`n`-th record is processed. Returns the final state and the records visited. -/
def load_rowsets (tl : Nat → LoadWorld) (records : List RowsetRecord) :
    RowsetLoadState × List RowsetRecord :=
  iterate_store (fun n st r => load_rowset_func (tl n) st r) 0
    { error_rowset_count := 0, total_rowset_count := 0, calls := [] } records

/-- The six ways through the lambda `load_rowset_func`. -/
inductive RowsetBranch where
  | parse_failure
  | missing_tablet
  | construction_failure
  | committed
  | visible
  | invalid
deriving DecidableEq, Repr

/-- The way a record takes through `load_rowset_func`: the tests of the lambda, in its
order, with the name of the branch in place of the effect. -/
def rowset_branch (w : LoadWorld) (r : RowsetRecord) : RowsetBranch :=
  match w.parse_rowset_meta r.meta_str with
  | none => RowsetBranch.parse_failure
  | some rowset_meta =>
    match w.get_tablet rowset_meta.tablet_id false with
    | none => RowsetBranch.missing_tablet
    | some tablet =>
      if (w.create_rowset tablet rowset_meta).ok = false then RowsetBranch.construction_failure
      else if rowset_meta.rowset_state = RowsetStatePB.COMMITTED ∧
          rowset_meta.tablet_uid = tablet.tablet_uid then RowsetBranch.committed
      else if rowset_meta.rowset_state = RowsetStatePB.VISIBLE ∧
          rowset_meta.tablet_uid = tablet.tablet_uid then RowsetBranch.visible
      else RowsetBranch.invalid

/-! ## Capacity -/

/-- The integer nearest to `x`, the even one of the two when `x` lies half way. -/
def round_half_even (x : ℚ) : Int :=
  let f := ⌊x⌋
  if x - f < 1 / 2 then f
  else if 1 / 2 < x - f then f + 1
  else if f % 2 = 0 then f
  else f + 1

/-- The value of the IEEE 754 binary64 number nearest to `q`, ties to even: `q` is scaled
by a power of two to a mantissa of 53 bits, which is rounded to an integer. This is the
rounding of every `double` operation as long as the result lies in the normal range,
`2 ^ (-1022) <= |q| < 2 ^ 1024`; the quotients of 64-bit and 32-bit integers taken here
do. -/
def round_to_double (q : ℚ) : ℚ :=
  if q = 0 then 0
  else round_half_even (q / 2 ^ (Int.log 2 |q| - 52)) * 2 ^ (Int.log 2 |q| - 52)

/-- An IEEE 754 binary64 value: a finite number, given by its value, an infinity or a
NaN. The sign of a zero is not kept; the zeros that occur as divisors here come from
integer conversions and literals and are positive. -/
inductive Double where
  | finite (value : ℚ)
  | pos_inf
  | neg_inf
  | nan
deriving DecidableEq

/-- The conversion of a 32-bit or 64-bit integer to `double`. -/
def Double.of_int (i : Int) : Double := Double.finite (round_to_double i)

/-- The `double` division. -/
def Double.div : Double → Double → Double
  | Double.finite a, Double.finite b =>
    if b = 0 then
      if a = 0 then Double.nan else if 0 < a then Double.pos_inf else Double.neg_inf
    else Double.finite (round_to_double (a / b))
  | Double.finite _, Double.pos_inf => Double.finite 0
  | Double.finite _, Double.neg_inf => Double.finite 0
  | Double.pos_inf, Double.finite b => if 0 ≤ b then Double.pos_inf else Double.neg_inf
  | Double.neg_inf, Double.finite b => if 0 ≤ b then Double.neg_inf else Double.pos_inf
  | _, _ => Double.nan

/-- The `double` comparison `x >= y`, false when either side is a NaN. -/
def Double.ge : Double → Double → Bool
  | Double.nan, _ => false
  | _, Double.nan => false
  | Double.finite a, Double.finite b => decide (b ≤ a)
  | Double.pos_inf, _ => true
  | _, Double.neg_inf => true
  | _, _ => false

/-- Modelled from the spec: `DataDir::disk_usage` is declared in `data_dir.h`, which is
not part of this file. It is the projected used fraction, assuming `incoming_data_size`
more bytes are written: the used bytes plus the incoming bytes over the capacity. The
result is the `double` that `capacity_limit_reached` receives: both 64-bit integers are
converted to `double` and divided in `double`. The 64-bit sum is taken without
overflow. -/
def disk_usage (dir : DataDir) (incoming_data_size : Int) : Double :=
  Double.div
    (Double.of_int (dir.disk_capacity_bytes - dir.available_bytes + incoming_data_size))
    (Double.of_int dir.disk_capacity_bytes)

/-- Models `DataDir::capacity_limit_reached`. The percentage test compares two `double`
values, `used_pct` and the quotient of the converted percentage by the literal `100.0`;
the bytes test compares 64-bit integers, taken without overflow. -/
def capacity_limit_reached (cfg : Config) (dir : DataDir) (incoming_data_size : Int) : Bool :=
  let used_pct := disk_usage dir incoming_data_size
  let left_bytes := dir.available_bytes - incoming_data_size
  if Double.ge used_pct
        (Double.div (Double.of_int cfg.storage_flood_stage_usage_percent) (Double.finite 100))
        = true ∧
      left_bytes ≤ cfg.storage_flood_stage_left_capacity_bytes then
    true
  else false

/-! ## Health check -/

/-- The loop of `health_check`: `remaining` attempts are left, `i` have been made.
Returns `all_failed` and the number of attempts made. `probe i` is the status of
attempt `i` of `_read_and_write_test_file`; `is_io_error` is the test of that name. -/
def health_check_loop (probe : Nat → Status) (is_io_error : Status → Bool) :
    Nat → Nat → Bool × Nat
  | 0, i => (true, i)
  | remaining + 1, i =>
    if ((probe i).ok || !is_io_error (probe i)) = true then (false, i + 1)
    else health_check_loop probe is_io_error remaining (i + 1)

/-- Models `DataDir::health_check`: the directory afterwards and the number of probe
attempts made. -/
def health_check (probe : Nat → Status) (is_io_error : Status → Bool) (dir : DataDir) :
    DataDir × Nat :=
  if dir.state ≠ DiskState.DECOMMISSIONED ∧ dir.state ≠ DiskState.DISABLED then
    let r := health_check_loop probe is_io_error 10 0
    if r.1 = true then ({ dir with state := DiskState.OFFLINE }, r.2)
    else ({ dir with state := DiskState.ONLINE }, r.2)
  else (dir, 0)

/-! ## Shards and the set of live tablets -/

/-- Modelled from the spec: the constant `DATA_PREFIX` of `olap_define.h`, which is not
part of this file; the data tree of a directory lives under `<root>/data`. -/
def DATA_PREFIX : String := "/data"

/-- Modelled from the spec: the constant `TMP_PREFIX` of `olap_define.h`, which is not
part of this file; the temp files of a directory live under `<root>/tmp`. -/
def TMP_PREFIX : String := "/tmp"

/-- Answers of the file system during one call of `get_shard`. -/
structure ShardFs where
  path_exist : String → Bool
  create_dir_recursive : String → Status
  sync_dir : String → Status

/-- Outcome of one call of `get_shard`: the directory afterwards, the returned status
and the value written to `*shard` (`none` when nothing is written). -/
structure GetShardResult where
  dir : DataDir
  status : Status
  shard : Option Nat

/-- Models `DataDir::get_shard`. `MAX_SHARD_NUM` is a constant of `olap_define.h` and is
a parameter here. The counter stays below `MAX_SHARD_NUM`, so its machine width plays no
role. -/
def get_shard (cfg : Config) (MAX_SHARD_NUM : Nat) (fs : ShardFs) (dir : DataDir) :
    GetShardResult :=
  let next_shard := dir.current_shard
  let dir := { dir with current_shard := (dir.current_shard + 1) % MAX_SHARD_NUM }
  let shard_path := dir.path ++ DATA_PREFIX ++ "/" ++ toString next_shard
  let sync_data_path := !fs.path_exist shard_path
  if (fs.create_dir_recursive shard_path).ok = false then
    { dir := dir, status := fs.create_dir_recursive shard_path, shard := none }
  else if (sync_data_path && cfg.sync_tablet_meta
      && !(fs.sync_dir (dir.path ++ DATA_PREFIX)).ok) = true then
    { dir := dir, status := fs.sync_dir (dir.path ++ DATA_PREFIX), shard := none }
  else { dir := dir, status := Status.OK, shard := some next_shard }

/-- The directory after `k` calls of `get_shard`; call number `i` (from 0) is answered
by the file system `fss i`. -/
def get_shard_calls (cfg : Config) (MAX_SHARD_NUM : Nat) (fss : Nat → ShardFs)
    (dir : DataDir) : Nat → DataDir
  | 0 => dir
  | k + 1 =>
    (get_shard cfg MAX_SHARD_NUM (fss k) (get_shard_calls cfg MAX_SHARD_NUM fss dir k)).dir

/-- The identity built by `register_tablet` and `deregister_tablet` from a tablet. -/
def tablet_info_of (tablet : Tablet) : TabletInfo :=
  { tablet_id := tablet.tablet_id, schema_hash := tablet.schema_hash,
    tablet_uid := tablet.tablet_uid }

/-- Models `DataDir::register_tablet`: `_tablet_set.emplace`. The order of the
`std::set` comes from `TabletInfo::operator<`, which is not part of this file; the list
keeps the order of first registration and only membership and multiplicity are used. -/
def register_tablet (dir : DataDir) (tablet : Tablet) : DataDir :=
  if tablet_info_of tablet ∈ dir.tablet_set then dir
  else { dir with tablet_set := dir.tablet_set ++ [tablet_info_of tablet] }

/-- Models `DataDir::deregister_tablet`: `_tablet_set.erase`. -/
def deregister_tablet (dir : DataDir) (tablet : Tablet) : DataDir :=
  { dir with tablet_set := dir.tablet_set.erase (tablet_info_of tablet) }

/-- Models `DataDir::clear_tablets`: the directory afterwards and the sequence
`*tablet_infos` afterwards. -/
def clear_tablets (dir : DataDir) (tablet_infos : List TabletInfo) :
    DataDir × List TabletInfo :=
  ({ dir with tablet_set := [] }, tablet_infos ++ dir.tablet_set)

/-- A call of `register_tablet` or `deregister_tablet`. -/
inductive TabletSetCall where
  | register (tablet : Tablet)
  | deregister (tablet : Tablet)

/-- The directory after a sequence of registration calls, made in order. -/
def apply_tablet_set_calls (dir : DataDir) : List TabletSetCall → DataDir
  | [] => dir
  | TabletSetCall.register t :: rest => apply_tablet_set_calls (register_tablet dir t) rest
  | TabletSetCall.deregister t :: rest => apply_tablet_set_calls (deregister_tablet dir t) rest

/-! ## Initialization -/

/-- Answers of the collaborators of `init`, one per step. -/
structure InitEnv where
  /-- Status of `FileSystem::CreateSharedFromString(_path)`. -/
  create_fs : Status
  /-- Status of `_fs->path_exists(_path)`. -/
  path_exists : Status
  /-- Whether `access(align_tag_path, F_OK) == 0`. -/
  align_tag_found : Bool
  /-- Status of `FileSystem::space(_path)` with the available and capacity bytes. -/
  space : Status × Int × Int
  /-- Status of `_cluster_id_mgr->init()`. -/
  cluster_id_init : Status
  /-- Status of `create_dir_recursive` on the data path. -/
  create_data_dir : Status
  /-- Status of `create_dir_recursive` on the temp path. -/
  create_tmp_dir : Status
  /-- Result of `hash_of_path`. -/
  path_hash : Int
  /-- Whether `new (std::nothrow) KVStore` returned a non-null pointer. -/
  kv_store_allocated : Bool
  /-- Status of `_kv_store->init(read_only)`. -/
  kv_store_init : Status
  /-- Status of `create_dir_recursive` on the persistent index path. -/
  create_persistent_index_dir : Status

/-- The steps of `init`, named as in the source. -/
inductive InitStep where
  | create_fs
  | path_exists
  | align_tag
  | update_capacity
  | cluster_id_init
  | init_data_dir
  | init_tmp_dir
  | init_meta
  | init_persistent_index_dir
deriving DecidableEq, Repr

/-- The order in which `init` takes its steps. -/
def init_step_order : List InitStep :=
  [InitStep.create_fs, InitStep.path_exists, InitStep.align_tag, InitStep.update_capacity,
   InitStep.cluster_id_init, InitStep.init_data_dir, InitStep.init_tmp_dir,
   InitStep.init_meta, InitStep.init_persistent_index_dir]

/-- Models `DataDir::update_capacity`: the cached values are overwritten only when the
file system answers. -/
def update_capacity (space : Status × Int × Int) (dir : DataDir) : DataDir × Status :=
  if space.1.ok = false then (dir, space.1)
  else ({ dir with available_bytes := space.2.1, disk_capacity_bytes := space.2.2 }, Status.OK)

/-- Models `DataDir::_init_meta`. -/
def init_meta (env : InitEnv) (dir : DataDir) : DataDir × Status :=
  let dir := { dir with path_hash := env.path_hash }
  if env.kv_store_allocated = false then (dir, Status.MemoryAllocFailed)
  else (dir, env.kv_store_init)

/-- Outcome of `init`: the directory afterwards, the returned status, and the steps
taken, each with its status. -/
structure InitResult where
  dir : DataDir
  status : Status
  steps : List (InitStep × Status)

/-- Models `DataDir::init`. -/
def init (env : InitEnv) (dir : DataDir) : InitResult :=
  let s1 := [(InitStep.create_fs, env.create_fs)]
  if env.create_fs.ok = false then { dir := dir, status := env.create_fs, steps := s1 }
  else
  let s2 := s1 ++ [(InitStep.path_exists, env.path_exists)]
  if env.path_exists.ok = false then { dir := dir, status := env.path_exists, steps := s2 }
  else
  if env.align_tag_found = true then
    { dir := dir, status := Status.NotFound,
      steps := s2 ++ [(InitStep.align_tag, Status.NotFound)] }
  else
  let s3 := s2 ++ [(InitStep.align_tag, Status.OK)]
  let r4 := update_capacity env.space dir
  let s4 := s3 ++ [(InitStep.update_capacity, r4.2)]
  if r4.2.ok = false then { dir := r4.1, status := r4.2, steps := s4 }
  else
  let s5 := s4 ++ [(InitStep.cluster_id_init, env.cluster_id_init)]
  if env.cluster_id_init.ok = false then
    { dir := r4.1, status := env.cluster_id_init, steps := s5 }
  else
  let s6 := s5 ++ [(InitStep.init_data_dir, env.create_data_dir)]
  if env.create_data_dir.ok = false then
    { dir := r4.1, status := env.create_data_dir, steps := s6 }
  else
  let s7 := s6 ++ [(InitStep.init_tmp_dir, env.create_tmp_dir)]
  if env.create_tmp_dir.ok = false then
    { dir := r4.1, status := env.create_tmp_dir, steps := s7 }
  else
  let r8 := init_meta env r4.1
  let s8 := s7 ++ [(InitStep.init_meta, r8.2)]
  if r8.2.ok = false then { dir := r8.1, status := r8.2, steps := s8 }
  else
  let s9 := s8 ++ [(InitStep.init_persistent_index_dir, env.create_persistent_index_dir)]
  if env.create_persistent_index_dir.ok = false then
    { dir := r8.1, status := env.create_persistent_index_dir, steps := s9 }
  else { dir := { r8.1 with state := DiskState.ONLINE }, status := Status.OK, steps := s9 }

/-! ## Temp-merge-file sweep -/

/-- One iteration of the loop of `perform_crm_gc`; `counter` is the value after
`++counter`. The modification time is a `uint64_t`, so `mtime <= 0` holds for zero only.
In `now >= unused_crm_file_threshold_sec + mtime` the `int32_t` threshold is converted to
`uint64_t` and added modulo `2 ^ 64`, and the `time_t` clock is converted to `uint64_t`
for an unsigned comparison. -/
def crm_gc_step (cfg : Config) (w : World) (counter : Nat)
    (unused_crm_file_threshold_sec : Int) (path : String) : List Action :=
  gc_pacing cfg counter ++
  match w.get_file_modified_time path with
  | none => []
  | some mtime =>
    if mtime ≤ 0 then []
    else if w.now % 2 ^ 64 ≥ (unused_crm_file_threshold_sec + (mtime : Int)) % 2 ^ 64 then
      process_garbage_path w path
    else []

/-- The loop of `perform_crm_gc`; `counter` is the number of candidates already
processed. -/
def crm_gc_loop (cfg : Config) (tl : Nat → World) (unused_crm_file_threshold_sec : Int) :
    Nat → List String → List Action
  | _, [] => []
  | counter, path :: rest =>
    crm_gc_step cfg (tl (counter + 1)) (counter + 1) unused_crm_file_threshold_sec path
      ++ crm_gc_loop cfg tl unused_crm_file_threshold_sec (counter + 1) rest

/-- Models `DataDir::perform_crm_gc`: the directory afterwards and the actions. -/
def perform_crm_gc (cfg : Config) (tl : Nat → World) (unused_crm_file_threshold_sec : Int)
    (dir : DataDir) : DataDir × List Action :=
  if dir.stop_bg_worker ∨ dir.all_check_crm_files = [] then (dir, [])
  else
    ({ dir with all_check_crm_files := [] },
      crm_gc_loop cfg tl unused_crm_file_threshold_sec 0 dir.all_check_crm_files)

/-! ## Path scans (producers) -/

/-- The member `ends_with` of a string. -/
def ends_with (s suffix : String) : Bool :=
  suffix.data.isSuffixOf s.data

/-- Insertion into a `std::set<std::string>`, kept in ascending order without
duplicates; strings are ordered lexicographically by their characters. -/
def str_set_insert (x : String) : List String → List String
  | [] => [x]
  | y :: ys =>
    if x.data < y.data then x :: y :: ys
    else if x = y then y :: ys
    else y :: str_set_insert x ys

/-- Answer of `fs::list_dirs_files` for one directory: the status, the subdirectories
and the regular files, each in the iteration order of the `std::set` it fills. -/
structure DirListing where
  status : Status
  dirs : List String
  files : List String

/-- The three candidate sets filled by `perform_path_scan`, and the directories handed
to `list_dirs_files` so far, in order. -/
structure ScanState where
  all_tablet_schemahash_paths : List String
  all_check_paths : List String
  all_check_dcg_files : List String
  listed : List String

/-- The loop over `rowset_files` of one schema-hash directory. -/
def scan_rowset_file (tablet_schema_hash_path : String) (st : ScanState)
    (rowset_file : String) : ScanState :=
  let rowset_file_path := tablet_schema_hash_path ++ "/" ++ rowset_file
  if is_delta_column_file rowset_file = true then
    { st with all_check_dcg_files := str_set_insert rowset_file_path st.all_check_dcg_files }
  else { st with all_check_paths := str_set_insert rowset_file_path st.all_check_paths }

/-- The loop over `inverted_dirs` of one schema-hash directory. -/
def scan_inverted_dir (tablet_schema_hash_path : String) (st : ScanState)
    (inverted_dir : String) : ScanState :=
  let inverted_index_path := tablet_schema_hash_path ++ "/" ++ inverted_dir
  if ends_with inverted_index_path ".ivt" = true then
    { st with all_check_paths := str_set_insert inverted_index_path st.all_check_paths }
  else st

/-- The body of the loop over `schema_hashes` of one tablet-id directory. -/
def scan_schema_hash (ls : String → DirListing) (tablet_id_path : String) (st : ScanState)
    (schema_hash : String) : ScanState :=
  let tablet_schema_hash_path := tablet_id_path ++ "/" ++ schema_hash
  let st : ScanState :=
    { st with
      all_tablet_schemahash_paths :=
        str_set_insert tablet_schema_hash_path st.all_tablet_schemahash_paths,
      listed := st.listed ++ [tablet_schema_hash_path] }
  if (ls tablet_schema_hash_path).status.ok = false then st
  else
    let st := (ls tablet_schema_hash_path).files.foldl
      (scan_rowset_file tablet_schema_hash_path) st
    (ls tablet_schema_hash_path).dirs.foldl (scan_inverted_dir tablet_schema_hash_path) st

/-- The body of the loop over `tablet_ids` of one shard directory. -/
def scan_tablet_id (ls : String → DirListing) (shard_path : String) (st : ScanState)
    (tablet_id : String) : ScanState :=
  let tablet_id_path := shard_path ++ "/" ++ tablet_id
  let st : ScanState := { st with listed := st.listed ++ [tablet_id_path] }
  if (ls tablet_id_path).status.ok = false then st
  else (ls tablet_id_path).dirs.foldl (scan_schema_hash ls tablet_id_path) st

/-- The body of the loop over `shards`. -/
def scan_shard (ls : String → DirListing) (data_path : String) (st : ScanState)
    (shard : String) : ScanState :=
  let shard_path := data_path ++ "/" ++ shard
  let st : ScanState := { st with listed := st.listed ++ [shard_path] }
  if (ls shard_path).status.ok = false then st
  else (ls shard_path).dirs.foldl (scan_tablet_id ls shard_path) st

/-- Models `DataDir::perform_path_scan`: the directory afterwards and the directories
that were listed. `ls` is `fs::list_dirs_files`. -/
def perform_path_scan (ls : String → DirListing) (dir : DataDir) : DataDir × List String :=
  if dir.all_check_paths ≠ [] ∨ dir.all_check_dcg_files ≠ [] then (dir, [])
  else
    let data_path := dir.path ++ DATA_PREFIX
    if (ls data_path).status.ok = false then (dir, [data_path])
    else
      let st := (ls data_path).dirs.foldl (scan_shard ls data_path)
        { all_tablet_schemahash_paths := dir.all_tablet_schemahash_paths,
          all_check_paths := dir.all_check_paths,
          all_check_dcg_files := dir.all_check_dcg_files,
          listed := [data_path] }
      ({ dir with all_tablet_schemahash_paths := st.all_tablet_schemahash_paths,
                  all_check_paths := st.all_check_paths,
                  all_check_dcg_files := st.all_check_dcg_files }, st.listed)

/-- One entry of a `std::filesystem::directory_iterator`. -/
structure DirEntry where
  path : String
  is_regular_file : Bool

/-- Models `DataDir::perform_tmp_path_scan`: the directory afterwards and the
directories iterated. `entries p` are the entries the iterator over `p` yields before it
ends or throws; an exception only ends the loop. -/
def perform_tmp_path_scan (entries : String → List DirEntry) (dir : DataDir) :
    DataDir × List String :=
  if dir.all_check_crm_files ≠ [] then (dir, [])
  else
    let tmp_path_str := dir.path ++ TMP_PREFIX
    let found := (entries tmp_path_str).foldl
      (fun (found : List String) (entry : DirEntry) =>
        if entry.is_regular_file = true ∧ ends_with entry.path ".crm" = true then
          str_set_insert entry.path found
        else found) dir.all_check_crm_files
    ({ dir with all_check_crm_files := found }, [tmp_path_str])

/-! ## Parquet page reader: header decoding -/

/-- Models `kDefaultPageHeaderSize`, 16 KiB. -/
def kDefaultPageHeaderSize : Nat := 16 * 1024

/-- Models `kMaxPageHeaderSize`, 16 MiB. -/
def kMaxPageHeaderSize : Nat := 16 * 1024 * 1024

/-- Calls of `PageReader::next_header` into the input stream and the thrift decoder, in
program order, with the sizes they ask for. -/
inductive StreamCall where
  | seek (offset : Nat)
  | peek (size : Nat)
  | read_at_fully (offset size : Nat)
  | deserialize_thrift_msg (len : Nat)
deriving DecidableEq, Repr

/-- Answers of the input stream and of the thrift decoder. The first argument of `peek`,
`read_at_fully` and `deserialize_thrift_msg` is the number of the loop iteration,
counted from zero, in which the call is made, so that the answers may depend on the
contents of the stream in any way and may change from one call to the next. -/
structure PageStream where
  /-- Status of `SeekableInputStream::seek`. -/
  seek : Nat → Status
  /-- Models `SeekableInputStream::peek`: `none` when the status is not OK, otherwise the
  size of the view returned. The flag is true for the second peek of an iteration. -/
  peek : Nat → Bool → Nat → Option Nat
  /-- Status of `SeekableInputStream::read_at_fully`, given the offset and the size. -/
  read_at_fully : Nat → Nat → Nat → Status
  /-- Models `deserialize_thrift_msg` on the bytes fetched in this iteration: the status
  and the value it leaves in `*len`, given the value of `*len` on entry. -/
  deserialize_thrift_msg : Nat → Nat → Status × Nat

/-- The local variables of the decoding loop, and the `bytes_read` statistic. The sizes
are `size_t` and `uint32_t` values; `bytes_read` is a signed counter whose range plays no
part in the loop and is an unbounded integer here. -/
structure HeaderLoopState where
  allowed_page_size : Nat
  header_length : Nat
  bytes_read : Int
deriving DecidableEq, Repr

/-- How the decoding loop is left: by `break` after a successful decode, or by a
`return` with a status. -/
inductive HeaderLoopExit where
  | decoded
  | returned (st : Status)
deriving DecidableEq, Repr

/-- One pass through the body of the loop: how the loop is left (`none` when the body
runs to its end and the loop goes on), the variables afterwards and the calls made. -/
structure HeaderIteration where
  exit : Option HeaderLoopExit
  state : HeaderLoopState
  calls : List StreamCall
deriving DecidableEq, Repr

/-- The outcome of the decoding loop. -/
structure HeaderLoopResult where
  exit : HeaderLoopExit
  state : HeaderLoopState
  calls : List StreamCall
deriving DecidableEq, Repr

/-- The second half of the loop body of `PageReader::next_header`, from
`header_length = allowed_page_size` on: the decode, the `break`, the range test and the
doubling. `fetch_calls` are the calls made in the first half. The offsets and sizes are
64-bit unsigned values and `header_length` a 32-bit one. -/
def decode_page_header (s : PageStream) (offset finish_offset i : Nat)
    (allowed_page_size : Nat) (peek_mode : Bool) (bytes_read : Int)
    (fetch_calls : List StreamCall) : HeaderIteration :=
  let header_length := allowed_page_size % 2 ^ 32
  let st := s.deserialize_thrift_msg i header_length
  let calls := fetch_calls ++ [StreamCall.deserialize_thrift_msg header_length]
  let header_length := st.2
  if st.1.ok = true then
    { exit := some HeaderLoopExit.decoded,
      state := { allowed_page_size := allowed_page_size, header_length := header_length,
                 bytes_read := if peek_mode = true then bytes_read + header_length
                               else bytes_read },
      calls := calls }
  else if allowed_page_size ≥ kMaxPageHeaderSize ∨
      (offset + allowed_page_size) % 2 ^ 64 ≥ finish_offset then
    { exit := some (HeaderLoopExit.returned Status.Corruption),
      state := { allowed_page_size := allowed_page_size, header_length := header_length,
                 bytes_read := bytes_read },
      calls := calls }
  else
    { exit := none,
      state := { allowed_page_size := allowed_page_size * 2 % 2 ^ 64,
                 header_length := header_length, bytes_read := bytes_read },
      calls := calls }

/-- The body of the `do ... while (true)` loop of `PageReader::next_header`, in its
`i`-th iteration: the clamp of the allowed size, the fetch of that many bytes by `peek`
or, failing that, by `read_at_fully`, and then the decode. -/
def next_header_iteration (s : PageStream) (offset finish_offset remaining i : Nat)
    (st : HeaderLoopState) : HeaderIteration :=
  let allowed_page_size := min (min st.allowed_page_size remaining) kMaxPageHeaderSize
  if s.peek i false allowed_page_size = some allowed_page_size then
    decode_page_header s offset finish_offset i allowed_page_size true st.bytes_read
      [StreamCall.peek allowed_page_size]
  else
    let read_status := s.read_at_fully i offset allowed_page_size
    if read_status.ok = false then
      { exit := some (HeaderLoopExit.returned read_status),
        state := { st with allowed_page_size := allowed_page_size },
        calls := [StreamCall.peek allowed_page_size,
                  StreamCall.read_at_fully offset allowed_page_size] }
    else if (s.peek i true allowed_page_size).isSome = true then
      decode_page_header s offset finish_offset i allowed_page_size true
        (st.bytes_read - allowed_page_size)
        [StreamCall.peek allowed_page_size, StreamCall.read_at_fully offset allowed_page_size,
         StreamCall.peek allowed_page_size]
    else
      decode_page_header s offset finish_offset i allowed_page_size false st.bytes_read
        [StreamCall.peek allowed_page_size, StreamCall.read_at_fully offset allowed_page_size,
         StreamCall.peek allowed_page_size]

/-- The `do ... while (true)` loop of `PageReader::next_header`, with a bound on the
number of iterations: `none` when the bound is used up before the loop is left. -/
def next_header_loop (s : PageStream) (offset finish_offset remaining : Nat) :
    Nat → Nat → HeaderLoopState → Option HeaderLoopResult
  | 0, _, _ => none
  | fuel + 1, i, st =>
    let it := next_header_iteration s offset finish_offset remaining i st
    match it.exit with
    | some e => some { exit := e, state := it.state, calls := it.calls }
    | none =>
      match next_header_loop s offset finish_offset remaining fuel (i + 1) it.state with
      | none => none
      | some r => some { r with calls := it.calls ++ r.calls }

/-- The header-decoding part of `PageReader::next_header`, from the declaration of
`allowed_page_size` to the end of the loop, for the values `offset` of `_offset`,
`finish_offset` of `_finish_offset` and `bytes_read` of the statistic on entry. -/
def next_header_decode (s : PageStream) (offset finish_offset : Nat) (bytes_read : Int)
    (fuel : Nat) : Option HeaderLoopResult :=
  let allowed_page_size := kDefaultPageHeaderSize
  let remaining := (finish_offset + 2 ^ 64 - offset) % 2 ^ 64
  let st : HeaderLoopState :=
    { allowed_page_size := allowed_page_size, header_length := 0, bytes_read := bytes_read }
  if (s.seek offset).ok = false then
    some { exit := HeaderLoopExit.returned (s.seek offset), state := st,
           calls := [StreamCall.seek offset] }
  else
    match next_header_loop s offset finish_offset remaining fuel 0 st with
    | none => none
    | some r => some { r with calls := StreamCall.seek offset :: r.calls }

/-- The number of bytes a call asks the stream or the decoder for. -/
def StreamCall.requested : StreamCall → Nat
  | StreamCall.seek _ => 0
  | StreamCall.peek size => size
  | StreamCall.read_at_fully _ size => size
  | StreamCall.deserialize_thrift_msg len => len

/-- The sizes of the decode attempts among the calls, in order. -/
def decode_sizes (calls : List StreamCall) : List Nat :=
  calls.filterMap fun c =>
    match c with
    | StreamCall.deserialize_thrift_msg len => some len
    | _ => none

/-! ## Example inputs -/

def ex_cfg : Config :=
  { path_gc_check_step := 1000, path_gc_check_step_interval_ms := 10,
    load_tablet_timeout_seconds := 30, ignore_load_tablet_failure := false,
    sync_tablet_meta := false, storage_flood_stage_usage_percent := 95,
    storage_flood_stage_left_capacity_bytes := 1073741824 }

/-- A live duplicate-key tablet (id 100, schema hash 200) that references `rowset1`. -/
def ex_tablet : Tablet :=
  { tablet_id := 100, schema_hash := 200, tablet_uid := { hi := 1, lo := 1 },
    keys_type := KeysType.DUP_KEYS, tablet_state := TabletState.TABLET_RUNNING,
    is_migrating := false, need_apply := false,
    check_rowset_id := fun r => decide (r = "rowset1"),
    schema_hash_path := "/disk1/data/0/100/200", data_dir_path_hash := 7 }

/-- A catalog holding `ex_tablet` only; every path under `/disk1/data/0/100/200`
that the examples use parses to `(100, 200)`. -/
def ex_world : World :=
  { get_tablet_id_and_schema_hash_from_path := fun p =>
      if p = "/disk1/data/0/100/200" ∨ p = "/disk1/data/0/100/200/rowset1.dat" then
        some (100, 200)
      else none,
    get_rowset_id_from_path := fun p =>
      if p = "/disk1/data/0/100/200/rowset1.dat" then some "rowset1" else none,
    get_tablet := fun id _ => if id = 100 then some ex_tablet else none,
    check_clone_tablet := fun _ => false,
    check_rowset_id_in_unused_rowsets := fun _ => false,
    get_store := fun p => if p = "/disk1" then some "/disk1" else none,
    try_delete_unused_tablet_path := fun _ _ _ _ => Status.OK,
    scan_tablet_delta_column_group := fun _ => (Status.OK, []),
    path_exists := fun _ => Status.OK,
    delete_dir_recursive := fun _ => Status.OK,
    get_file_modified_time := fun _ => none,
    now := 0 }

def ex_dir : DataDir :=
  { path := "/disk1", path_hash := 7, state := DiskState.ONLINE, stop_bg_worker := false,
    all_check_paths := ["/disk1/data/0/100/200/rowset1.dat"],
    all_tablet_schemahash_paths := ["/disk1/data/0/100/200"],
    all_check_dcg_files := [], all_check_crm_files := [] }

/-- A primary-key tablet (id 100) in running state. -/
def ex_pk_tablet (migrating apply : Bool) : Tablet :=
  { ex_tablet with keys_type := KeysType.PRIMARY_KEYS, is_migrating := migrating,
                   need_apply := apply }

/-- A catalog holding `ex_pk_tablet` whose delta column groups are `dcgs`. -/
def ex_pk_world (migrating apply : Bool) (dcgs : List DeltaColumnGroup) : World :=
  { ex_world with
    get_tablet_id_and_schema_hash_from_path := fun p =>
      if p = "/disk1/data/0/100/200/a.cols" ∨ p = "/disk1/data/0/100/200/b.cols" then
        some (100, 200)
      else none,
    get_tablet := fun id _ => if id = 100 then some (ex_pk_tablet migrating apply) else none,
    scan_tablet_delta_column_group := fun _ => (Status.OK, dcgs) }

/-- While the first candidate is processed the tablet has no pending apply task; from
the second candidate on it has one. The delta column groups reference `a.cols` only. -/
def ex_dcg_timeline (n : Nat) : World :=
  if n ≤ 1 then ex_pk_world false false [{ relative_column_files := ["a.cols"] }]
  else ex_pk_world false true [{ relative_column_files := ["a.cols"] }]

def ex_dcg_dir : DataDir :=
  { ex_dir with
    all_check_dcg_files := ["/disk1/data/0/100/200/a.cols", "/disk1/data/0/100/200/b.cols"] }

/-- A rowset meta of tablet 100 written by the incarnation with uid `(1, 1)`. -/
def ex_rowset_meta (state : RowsetStatePB) (uid : TabletUid) : RowsetMeta :=
  { rowset_id := "rowset1", tablet_id := 100, tablet_uid := uid, tablet_schema_hash := 200,
    partition_id := 10, txn_id := 77, load_id := { hi := 5, lo := 6 }, rowset_state := state,
    has_tablet_schema := false, skip_tablet_schema := false, version := (2, 2) }

def ex_rowset_record : RowsetRecord :=
  { tablet_uid := { hi := 1, lo := 1 }, rowset_id := "rowset1", meta_str := "meta" }

/-- A catalog holding `tab` under id 100, in which every record parses to `meta`,
`create_rowset` answers `create` and both `commit_txn` and `load_rowset` answer
`apply`. -/
def ex_load_world (meta : RowsetMeta) (tab : Tablet) (create apply : Status) : LoadWorld :=
  { parse_rowset_meta := fun _ => some meta,
    get_tablet := fun id _ => if id = 100 then some tab else none,
    create_rowset := fun _ _ => create,
    commit_txn := fun _ => apply,
    load_rowset := fun _ _ => apply }

def ex_load_state : RowsetLoadState :=
  { error_rowset_count := 0, total_rowset_count := 0, calls := [] }

/-- A store whose bounded walk times out after two records and whose retry walk sees
three; compaction fails; on the retry tablet 102 turns out to be deleted. -/
def ex_meta_store : MetaStore :=
  { walk_until_timeout := fun _ =>
      ([{ tablet_id := 101, schema_hash := 201, value := "m101" },
        { tablet_id := 100, schema_hash := 200, value := "m100" }], Status.TimedOut),
    walk :=
      ([{ tablet_id := 101, schema_hash := 201, value := "m101" },
        { tablet_id := 100, schema_hash := 200, value := "m100" },
        { tablet_id := 102, schema_hash := 202, value := "m102" }], Status.OK),
    load_tablet_from_meta := fun attempt r =>
      if attempt = 1 ∧ r.tablet_id = 102 then Status.NotFound else Status.OK,
    compact := Status.IOError,
    drop_tablet := fun _ => Status.OK }

/-- A 100 GiB disk with half a GiB left. -/
def ex_full_dir : DataDir :=
  { ex_dir with available_bytes := 536870912, disk_capacity_bytes := 107374182400 }

/-- A probe that fails with an I/O error on every attempt. -/
def ex_dead_probe (_ : Nat) : Status := Status.IOError

/-- A probe that fails twice with an I/O error and then succeeds. -/
def ex_flaky_probe (i : Nat) : Status := if i < 2 then Status.IOError else Status.OK

def ex_is_io_error (s : Status) : Bool := s = Status.IOError

/-- A file system on which every step of `get_shard` succeeds. -/
def ex_shard_fs : ShardFs :=
  { path_exist := fun _ => false, create_dir_recursive := fun _ => Status.OK,
    sync_dir := fun _ => Status.OK }

/-- A second incarnation of tablet 100, with another uid. -/
def ex_tablet_reborn : Tablet :=
  { ex_tablet with tablet_uid := { hi := 2, lo := 2 } }

/-- A healthy environment for `init`. -/
def ex_init_env : InitEnv :=
  { create_fs := Status.OK, path_exists := Status.OK, align_tag_found := false,
    space := (Status.OK, 536870912, 107374182400), cluster_id_init := Status.OK,
    create_data_dir := Status.OK, create_tmp_dir := Status.OK, path_hash := 7,
    kv_store_allocated := true, kv_store_init := Status.OK,
    create_persistent_index_dir := Status.OK }

/-- A clock at second 10000 and three temp files: `old.crm` modified 3601 seconds ago,
`edge.crm` modified exactly 3600 seconds ago, `new.crm` modified one second ago. -/
def ex_crm_world : World :=
  { ex_world with
    now := 10000,
    get_file_modified_time := fun p =>
      if p = "/disk1/tmp/old.crm" then some 6399
      else if p = "/disk1/tmp/edge.crm" then some 6400
      else if p = "/disk1/tmp/new.crm" then some 9999
      else none }

def ex_crm_dir : DataDir :=
  { ex_dir with
    all_check_crm_files := ["/disk1/tmp/edge.crm", "/disk1/tmp/new.crm", "/disk1/tmp/old.crm"] }

/-- A data tree with one shard, one tablet and one schema-hash directory that holds two
regular files and two subdirectories. -/
def ex_ls (p : String) : DirListing :=
  if p = "/disk1/data" then { status := Status.OK, dirs := ["0"], files := [] }
  else if p = "/disk1/data/0" then { status := Status.OK, dirs := ["100"], files := [] }
  else if p = "/disk1/data/0/100" then { status := Status.OK, dirs := ["200"], files := [] }
  else if p = "/disk1/data/0/100/200" then
    { status := Status.OK, dirs := ["idx.ivt", "sub"], files := ["a.cols", "rowset1.dat"] }
  else { status := Status.OK, dirs := [], files := [] }

/-- A directory whose rowset and delta-column sets were consumed while the schema-hash
set of the previous scan still holds a path. -/
def ex_half_swept_dir : DataDir :=
  { ex_dir with all_check_paths := [],
                all_tablet_schemahash_paths := ["/disk1/data/9/900/901"] }

/-- A file system on which the shard directory cannot be created. -/
def ex_broken_shard_fs : ShardFs :=
  { path_exist := fun _ => false, create_dir_recursive := fun _ => Status.IOError,
    sync_dir := fun _ => Status.OK }

/-- A catalog in which tablet 100 is soft-deleted: the lookup that includes deleted
tablets finds it, the lookup that excludes them does not. The file `rowset9.dat` lies in
its schema-hash directory; the tablet references `rowset1` only. -/
def ex_soft_deleted_world : World :=
  { ex_world with
    get_tablet_id_and_schema_hash_from_path := fun p =>
      if p = "/disk1/data/0/100/200/rowset9.dat" then some (100, 200) else none,
    get_rowset_id_from_path := fun p =>
      if p = "/disk1/data/0/100/200/rowset9.dat" then some "rowset9" else none,
    get_tablet := fun id include_deleted =>
      if id = 100 ∧ include_deleted = true then some ex_tablet else none }

/-- A store whose bounded walk times out after three records: tablet 100 was answered
with already-exists, tablet 101 with not-found, tablet 102 with OK. -/
def ex_mixed_meta_store : MetaStore :=
  { walk_until_timeout := fun _ =>
      ([{ tablet_id := 100, schema_hash := 200, value := "m100" },
        { tablet_id := 101, schema_hash := 201, value := "m101" },
        { tablet_id := 102, schema_hash := 202, value := "m102" }], Status.TimedOut),
    walk := ([], Status.OK),
    load_tablet_from_meta := fun _ r =>
      if r.tablet_id = 100 then Status.AlreadyExist
      else if r.tablet_id = 101 then Status.NotFound
      else Status.OK,
    compact := Status.OK,
    drop_tablet := fun _ => Status.OK }

/-- A stream whose peek always succeeds and whose first two decodes fail for lack of
bytes; the third decode reads a header of 40000 bytes. -/
def ex_page_stream : PageStream :=
  { seek := fun _ => Status.OK,
    peek := fun _ _ size => some size,
    read_at_fully := fun _ _ _ => Status.OK,
    deserialize_thrift_msg := fun i _ =>
      if i < 2 then (Status.Corruption, 0) else (Status.OK, 40000) }

/-- A stream on which no decode ever succeeds. -/
def ex_undecodable_stream : PageStream :=
  { seek := fun _ => Status.OK,
    peek := fun _ _ _ => none,
    read_at_fully := fun _ _ _ => Status.OK,
    deserialize_thrift_msg := fun _ _ => (Status.Corruption, 0) }

/-- A catalog with the path parser of a data tree that holds the schema-hash directories
`100/200`, `100/201` and `101/300`; tablet 100 is in the catalog, tablet 101 is not. -/
def ex_two_tablet_world : World :=
  { ex_world with
    get_tablet_id_and_schema_hash_from_path := fun p =>
      if p = "/disk1/data/0/100/200" then some (100, 200)
      else if p = "/disk1/data/0/100/201" then some (100, 201)
      else if p = "/disk1/data/0/101/300" then some (101, 300)
      else none }

/-- The same catalog after tablet 100 was dropped for good. -/
def ex_tablet_gone_world : World :=
  { ex_two_tablet_world with get_tablet := fun _ _ => none }

/-- Tablet 100 is in the catalog while the first candidate is processed and is dropped
before the second one is. -/
def ex_drop_timeline (n : Nat) : World :=
  if n ≤ 1 then ex_two_tablet_world else ex_tablet_gone_world

/-- The two schema-hash directories of tablet 100 as candidates. -/
def ex_two_schema_dir : DataDir :=
  { ex_dir with
    all_tablet_schemahash_paths := ["/disk1/data/0/100/200", "/disk1/data/0/100/201"] }

/-- A schema-hash directory of the live tablet 100 and one of the absent tablet 101 as
candidates. -/
def ex_two_tablet_dir : DataDir :=
  { ex_dir with
    all_tablet_schemahash_paths := ["/disk1/data/0/100/200", "/disk1/data/0/101/300"] }

/-- A flood stage of 95 percent with a floor of 100 TB. -/
def ex_rounding_cfg : Config :=
  { ex_cfg with storage_flood_stage_left_capacity_bytes := 100000000000000 }

/-- A volume of 1000000000000019 bytes of which 50000000000001 are available: the used
fraction is below 95 percent by less than one part in `10 ^ 16`. -/
def ex_rounding_dir : DataDir :=
  { ex_dir with available_bytes := 50000000000001, disk_capacity_bytes := 1000000000000019 }

/-- A directory whose capacity was never read. -/
def ex_unread_dir : DataDir :=
  { ex_dir with available_bytes := 0, disk_capacity_bytes := 0 }

/-! ## Lemmas: tablet-directory sweep -/

theorem gc_pacing_sleep_only (cfg : Config) (counter : Nat) (a : Action)
    (h : a ∈ gc_pacing cfg counter) : a = Action.sleep cfg.path_gc_check_step_interval_ms := by
  unfold gc_pacing at h
  split at h <;> simp at h
  exact h

theorem log_tablet_path_log_only (paths : List String) (a : Action)
    (h : a ∈ log_tablet_path paths) : a = Action.log_tablet_path paths := by
  unfold log_tablet_path at h
  split at h <;> simp at h
  exact h

/-- A deletion request of one iteration is for the parent of the candidate, carries the
ids the candidate parses to, and is made only after the catalog lookup (deleted tablets
included) found nothing. -/
theorem gc_by_tablet_step_request (cfg : Config) (w : World) (counter : Nat)
    (batch : List String) (path : String) (s : StoreId) (t h : Int) (x : String)
    (hmem : Action.try_delete_unused_tablet_path s t h x
      ∈ (gc_by_tablet_step cfg w counter batch path).2) :
    w.get_tablet_id_and_schema_hash_from_path path = some (t, h) ∧ 1 ≤ t ∧ 1 ≤ h ∧
      w.get_tablet t true = none ∧ x = parent_path path := by
  unfold gc_by_tablet_step at hmem
  have hp : ∀ a, a ∈ gc_pacing cfg counter →
      a ≠ Action.try_delete_unused_tablet_path s t h x := by
    intro a ha
    rw [gc_pacing_sleep_only cfg counter a ha]
    simp
  have hl : ∀ a, a ∈ log_tablet_path batch →
      a ≠ Action.try_delete_unused_tablet_path s t h x := by
    intro a ha
    rw [log_tablet_path_log_only batch a ha]
    simp
  cases hparse : w.get_tablet_id_and_schema_hash_from_path path with
  | none =>
    simp only [hparse] at hmem
    exact absurd rfl (hp _ hmem)
  | some ids =>
    obtain ⟨tid, sh⟩ := ids
    simp only [hparse] at hmem
    by_cases hinv : tid < 1 ∨ sh < 1
    · simp only [hinv, if_true] at hmem
      exact absurd rfl (hp _ hmem)
    · simp only [hinv, if_false] at hmem
      cases hget : w.get_tablet tid true with
      | some tab =>
        simp only [hget] at hmem
        exact absurd rfl (hp _ hmem)
      | none =>
        simp only [hget] at hmem
        cases hstore : w.get_store
            (parent_path (parent_path (parent_path (parent_path path)))) with
        | none =>
          simp only [hstore] at hmem
          exact absurd rfl (hp _ hmem)
        | some dd =>
          simp only [hstore] at hmem
          have key : Action.try_delete_unused_tablet_path s t h x
              = Action.try_delete_unused_tablet_path dd tid sh (parent_path path) := by
            split at hmem
            · split at hmem
              · simp only [List.mem_append, List.mem_singleton] at hmem
                rcases hmem with (hm | hm) | hm
                · exact absurd rfl (hp _ hm)
                · exact hm
                · exact absurd rfl (hl _ hm)
              · simp only [List.mem_append, List.mem_singleton] at hmem
                rcases hmem with hm | hm
                · exact absurd rfl (hp _ hm)
                · exact hm
            · simp only [List.mem_append, List.mem_singleton] at hmem
              rcases hmem with hm | hm
              · exact absurd rfl (hp _ hm)
              · exact hm
          injection key with h1 h2 h3 h4
          subst h2 h3 h4
          push_neg at hinv
          exact ⟨rfl, by omega, by omega, hget, rfl⟩

/-- Every deletion request of the loop comes from one candidate, processed in the
snapshot of its own iteration. -/
theorem gc_by_tablet_loop_request (cfg : Config) (tl : Nat → World) (paths : List String) :
    ∀ (counter : Nat) (batch : List String) (s : StoreId) (t h : Int) (x : String),
      Action.try_delete_unused_tablet_path s t h x
        ∈ gc_by_tablet_loop cfg tl counter batch paths →
      ∃ i q, paths[i]? = some q ∧ x = parent_path q ∧
        (tl (counter + i + 1)).get_tablet_id_and_schema_hash_from_path q = some (t, h) ∧
        (tl (counter + i + 1)).get_tablet t true = none := by
  induction paths with
  | nil =>
    intro counter batch s t h x hmem
    simp only [gc_by_tablet_loop] at hmem
    have := log_tablet_path_log_only batch _ hmem
    simp at this
  | cons p rest ih =>
    intro counter batch s t h x hmem
    simp only [gc_by_tablet_loop, List.mem_append] at hmem
    rcases hmem with hm | hm
    · obtain ⟨h1, _, _, h4, h5⟩ := gc_by_tablet_step_request cfg _ _ _ _ s t h x hm
      exact ⟨0, p, by simp, h5, h1, h4⟩
    · obtain ⟨i, q, hq, hx, hpq, hg⟩ := ih _ _ s t h x hm
      refine ⟨i + 1, q, by simpa using hq, hx, ?_, ?_⟩
      · have e : counter + (i + 1) + 1 = counter + 1 + i + 1 := by omega
        rw [e]; exact hpq
      · have e : counter + (i + 1) + 1 = counter + 1 + i + 1 := by omega
        rw [e]; exact hg

/-! ## Lemmas: rowset-id sweep -/

theorem process_garbage_path_mem (w : World) (path : String) (a : Action)
    (h : a ∈ process_garbage_path w path) :
    a = Action.delete_dir_recursive path ∧ (w.path_exists path).ok = true := by
  unfold process_garbage_path at h
  split at h
  · simp at h
    exact ⟨h, by assumption⟩
  · simp at h

/-- A deletion of one iteration is a deletion of the candidate itself, made only when
every test of the loop body passed. -/
theorem gc_by_rowsetid_step_delete (cfg : Config) (w : World) (counter : Nat)
    (path x : String)
    (hmem : Action.delete_dir_recursive x ∈ gc_by_rowsetid_step cfg w counter path) :
    x = path ∧ ∃ tid sh rid tab,
      w.get_tablet_id_and_schema_hash_from_path path = some (tid, sh) ∧ 0 < tid ∧ 0 < sh ∧
      w.get_rowset_id_from_path path = some rid ∧ w.get_tablet tid false = some tab ∧
      tab.check_rowset_id rid = false ∧ w.check_rowset_id_in_unused_rowsets rid = false := by
  unfold gc_by_rowsetid_step at hmem
  rw [List.mem_append] at hmem
  rcases hmem with hm | hm
  · have := gc_pacing_sleep_only cfg counter _ hm
    simp at this
  · cases hparse : w.get_tablet_id_and_schema_hash_from_path path with
    | none => simp [hparse] at hm
    | some ids =>
      obtain ⟨tid, sh⟩ := ids
      simp only [hparse] at hm
      split at hm
      · rename_i hpos
        cases hrid : w.get_rowset_id_from_path path with
        | none => simp [hrid] at hm
        | some rid =>
          simp only [hrid] at hm
          cases hget : w.get_tablet tid false with
          | none => simp [hget] at hm
          | some tab =>
            simp only [hget] at hm
            split at hm
            · rename_i hcond
              obtain ⟨hx, _⟩ := process_garbage_path_mem w path _ hm
              simp only [Bool.and_eq_true, Bool.not_eq_true'] at hcond
              injection hx with hx
              exact ⟨hx, tid, sh, rid, tab, rfl, hpos.1, hpos.2, rfl, hget, hcond.1, hcond.2⟩
            · simp at hm
      · simp at hm

theorem gc_by_rowsetid_loop_delete (cfg : Config) (tl : Nat → World) (paths : List String) :
    ∀ (counter : Nat) (x : String),
      Action.delete_dir_recursive x ∈ gc_by_rowsetid_loop cfg tl counter paths →
      ∃ i, paths[i]? = some x ∧ ∃ tid sh rid tab,
        (tl (counter + i + 1)).get_tablet_id_and_schema_hash_from_path x = some (tid, sh) ∧
        0 < tid ∧ 0 < sh ∧
        (tl (counter + i + 1)).get_rowset_id_from_path x = some rid ∧
        (tl (counter + i + 1)).get_tablet tid false = some tab ∧
        tab.check_rowset_id rid = false ∧
        (tl (counter + i + 1)).check_rowset_id_in_unused_rowsets rid = false := by
  induction paths with
  | nil =>
    intro counter x hmem
    simp [gc_by_rowsetid_loop] at hmem
  | cons p rest ih =>
    intro counter x hmem
    simp only [gc_by_rowsetid_loop, List.mem_append] at hmem
    rcases hmem with hm | hm
    · obtain ⟨hx, hrest⟩ := gc_by_rowsetid_step_delete cfg _ _ _ x hm
      subst hx
      exact ⟨0, by simp, hrest⟩
    · obtain ⟨i, hq, hrest⟩ := ih _ x hm
      have e : counter + (i + 1) + 1 = counter + 1 + i + 1 := by omega
      refine ⟨i + 1, by simpa using hq, ?_⟩
      rw [e]
      exact hrest

/-! ## Lemmas: delta-column-file sweep -/

/-- With unchanging collaborators `_need_gc_delta_column_files` keeps every set of the
map equal to the file names of the current listing of its tablet. -/
theorem need_gc_delta_column_files_cache_sound (w : World) (path : String) (tid : Int)
    (cache : DcgCache)
    (hs : ∀ t files, cache.lookup t = some files →
      files = dcg_file_names (w.scan_tablet_delta_column_group t).2) :
    ∀ t files, (need_gc_delta_column_files w path tid cache).2.lookup t = some files →
      files = dcg_file_names (w.scan_tablet_delta_column_group t).2 := by
  intro t files hl
  unfold need_gc_delta_column_files at hl
  split at hl
  · exact hs t files hl
  · split at hl
    · exact hs t files hl
    · split at hl
      · split at hl
        · exact hs t files hl
        · split at hl
          · exact hs t files hl
          · simp only [List.lookup_cons] at hl
            by_cases hk : t = tid
            · subst hk
              simp at hl
              exact hl.symm
            · have hb : (t == tid) = false := by simpa using hk
              rw [hb] at hl
              exact hs t files hl
      · exact hs t files hl

theorem dcg_gc_step_cache_sound (cfg : Config) (w : World) (counter : Nat) (path : String)
    (cache : DcgCache)
    (hs : ∀ t files, cache.lookup t = some files →
      files = dcg_file_names (w.scan_tablet_delta_column_group t).2) :
    ∀ t files, (dcg_gc_step cfg w counter cache path).1.lookup t = some files →
      files = dcg_file_names (w.scan_tablet_delta_column_group t).2 := by
  intro t files hl
  unfold dcg_gc_step at hl
  split at hl
  · exact hs t files hl
  · split at hl
    · dsimp only at hl
      split at hl
      · exact need_gc_delta_column_files_cache_sound w path _ cache hs t files hl
      · exact need_gc_delta_column_files_cache_sound w path _ cache hs t files hl
    · exact hs t files hl

theorem dcg_gc_loop_cache_sound (cfg : Config) (w : World) (paths : List String) :
    ∀ (counter : Nat) (cache : DcgCache),
      (∀ t files, cache.lookup t = some files →
        files = dcg_file_names (w.scan_tablet_delta_column_group t).2) →
      ∀ t files, (dcg_gc_loop cfg (fun _ => w) counter cache paths).1.lookup t = some files →
        files = dcg_file_names (w.scan_tablet_delta_column_group t).2 := by
  induction paths with
  | nil =>
    intro counter cache hs t files hl
    simp only [dcg_gc_loop] at hl
    exact hs t files hl
  | cons p rest ih =>
    intro counter cache hs t files hl
    simp only [dcg_gc_loop] at hl
    exact ih _ _ (dcg_gc_step_cache_sound cfg w _ p cache hs) t files hl

/-- A name is among the inserted file names iff some record lists it. -/
theorem mem_dcg_file_names (dcgs : List DeltaColumnGroup) (f : String) :
    f ∈ dcg_file_names dcgs ↔ ∃ dcg ∈ dcgs, f ∈ dcg.relative_column_files := by
  unfold dcg_file_names
  simp only [List.mem_flatten, List.mem_map]
  constructor
  · rintro ⟨l, ⟨dcg, hdcg, rfl⟩, hf⟩
    exact ⟨dcg, hdcg, hf⟩
  · rintro ⟨dcg, hdcg, hf⟩
    exact ⟨_, ⟨dcg, hdcg, rfl⟩, hf⟩

/-! ## Lemmas: startup load, phase 1 -/

theorem set_insert_mem (x a : Int) (l : List Int) :
    a ∈ set_insert x l ↔ a = x ∨ a ∈ l := by
  induction l with
  | nil => simp [set_insert]
  | cons y ys ih =>
    unfold set_insert
    split
    · simp
    · split
      · rename_i hxy
        subst hxy
        simp
      · simp only [List.mem_cons, ih]
        tauto

theorem set_insert_sorted (x : Int) (l : List Int) (h : l.Pairwise (fun a b => a < b)) :
    (set_insert x l).Pairwise (fun a b => a < b) := by
  induction l with
  | nil => simp [set_insert]
  | cons y ys ih =>
    rw [List.pairwise_cons] at h
    unfold set_insert
    split
    · rename_i hlt
      rw [List.pairwise_cons]
      refine ⟨?_, List.pairwise_cons.mpr h⟩
      intro a ha
      rcases List.mem_cons.mp ha with ha | ha
      · rw [ha]; exact hlt
      · exact lt_trans hlt (h.1 a ha)
    · split
      · exact List.pairwise_cons.mpr h
      · rename_i hnlt hne
        rw [List.pairwise_cons]
        refine ⟨?_, ih h.2⟩
        intro a ha
        rcases (set_insert_mem x a ys).mp ha with ha | ha
        · rw [ha]; omega
        · exact h.1 a ha

theorem sorted_nodup (l : List Int) (h : l.Pairwise (fun a b => a < b)) : l.Nodup := by
  unfold List.Nodup
  exact List.Pairwise.imp (fun hab => ne_of_lt hab) h

theorem hard_failure_iff (s : Status) :
    (!s.ok && !s.is_not_found && !s.is_already_exist) = true ↔
      (s ≠ Status.OK ∧ s ≠ Status.NotFound ∧ s ≠ Status.AlreadyExist) := by
  cases s <;> simp [Status.ok, Status.is_not_found, Status.is_already_exist]

/-- The walk with `load_tablet_func` visits every record, makes one materialization call
per record, and sorts the tablet id of each record into exactly one of the two sets. -/
theorem load_tablet_walk (answer : TabletMetaRecord → Status) (records : List TabletMetaRecord) :
    ∀ (n : Nat) (st : TabletLoadState),
      (iterate_store (fun _ => load_tablet_func answer) n st records).2 = records ∧
      (iterate_store (fun _ => load_tablet_func answer) n st records).1.calls
        = st.calls ++ records.map
            (fun r => LoadCall.load_tablet_from_meta r.tablet_id r.schema_hash r.value) ∧
      (∀ x, x ∈ (iterate_store (fun _ => load_tablet_func answer) n st records).1.tablet_ids ↔
        x ∈ st.tablet_ids ∨ ∃ r ∈ records, r.tablet_id = x ∧
          ¬ (answer r ≠ Status.OK ∧ answer r ≠ Status.NotFound ∧
              answer r ≠ Status.AlreadyExist)) ∧
      (∀ x, x ∈ (iterate_store (fun _ => load_tablet_func answer) n st
            records).1.failed_tablet_ids ↔
        x ∈ st.failed_tablet_ids ∨ ∃ r ∈ records, r.tablet_id = x ∧
          (answer r ≠ Status.OK ∧ answer r ≠ Status.NotFound ∧
              answer r ≠ Status.AlreadyExist)) ∧
      (st.tablet_ids.Pairwise (fun a b => a < b) →
        (iterate_store (fun _ => load_tablet_func answer) n st
          records).1.tablet_ids.Pairwise (fun a b => a < b)) ∧
      (st.failed_tablet_ids.Pairwise (fun a b => a < b) →
        (iterate_store (fun _ => load_tablet_func answer) n st
          records).1.failed_tablet_ids.Pairwise (fun a b => a < b)) := by
  induction records with
  | nil =>
    intro n st
    simp [iterate_store]
  | cons r rest ih =>
    intro n st
    have hcont : (load_tablet_func answer st r).2 = true := by
      unfold load_tablet_func
      dsimp only
      split <;> rfl
    obtain ⟨h1, h2, h3, h4, h5, h6⟩ := ih (n + 1) (load_tablet_func answer st r).1
    simp only [iterate_store, hcont, if_true, h1, h2]
    by_cases hard : (!(answer r).ok && !(answer r).is_not_found
        && !(answer r).is_already_exist) = true
    · have hst : (load_tablet_func answer st r).1
          = { st with failed_tablet_ids := set_insert r.tablet_id st.failed_tablet_ids,
                      calls := st.calls ++
                        [LoadCall.load_tablet_from_meta r.tablet_id r.schema_hash r.value] } := by
        unfold load_tablet_func
        simp only [hard, if_true]
      have hard' := (hard_failure_iff (answer r)).mp hard
      rw [hst] at h3 h4 h5 h6 ⊢
      refine ⟨trivial, by simp, ?_, ?_, h5, ?_⟩
      · intro x
        rw [h3 x]
        simp only [List.mem_cons, exists_eq_or_imp]
        constructor
        · rintro (h | h)
          · exact Or.inl h
          · exact Or.inr (Or.inr h)
        · rintro (h | h | h)
          · exact Or.inl h
          · exact absurd hard' h.2
          · exact Or.inr h
      · intro x
        rw [h4 x]
        simp only [set_insert_mem, List.mem_cons, exists_eq_or_imp]
        constructor
        · rintro ((h | h) | h)
          · exact Or.inr (Or.inl ⟨h.symm, hard'⟩)
          · exact Or.inl h
          · exact Or.inr (Or.inr h)
        · rintro (h | h | h)
          · exact Or.inl (Or.inr h)
          · exact Or.inl (Or.inl h.1.symm)
          · exact Or.inr h
      · intro hs
        exact h6 (set_insert_sorted _ _ hs)
    · have hst : (load_tablet_func answer st r).1
          = { st with tablet_ids := set_insert r.tablet_id st.tablet_ids,
                      calls := st.calls ++
                        [LoadCall.load_tablet_from_meta r.tablet_id r.schema_hash r.value] } := by
        unfold load_tablet_func
        simp only [hard]
        rfl
      have hard' : ¬ (answer r ≠ Status.OK ∧ answer r ≠ Status.NotFound ∧
          answer r ≠ Status.AlreadyExist) := fun h => hard ((hard_failure_iff (answer r)).mpr h)
      rw [hst] at h3 h4 h5 h6 ⊢
      refine ⟨trivial, by simp, ?_, ?_, ?_, h6⟩
      · intro x
        rw [h3 x]
        simp only [set_insert_mem, List.mem_cons, exists_eq_or_imp]
        constructor
        · rintro ((h | h) | h)
          · exact Or.inr (Or.inl ⟨h.symm, hard'⟩)
          · exact Or.inl h
          · exact Or.inr (Or.inr h)
        · rintro (h | h | h)
          · exact Or.inl (Or.inr h)
          · exact Or.inl (Or.inl h.1.symm)
          · exact Or.inr h
      · intro x
        rw [h4 x]
        simp only [List.mem_cons, exists_eq_or_imp]
        constructor
        · rintro (h | h)
          · exact Or.inl h
          · exact Or.inr (Or.inr h)
        · rintro (h | h | h)
          · exact Or.inl h
          · exact absurd h.2 hard'
          · exact Or.inr h
      · intro hs
        exact h5 (set_insert_sorted _ _ hs)

/-- The two fatal checks at the end of phase 1. -/
theorem tablet_load_exit_iff (failed : List Int) (ignore : Bool) (s : Status) :
    (if failed.length ≠ 0 ∧ ignore = false then TabletLoadExit.fatal_load_failure
      else if s.ok = false then TabletLoadExit.fatal_walk_failure
      else TabletLoadExit.finished) ≠ TabletLoadExit.finished ↔
      ((ignore = false ∧ ∃ x, x ∈ failed) ∨ s ≠ Status.OK) := by
  have hne : failed.length ≠ 0 ↔ ∃ x, x ∈ failed := by
    cases failed with
    | nil => simp
    | cons a l => simp
  have hs : s.ok = false ↔ s ≠ Status.OK := by
    cases s <;> simp [Status.ok]
  by_cases h1 : failed.length ≠ 0 ∧ ignore = false
  · rw [if_pos h1]
    simp only [ne_eq, reduceCtorEq, not_false_eq_true, true_iff]
    exact Or.inl ⟨h1.2, hne.mp h1.1⟩
  · rw [if_neg h1]
    by_cases h2 : s.ok = false
    · rw [if_pos h2]
      simp only [ne_eq, reduceCtorEq, not_false_eq_true, true_iff]
      exact Or.inr (hs.mp h2)
    · rw [if_neg h2]
      simp only [ne_eq, not_true_eq_false, false_iff]
      rintro (h | h)
      · exact h1 ⟨hne.mpr h.2, h.1⟩
      · exact h2 (hs.mpr h)

/-- Phase 1 when the bounded walk does not time out: no retry. -/
theorem load_tablets_without_timeout (cfg : Config) (ms : MetaStore)
    (h : (ms.walk_until_timeout cfg.load_tablet_timeout_seconds).2 ≠ Status.TimedOut) :
    (load_tablets cfg ms).state
      = (iterate_store (fun _ => load_tablet_func (ms.load_tablet_from_meta 0)) 0
          { tablet_ids := [], failed_tablet_ids := [],
            calls := [LoadCall.walk_until_timeout cfg.load_tablet_timeout_seconds] }
          (ms.walk_until_timeout cfg.load_tablet_timeout_seconds).1).1 ∧
    (load_tablets cfg ms).load_tablet_status
      = (ms.walk_until_timeout cfg.load_tablet_timeout_seconds).2 := by
  have ht : (ms.walk_until_timeout cfg.load_tablet_timeout_seconds).2.is_time_out = false := by
    simpa [Status.is_time_out] using h
  unfold load_tablets
  simp [ht]

/-- Phase 1 when the bounded walk times out: the sets are reset and the retry walk
decides. -/
theorem load_tablets_with_timeout (cfg : Config) (ms : MetaStore)
    (h : (ms.walk_until_timeout cfg.load_tablet_timeout_seconds).2 = Status.TimedOut) :
    (load_tablets cfg ms).state
      = (iterate_store (fun _ => load_tablet_func (ms.load_tablet_from_meta 1)) 0
          { tablet_ids := [], failed_tablet_ids := [],
            calls := (iterate_store (fun _ => load_tablet_func (ms.load_tablet_from_meta 0)) 0
                { tablet_ids := [], failed_tablet_ids := [],
                  calls := [LoadCall.walk_until_timeout cfg.load_tablet_timeout_seconds] }
                (ms.walk_until_timeout cfg.load_tablet_timeout_seconds).1).1.calls
              ++ [LoadCall.compact]
              ++ (iterate_store (fun _ => load_tablet_func (ms.load_tablet_from_meta 0)) 0
                { tablet_ids := [], failed_tablet_ids := [],
                  calls := [LoadCall.walk_until_timeout cfg.load_tablet_timeout_seconds] }
                (ms.walk_until_timeout cfg.load_tablet_timeout_seconds).1).1.tablet_ids.map
                  LoadCall.drop_tablet_keep_meta_and_files
              ++ [LoadCall.walk] } ms.walk.1).1 ∧
    (load_tablets cfg ms).load_tablet_status = ms.walk.2 := by
  have ht : (ms.walk_until_timeout cfg.load_tablet_timeout_seconds).2.is_time_out = true := by
    simp [Status.is_time_out, h]
  unfold load_tablets
  simp [ht]

theorem load_tablets_exit (cfg : Config) (ms : MetaStore) :
    (load_tablets cfg ms).exit
      = if (load_tablets cfg ms).state.failed_tablet_ids.length ≠ 0 ∧
            cfg.ignore_load_tablet_failure = false then
          TabletLoadExit.fatal_load_failure
        else if (load_tablets cfg ms).load_tablet_status.ok = false then
          TabletLoadExit.fatal_walk_failure
        else TabletLoadExit.finished := by
  rfl

/-! ## Lemmas: health check -/

/-- When every remaining attempt fails with an I/O error the loop uses them all. -/
theorem health_check_loop_all_failed (probe : Nat → Status) (is_io_error : Status → Bool) :
    ∀ (n i : Nat),
      (∀ j, j < n → (probe (i + j)).ok = false ∧ is_io_error (probe (i + j)) = true) →
      health_check_loop probe is_io_error n i = (true, i + n) := by
  intro n
  induction n with
  | zero =>
    intro i _
    simp [health_check_loop]
  | succ n ih =>
    intro i h
    have h0 := h 0 (Nat.succ_pos n)
    simp only [Nat.add_zero] at h0
    have hrest : ∀ j, j < n →
        (probe (i + 1 + j)).ok = false ∧ is_io_error (probe (i + 1 + j)) = true := by
      intro j hj
      have := h (j + 1) (Nat.succ_lt_succ hj)
      have e : i + (j + 1) = i + 1 + j := by omega
      rw [e] at this
      exact this
    unfold health_check_loop
    simp only [h0.1, h0.2, Bool.not_true, Bool.or_self, Bool.false_eq_true, if_false]
    rw [ih (i + 1) hrest]
    congr 1
    omega

/-- The loop stops right after the first attempt that succeeds or fails with another
kind of error. -/
theorem health_check_loop_stops (probe : Nat → Status) (is_io_error : Status → Bool) :
    ∀ (n i k : Nat), k < n →
      (∀ j, j < k → (probe (i + j)).ok = false ∧ is_io_error (probe (i + j)) = true) →
      ((probe (i + k)).ok = true ∨ is_io_error (probe (i + k)) = false) →
      health_check_loop probe is_io_error n i = (false, i + k + 1) := by
  intro n
  induction n with
  | zero =>
    intro i k hk
    omega
  | succ n ih =>
    intro i k hk hbad hgood
    cases k with
    | zero =>
      simp only [Nat.add_zero] at hgood
      have hc : ((probe i).ok || !is_io_error (probe i)) = true := by
        rcases hgood with h | h <;> simp [h]
      unfold health_check_loop
      simp only [hc, if_true, Nat.add_zero]
    | succ k =>
      have h0 := hbad 0 (Nat.succ_pos k)
      simp only [Nat.add_zero] at h0
      have hrest : ∀ j, j < k →
          (probe (i + 1 + j)).ok = false ∧ is_io_error (probe (i + 1 + j)) = true := by
        intro j hj
        have := hbad (j + 1) (Nat.succ_lt_succ hj)
        have e : i + (j + 1) = i + 1 + j := by omega
        rw [e] at this
        exact this
      have hgood' : (probe (i + 1 + k)).ok = true ∨ is_io_error (probe (i + 1 + k)) = false := by
        have e : i + (k + 1) = i + 1 + k := by omega
        rw [e] at hgood
        exact hgood
      unfold health_check_loop
      simp only [h0.1, h0.2, Bool.not_true, Bool.or_self, Bool.false_eq_true, if_false]
      rw [ih (i + 1) k (Nat.lt_of_succ_lt_succ hk) hrest hgood']
      congr 1
      omega

/-- The flag `all_failed` is true exactly when every attempt failed with an I/O error. -/
theorem health_check_loop_all_failed_iff (probe : Nat → Status)
    (is_io_error : Status → Bool) :
    ∀ (n i : Nat),
      (health_check_loop probe is_io_error n i).1 = true ↔
        ∀ j, j < n → (probe (i + j)).ok = false ∧ is_io_error (probe (i + j)) = true := by
  intro n
  induction n with
  | zero =>
    intro i
    simp [health_check_loop]
  | succ n ih =>
    intro i
    unfold health_check_loop
    by_cases hc : ((probe i).ok || !is_io_error (probe i)) = true
    · simp only [hc, if_true, Bool.false_eq_true, false_iff]
      intro h
      have h0 := h 0 (Nat.succ_pos n)
      simp only [Nat.add_zero] at h0
      simp [h0.1, h0.2] at hc
    · simp only [hc, if_false, Bool.false_eq_true]
      rw [ih (i + 1)]
      have hc' : (probe i).ok = false ∧ is_io_error (probe i) = true := by
        simpa using hc
      constructor
      · intro h j hj
        cases j with
        | zero => simpa using hc'
        | succ j =>
          have := h j (Nat.lt_of_succ_lt_succ hj)
          have e : i + (j + 1) = i + 1 + j := by omega
          rw [e]
          exact this
      · intro h j hj
        have := h (j + 1) (Nat.succ_lt_succ hj)
        have e : i + (j + 1) = i + 1 + j := by omega
        rw [e] at this
        exact this

/-! ## Lemmas: shards and the set of live tablets -/

/-- Every call of `get_shard` advances the counter, whatever the file system answers. -/
theorem get_shard_counter (cfg : Config) (m : Nat) (fs : ShardFs) (dir : DataDir) :
    (get_shard cfg m fs dir).dir.current_shard = (dir.current_shard + 1) % m := by
  unfold get_shard
  dsimp only
  split
  · rfl
  · split <;> rfl

theorem get_shard_output (cfg : Config) (m : Nat) (fs : ShardFs) (dir : DataDir) :
    ((get_shard cfg m fs dir).status = Status.OK →
      (get_shard cfg m fs dir).shard = some dir.current_shard) ∧
    ((get_shard cfg m fs dir).status ≠ Status.OK → (get_shard cfg m fs dir).shard = none) := by
  unfold get_shard
  dsimp only
  split
  · rename_i h
    have hne : fs.create_dir_recursive
        (dir.path ++ DATA_PREFIX ++ "/" ++ toString dir.current_shard) ≠ Status.OK := by
      intro h'
      rw [h'] at h
      exact Bool.noConfusion h
    exact ⟨fun h' => absurd h' hne, fun _ => rfl⟩
  · split
    · rename_i h
      have hne : fs.sync_dir (dir.path ++ DATA_PREFIX) ≠ Status.OK := by
        intro h'
        rw [h'] at h
        simp [Status.ok] at h
      exact ⟨fun h' => absurd h' hne, fun _ => rfl⟩
    · exact ⟨fun _ => rfl, fun h' => absurd rfl h'⟩

theorem get_shard_calls_counter (cfg : Config) (m : Nat) (fss : Nat → ShardFs) (dir : DataDir)
    (hc : dir.current_shard < m) :
    ∀ k, (get_shard_calls cfg m fss dir k).current_shard = (dir.current_shard + k) % m := by
  intro k
  induction k with
  | zero =>
    simp only [get_shard_calls, Nat.add_zero]
    exact (Nat.mod_eq_of_lt hc).symm
  | succ k ih =>
    simp only [get_shard_calls]
    rw [get_shard_counter, ih, Nat.mod_add_mod]
    rfl

/-- A call of `get_shard` returns OK with the counter value on entry as the shard exactly
when the shard directory can be created and the sync of the data directory, when it is
needed, succeeds; otherwise it writes no shard. -/
theorem get_shard_status (cfg : Config) (m : Nat) (fs : ShardFs) (dir : DataDir) :
    ((fs.create_dir_recursive
          (dir.path ++ DATA_PREFIX ++ "/" ++ toString dir.current_shard) = Status.OK ∧
        (fs.path_exist (dir.path ++ DATA_PREFIX ++ "/" ++ toString dir.current_shard) = true ∨
          cfg.sync_tablet_meta = false ∨
          fs.sync_dir (dir.path ++ DATA_PREFIX) = Status.OK)) →
      (get_shard cfg m fs dir).status = Status.OK ∧
      (get_shard cfg m fs dir).shard = some dir.current_shard) ∧
    (¬ (fs.create_dir_recursive
          (dir.path ++ DATA_PREFIX ++ "/" ++ toString dir.current_shard) = Status.OK ∧
        (fs.path_exist (dir.path ++ DATA_PREFIX ++ "/" ++ toString dir.current_shard) = true ∨
          cfg.sync_tablet_meta = false ∨
          fs.sync_dir (dir.path ++ DATA_PREFIX) = Status.OK)) →
      (get_shard cfg m fs dir).status ≠ Status.OK ∧
      (get_shard cfg m fs dir).shard = none) := by
  unfold get_shard
  dsimp only
  cases hcreate : fs.create_dir_recursive
      (dir.path ++ DATA_PREFIX ++ "/" ++ toString dir.current_shard) <;>
    cases hexist : fs.path_exist
      (dir.path ++ DATA_PREFIX ++ "/" ++ toString dir.current_shard) <;>
    cases hsync : cfg.sync_tablet_meta <;>
    cases hdir : fs.sync_dir (dir.path ++ DATA_PREFIX) <;>
    simp [Status.ok]

/-- The calls of `get_shard` leave the root path alone. -/
theorem get_shard_calls_path (cfg : Config) (m : Nat) (fss : Nat → ShardFs) (dir : DataDir) :
    ∀ k, (get_shard_calls cfg m fss dir k).path = dir.path := by
  intro k
  induction k with
  | zero => rfl
  | succ k ih =>
    simp only [get_shard_calls]
    rw [← ih]
    unfold get_shard
    dsimp only
    split
    · rfl
    · split <;> rfl

theorem mod_shift_injective (m k i j : Nat) (hi : i < m) (hj : j < m)
    (h : (k + i) % m = (k + j) % m) : i = j := by
  have h1 : Nat.ModEq m (k + i) (k + j) := h
  have h2 : Nat.ModEq m i j := Nat.ModEq.add_left_cancel' k h1
  exact Nat.ModEq.eq_of_lt_of_lt h2 hi hj

/-- After a sequence of registration calls the set has no duplicates, and an identity
is in it iff it was there before and never deregistered, or some registration of it is
not followed by a deregistration of it. -/
theorem apply_tablet_set_calls_spec (calls : List TabletSetCall) :
    ∀ dir : DataDir, dir.tablet_set.Nodup →
      (apply_tablet_set_calls dir calls).tablet_set.Nodup ∧
      ∀ x, x ∈ (apply_tablet_set_calls dir calls).tablet_set ↔
        ((x ∈ dir.tablet_set ∧
            ∀ t, TabletSetCall.deregister t ∈ calls → tablet_info_of t ≠ x) ∨
          ∃ pre post t, calls = pre ++ TabletSetCall.register t :: post ∧
            tablet_info_of t = x ∧
            ∀ t', TabletSetCall.deregister t' ∈ post → tablet_info_of t' ≠ x) := by
  induction calls with
  | nil =>
    intro dir hnd
    refine ⟨hnd, ?_⟩
    intro x
    simp [apply_tablet_set_calls]
  | cons c rest ih =>
    intro dir hnd
    cases c with
    | register t =>
      have hnd' : (register_tablet dir t).tablet_set.Nodup := by
        unfold register_tablet
        split
        · exact hnd
        · rename_i hnew
          exact List.Nodup.append hnd (List.nodup_singleton _)
            (by
              intro a ha hb
              rw [List.mem_singleton] at hb
              rw [hb] at ha
              exact hnew ha)
      have hmem : ∀ x, x ∈ (register_tablet dir t).tablet_set ↔
          x ∈ dir.tablet_set ∨ x = tablet_info_of t := by
        intro x
        unfold register_tablet
        split
        · rename_i hold
          constructor
          · exact fun h => Or.inl h
          · rintro (h | h)
            · exact h
            · rw [h]; exact hold
        · simp
      obtain ⟨h1, h2⟩ := ih (register_tablet dir t) hnd'
      refine ⟨h1, ?_⟩
      intro x
      simp only [apply_tablet_set_calls]
      rw [h2 x, hmem x]
      constructor
      · rintro (⟨hin | heq, hno⟩ | ⟨pre, post, t0, hsplit, hinfo, hno⟩)
        · left
          refine ⟨hin, ?_⟩
          intro t' ht'
          rcases List.mem_cons.mp ht' with h | h
          · exact TabletSetCall.noConfusion h
          · exact hno t' h
        · right
          exact ⟨[], rest, t, rfl, heq.symm, hno⟩
        · right
          exact ⟨TabletSetCall.register t :: pre, post, t0, by rw [hsplit]; rfl, hinfo, hno⟩
      · rintro (⟨hin, hno⟩ | ⟨pre, post, t0, hsplit, hinfo, hno⟩)
        · left
          exact ⟨Or.inl hin, fun t' ht' => hno t' (List.mem_cons_of_mem _ ht')⟩
        · rcases List.cons_eq_append_iff.mp hsplit with ⟨hpre, hrest⟩ | ⟨pre', hpre, hrest⟩
          · left
            injection hrest with hhead htail
            injection hhead with ht
            subst ht
            subst htail
            exact ⟨Or.inr hinfo.symm, hno⟩
          · right
            exact ⟨pre', post, t0, hrest, hinfo, hno⟩
    | deregister t =>
      have hnd' : (deregister_tablet dir t).tablet_set.Nodup := List.Nodup.erase _ hnd
      have hmem : ∀ x, x ∈ (deregister_tablet dir t).tablet_set ↔
          x ≠ tablet_info_of t ∧ x ∈ dir.tablet_set := by
        intro x
        exact List.Nodup.mem_erase_iff hnd
      obtain ⟨h1, h2⟩ := ih (deregister_tablet dir t) hnd'
      refine ⟨h1, ?_⟩
      intro x
      simp only [apply_tablet_set_calls]
      rw [h2 x, hmem x]
      constructor
      · rintro (⟨⟨hne, hin⟩, hno⟩ | ⟨pre, post, t0, hsplit, hinfo, hno⟩)
        · left
          refine ⟨hin, ?_⟩
          intro t' ht'
          rcases List.mem_cons.mp ht' with h | h
          · injection h with h
            rw [h]
            exact fun e => hne e.symm
          · exact hno t' h
        · right
          exact ⟨TabletSetCall.deregister t :: pre, post, t0, by rw [hsplit]; rfl, hinfo, hno⟩
      · rintro (⟨hin, hno⟩ | ⟨pre, post, t0, hsplit, hinfo, hno⟩)
        · left
          refine ⟨⟨?_, hin⟩, fun t' ht' => hno t' (List.mem_cons_of_mem _ ht')⟩
          exact fun e => hno t (List.mem_cons_self _ _) e.symm
        · rcases List.cons_eq_append_iff.mp hsplit with ⟨hpre, hrest⟩ | ⟨pre', hpre, hrest⟩
          · injection hrest with hhead htail
            exact TabletSetCall.noConfusion hhead
          · right
            exact ⟨pre', post, t0, hrest, hinfo, hno⟩

/-! ## Lemmas: one loop iteration per candidate -/

/-- The actions of the tablet-directory loop are one block per candidate, in order,
followed by the flush of the log batch. -/
theorem gc_by_tablet_loop_blocks (cfg : Config) (tl : Nat → World) (paths : List String) :
    ∀ (counter : Nat) (batch : List String),
      ∃ (outs : List (List Action)) (last : List String),
        outs.length = paths.length ∧
        gc_by_tablet_loop cfg tl counter batch paths = outs.flatten ++ log_tablet_path last ∧
        ∀ i p, paths[i]? = some p → ∃ b, outs[i]?
          = some (gc_by_tablet_step cfg (tl (counter + i + 1)) (counter + i + 1) b p).2 := by
  induction paths with
  | nil =>
    intro counter batch
    exact ⟨[], batch, rfl, by simp [gc_by_tablet_loop], by simp⟩
  | cons q rest ih =>
    intro counter batch
    obtain ⟨outs, last, hlen, hact, hidx⟩ := ih (counter + 1)
      (gc_by_tablet_step cfg (tl (counter + 1)) (counter + 1) batch q).1
    refine ⟨(gc_by_tablet_step cfg (tl (counter + 1)) (counter + 1) batch q).2 :: outs, last,
      by simp [hlen], ?_, ?_⟩
    · simp only [gc_by_tablet_loop, hact, List.flatten_cons, List.append_assoc]
    · intro i p hp
      cases i with
      | zero =>
        simp only [List.getElem?_cons_zero, Option.some.injEq] at hp
        subst hp
        exact ⟨batch, by simp⟩
      | succ i =>
        simp only [List.getElem?_cons_succ] at hp
        obtain ⟨b, hb⟩ := hidx i p hp
        refine ⟨b, ?_⟩
        have e : counter + (i + 1) + 1 = counter + 1 + i + 1 := by omega
        simp only [List.getElem?_cons_succ, e]
        exact hb

/-- The actions of the rowset-id loop are one block per candidate, in order. -/
theorem gc_by_rowsetid_loop_blocks (cfg : Config) (tl : Nat → World) (paths : List String) :
    ∀ (counter : Nat),
      ∃ (outs : List (List Action)),
        outs.length = paths.length ∧
        gc_by_rowsetid_loop cfg tl counter paths = outs.flatten ∧
        ∀ i p, paths[i]? = some p → outs[i]?
          = some (gc_by_rowsetid_step cfg (tl (counter + i + 1)) (counter + i + 1) p) := by
  induction paths with
  | nil =>
    intro counter
    exact ⟨[], rfl, by simp [gc_by_rowsetid_loop], by simp⟩
  | cons q rest ih =>
    intro counter
    obtain ⟨outs, hlen, hact, hidx⟩ := ih (counter + 1)
    refine ⟨gc_by_rowsetid_step cfg (tl (counter + 1)) (counter + 1) q :: outs,
      by simp [hlen], ?_, ?_⟩
    · simp only [gc_by_rowsetid_loop, hact, List.flatten_cons]
    · intro i p hp
      cases i with
      | zero =>
        simp only [List.getElem?_cons_zero, Option.some.injEq] at hp
        subst hp
        simp
      | succ i =>
        simp only [List.getElem?_cons_succ] at hp
        have e : counter + (i + 1) + 1 = counter + 1 + i + 1 := by omega
        simp only [List.getElem?_cons_succ, e]
        exact hidx i p hp

/-- The actions of the delta-column-file loop are one block per candidate, in order. -/
theorem dcg_gc_loop_blocks (cfg : Config) (tl : Nat → World) (paths : List String) :
    ∀ (counter : Nat) (cache : DcgCache),
      ∃ (outs : List (List Action)),
        outs.length = paths.length ∧
        (dcg_gc_loop cfg tl counter cache paths).2 = outs.flatten ∧
        ∀ i p, paths[i]? = some p → ∃ c, outs[i]?
          = some (dcg_gc_step cfg (tl (counter + i + 1)) (counter + i + 1) c p).2 := by
  induction paths with
  | nil =>
    intro counter cache
    exact ⟨[], rfl, by simp [dcg_gc_loop], by simp⟩
  | cons q rest ih =>
    intro counter cache
    obtain ⟨outs, hlen, hact, hidx⟩ := ih (counter + 1)
      (dcg_gc_step cfg (tl (counter + 1)) (counter + 1) cache q).1
    refine ⟨(dcg_gc_step cfg (tl (counter + 1)) (counter + 1) cache q).2 :: outs,
      by simp [hlen], ?_, ?_⟩
    · simp only [dcg_gc_loop, hact, List.flatten_cons]
    · intro i p hp
      cases i with
      | zero =>
        simp only [List.getElem?_cons_zero, Option.some.injEq] at hp
        subst hp
        exact ⟨cache, by simp⟩
      | succ i =>
        simp only [List.getElem?_cons_succ] at hp
        obtain ⟨c, hc⟩ := hidx i p hp
        refine ⟨c, ?_⟩
        have e : counter + (i + 1) + 1 = counter + 1 + i + 1 := by omega
        simp only [List.getElem?_cons_succ, e]
        exact hc

/-- The actions of the temp-merge-file loop are one block per candidate, in order. -/
theorem crm_gc_loop_blocks (cfg : Config) (tl : Nat → World) (threshold : Int)
    (paths : List String) :
    ∀ (counter : Nat),
      ∃ (outs : List (List Action)),
        outs.length = paths.length ∧
        crm_gc_loop cfg tl threshold counter paths = outs.flatten ∧
        ∀ i p, paths[i]? = some p → outs[i]?
          = some (crm_gc_step cfg (tl (counter + i + 1)) (counter + i + 1) threshold p) := by
  induction paths with
  | nil =>
    intro counter
    exact ⟨[], rfl, by simp [crm_gc_loop], by simp⟩
  | cons q rest ih =>
    intro counter
    obtain ⟨outs, hlen, hact, hidx⟩ := ih (counter + 1)
    refine ⟨crm_gc_step cfg (tl (counter + 1)) (counter + 1) threshold q :: outs,
      by simp [hlen], ?_, ?_⟩
    · simp only [crm_gc_loop, hact, List.flatten_cons]
    · intro i p hp
      cases i with
      | zero =>
        simp only [List.getElem?_cons_zero, Option.some.injEq] at hp
        subst hp
        simp
      | succ i =>
        simp only [List.getElem?_cons_succ] at hp
        have e : counter + (i + 1) + 1 = counter + 1 + i + 1 := by omega
        simp only [List.getElem?_cons_succ, e]
        exact hidx i p hp

/-! ## Lemmas: temp-merge-file sweep -/

/-- When one iteration of the temp-merge-file sweep deletes. -/
theorem crm_gc_step_delete_iff (cfg : Config) (w : World) (counter : Nat) (threshold : Int)
    (path x : String) :
    Action.delete_dir_recursive x ∈ crm_gc_step cfg w counter threshold path ↔
      x = path ∧ ∃ m, w.get_file_modified_time path = some m ∧ 0 < m ∧
        w.now % 2 ^ 64 ≥ (threshold + (m : Int)) % 2 ^ 64 ∧
        (w.path_exists path).ok = true := by
  unfold crm_gc_step
  rw [List.mem_append]
  have hp : ¬ Action.delete_dir_recursive x ∈ gc_pacing cfg counter := by
    intro h
    have := gc_pacing_sleep_only cfg counter _ h
    simp at this
  cases hm : w.get_file_modified_time path with
  | none => simp [hp]
  | some m =>
    simp only [hp, false_or]
    by_cases hpos : m ≤ 0
    · simp only [hpos, if_true, List.not_mem_nil, false_iff]
      rintro ⟨_, m', hm', hlt, _⟩
      simp only [Option.some.injEq] at hm'
      omega
    · simp only [hpos, if_false]
      by_cases hold : w.now % 2 ^ 64 ≥ (threshold + (m : Int)) % 2 ^ 64
      · simp only [hold, if_true]
        unfold process_garbage_path
        by_cases hex : (w.path_exists path).ok = true
        · simp only [hex, if_true, List.mem_singleton, Action.delete_dir_recursive.injEq]
          constructor
          · intro h
            exact ⟨h, m, rfl, by omega, hold, trivial⟩
          · intro h
            exact h.1
        · have hex' : (w.path_exists path).ok = false := by simpa using hex
          simp [hex']
      · simp only [hold, if_false, List.not_mem_nil, false_iff]
        rintro ⟨_, m', hm', _, h, _⟩
        simp only [Option.some.injEq] at hm'
        subst hm'
        exact hold h

theorem crm_gc_loop_delete_iff (cfg : Config) (tl : Nat → World) (threshold : Int)
    (paths : List String) :
    ∀ (counter : Nat) (x : String),
      Action.delete_dir_recursive x ∈ crm_gc_loop cfg tl threshold counter paths ↔
        ∃ i, paths[i]? = some x ∧ ∃ m,
          (tl (counter + i + 1)).get_file_modified_time x = some m ∧ 0 < m ∧
          (tl (counter + i + 1)).now % 2 ^ 64 ≥ (threshold + (m : Int)) % 2 ^ 64 ∧
          ((tl (counter + i + 1)).path_exists x).ok = true := by
  induction paths with
  | nil =>
    intro counter x
    simp [crm_gc_loop]
  | cons p rest ih =>
    intro counter x
    simp only [crm_gc_loop, List.mem_append, crm_gc_step_delete_iff, ih]
    constructor
    · rintro (⟨hx, m, h⟩ | ⟨i, hi, m, h⟩)
      · subst hx
        exact ⟨0, by simp, m, h⟩
      · refine ⟨i + 1, by simpa using hi, m, ?_⟩
        have e : counter + (i + 1) + 1 = counter + 1 + i + 1 := by omega
        rw [e]
        exact h
    · rintro ⟨i, hi, m, h⟩
      cases i with
      | zero =>
        simp only [List.getElem?_cons_zero, Option.some.injEq] at hi
        subst hi
        exact Or.inl ⟨rfl, m, h⟩
      | succ i =>
        simp only [List.getElem?_cons_succ] at hi
        have e : counter + (i + 1) + 1 = counter + 1 + i + 1 := by omega
        rw [e] at h
        exact Or.inr ⟨i, hi, m, h⟩

/-! ## Lemmas: paths as strings -/

/-- One call of the rowset visitor: it answers true, counts the record once and counts at
most one error. -/
theorem load_rowset_func_counts (w : LoadWorld) (st : RowsetLoadState) (r : RowsetRecord) :
    (load_rowset_func w st r).2 = true ∧
    (load_rowset_func w st r).1.total_rowset_count = st.total_rowset_count + 1 ∧
    ((load_rowset_func w st r).1.error_rowset_count = st.error_rowset_count ∨
      (load_rowset_func w st r).1.error_rowset_count = st.error_rowset_count + 1) := by
  unfold load_rowset_func
  refine ⟨?_, ?_, ?_⟩ <;> (repeat' split) <;> simp <;> split <;> simp

/-- The rowset traversal from any state: every record is visited, the total grows by the
number of records and the error count by at most that number. -/
theorem load_rowsets_loop_counts (tl : Nat → LoadWorld) (records : List RowsetRecord) :
    ∀ (n : Nat) (st : RowsetLoadState),
      (iterate_store (fun n st r => load_rowset_func (tl n) st r) n st records).2 = records ∧
      (iterate_store (fun n st r => load_rowset_func (tl n) st r) n st
        records).1.total_rowset_count = st.total_rowset_count + records.length ∧
      st.error_rowset_count ≤ (iterate_store (fun n st r => load_rowset_func (tl n) st r) n st
        records).1.error_rowset_count ∧
      (iterate_store (fun n st r => load_rowset_func (tl n) st r) n st
        records).1.error_rowset_count ≤ st.error_rowset_count + records.length := by
  induction records with
  | nil =>
    intro n st
    simp [iterate_store]
  | cons r rest ih =>
    intro n st
    obtain ⟨h1, h2, h3⟩ := load_rowset_func_counts (tl (n + 1)) st r
    obtain ⟨h4, h5, h6, h7⟩ := ih (n + 1) (load_rowset_func (tl (n + 1)) st r).1
    simp only [iterate_store, h1, if_true, h4, h5, h2, List.length_cons]
    refine ⟨trivial, by omega, ?_, ?_⟩
    · rcases h3 with h3 | h3 <;> omega
    · rcases h3 with h3 | h3 <;> omega

/-! ## Lemmas: page header decoding -/

/-- Adding the wrapped difference of two 64-bit values to the subtrahend gives the
minuend back. -/
theorem wrap_remaining (offset finish_offset : Nat) (hoff : offset < 2 ^ 64)
    (hfin : finish_offset < 2 ^ 64) :
    (offset + (finish_offset + 2 ^ 64 - offset) % 2 ^ 64) % 2 ^ 64 = finish_offset := by
  norm_num at hoff hfin ⊢
  omega

/-- The decode half of the loop body: it makes one decode attempt of the allowed size,
and goes on only below the maximum and short of the finish offset, with twice the
size. -/
theorem decode_page_header_facts (s : PageStream) (offset finish_offset i a : Nat)
    (peek_mode : Bool) (bytes_read : Int) (fetch_calls : List StreamCall)
    (ha : a ≤ kMaxPageHeaderSize) :
    (decode_page_header s offset finish_offset i a peek_mode bytes_read fetch_calls).calls
      = fetch_calls ++ [StreamCall.deserialize_thrift_msg a] ∧
    ((decode_page_header s offset finish_offset i a peek_mode bytes_read fetch_calls).exit
        = none →
      a < kMaxPageHeaderSize ∧ (offset + a) % 2 ^ 64 < finish_offset ∧
      (decode_page_header s offset finish_offset i a peek_mode bytes_read
        fetch_calls).state.allowed_page_size = 2 * a) := by
  have hk : kMaxPageHeaderSize = 16777216 := by decide
  have hmod : a % 2 ^ 32 = a := Nat.mod_eq_of_lt (by rw [hk] at ha; norm_num; omega)
  unfold decode_page_header
  simp only [hmod]
  by_cases h1 : (s.deserialize_thrift_msg i a).1.ok = true
  · rw [if_pos h1]
    simp
  · by_cases h2 : a ≥ kMaxPageHeaderSize ∨ (offset + a) % 2 ^ 64 ≥ finish_offset
    · rw [if_neg h1, if_pos h2]
      simp
    · rw [if_neg h1, if_neg h2]
      refine ⟨rfl, fun _ => ?_⟩
      have h3 : a < kMaxPageHeaderSize ∧ (offset + a) % 2 ^ 64 < finish_offset := by
        constructor
        · by_contra hc
          exact h2 (Or.inl (by omega))
        · by_contra hc
          exact h2 (Or.inr (by omega))
      refine ⟨h3.1, h3.2, ?_⟩
      have h4 := h3.1
      rw [hk] at h4
      show a * 2 % 2 ^ 64 = 2 * a
      norm_num
      omega

/-- One pass through the loop body: no call asks for more than the maximum, there is at
most one decode attempt, of the clamped size, and the loop goes on only after a decode
attempt of the size the pass was entered with, which is below the maximum, and with
twice that size. -/
theorem next_header_iteration_facts (s : PageStream) (offset finish_offset i : Nat)
    (st : HeaderLoopState) (hoff : offset < 2 ^ 64) (hfin : finish_offset < 2 ^ 64) :
    (∀ c ∈ (next_header_iteration s offset finish_offset
        ((finish_offset + 2 ^ 64 - offset) % 2 ^ 64) i st).calls,
      c.requested ≤ kMaxPageHeaderSize) ∧
    (decode_sizes (next_header_iteration s offset finish_offset
        ((finish_offset + 2 ^ 64 - offset) % 2 ^ 64) i st).calls = [] ∨
      decode_sizes (next_header_iteration s offset finish_offset
        ((finish_offset + 2 ^ 64 - offset) % 2 ^ 64) i st).calls
        = [min (min st.allowed_page_size ((finish_offset + 2 ^ 64 - offset) % 2 ^ 64))
            kMaxPageHeaderSize]) ∧
    ((next_header_iteration s offset finish_offset
        ((finish_offset + 2 ^ 64 - offset) % 2 ^ 64) i st).exit = none →
      decode_sizes (next_header_iteration s offset finish_offset
        ((finish_offset + 2 ^ 64 - offset) % 2 ^ 64) i st).calls
        = [min (min st.allowed_page_size ((finish_offset + 2 ^ 64 - offset) % 2 ^ 64))
            kMaxPageHeaderSize] ∧
      min (min st.allowed_page_size ((finish_offset + 2 ^ 64 - offset) % 2 ^ 64))
          kMaxPageHeaderSize = st.allowed_page_size ∧
      st.allowed_page_size < kMaxPageHeaderSize ∧
      (next_header_iteration s offset finish_offset
        ((finish_offset + 2 ^ 64 - offset) % 2 ^ 64) i st).state.allowed_page_size
        = 2 * st.allowed_page_size) := by
  have hwrap := wrap_remaining offset finish_offset hoff hfin
  generalize (finish_offset + 2 ^ 64 - offset) % 2 ^ 64 = remaining at hwrap ⊢
  have ha : min (min st.allowed_page_size remaining) kMaxPageHeaderSize
      ≤ kMaxPageHeaderSize := min_le_right _ _
  have hgo : ∀ (peek_mode : Bool) (bytes_read : Int) (fetch_calls : List StreamCall),
      (decode_page_header s offset finish_offset i
        (min (min st.allowed_page_size remaining) kMaxPageHeaderSize) peek_mode bytes_read
        fetch_calls).exit = none →
      min (min st.allowed_page_size remaining) kMaxPageHeaderSize = st.allowed_page_size ∧
      st.allowed_page_size < kMaxPageHeaderSize ∧
      (decode_page_header s offset finish_offset i
        (min (min st.allowed_page_size remaining) kMaxPageHeaderSize) peek_mode bytes_read
        fetch_calls).state.allowed_page_size = 2 * st.allowed_page_size := by
    intro peek_mode bytes_read fetch_calls hnone
    obtain ⟨_, h2⟩ := decode_page_header_facts s offset finish_offset i _ peek_mode
      bytes_read fetch_calls ha
    obtain ⟨h3, h4, h5⟩ := h2 hnone
    have h6 : min (min st.allowed_page_size remaining) kMaxPageHeaderSize
        = st.allowed_page_size := by
      rcases le_total st.allowed_page_size remaining with hle | hle
      · rw [min_eq_left hle] at h3 ⊢
        exact min_eq_left (by omega)
      · exfalso
        rw [min_eq_right hle] at h3 h4
        have h7 : min remaining kMaxPageHeaderSize = remaining :=
          min_eq_left (by omega)
        rw [h7, hwrap] at h4
        exact lt_irrefl _ h4
    rw [h5, h6]
    rw [h6] at h3
    exact ⟨rfl, h3, rfl⟩
  have hcalls : ∀ (peek_mode : Bool) (bytes_read : Int) (fetch_calls : List StreamCall),
      (decode_page_header s offset finish_offset i
        (min (min st.allowed_page_size remaining) kMaxPageHeaderSize) peek_mode bytes_read
        fetch_calls).calls = fetch_calls ++ [StreamCall.deserialize_thrift_msg
          (min (min st.allowed_page_size remaining) kMaxPageHeaderSize)] :=
    fun peek_mode bytes_read fetch_calls =>
      (decode_page_header_facts s offset finish_offset i _ peek_mode bytes_read
        fetch_calls ha).1
  unfold next_header_iteration
  dsimp only
  split_ifs with h1 h2 h3
  · refine ⟨?_, Or.inr ?_, fun hnone => ⟨?_, hgo _ _ _ hnone⟩⟩
    · rw [hcalls]
      simp [StreamCall.requested, ha]
    · rw [hcalls]
      simp [decode_sizes]
    · rw [hcalls]
      simp [decode_sizes]
  · refine ⟨?_, Or.inl ?_, fun hnone => ?_⟩
    · simp [StreamCall.requested, ha]
    · simp [decode_sizes]
    · simp at hnone
  · refine ⟨?_, Or.inr ?_, fun hnone => ⟨?_, hgo _ _ _ hnone⟩⟩
    · rw [hcalls]
      simp [StreamCall.requested, ha]
    · rw [hcalls]
      simp [decode_sizes]
    · rw [hcalls]
      simp [decode_sizes]
  · refine ⟨?_, Or.inr ?_, fun hnone => ⟨?_, hgo _ _ _ hnone⟩⟩
    · rw [hcalls]
      simp [StreamCall.requested, ha]
    · rw [hcalls]
      simp [decode_sizes]
    · rw [hcalls]
      simp [decode_sizes]

/-- The sizes of the decode attempts of two runs of calls, one after the other. -/
theorem decode_sizes_append (xs ys : List StreamCall) :
    decode_sizes (xs ++ ys) = decode_sizes xs ++ decode_sizes ys := by
  simp [decode_sizes, List.filterMap_append]

/-- The decoding loop, entered with an allowed size that reaches the maximum after `n`
doublings, is left within `n + 1` iterations whatever the stream answers: the result
does not depend on the bound once it is above `n`, there are at most `n + 1` decode
attempts, no call asks for more than the maximum, and the `j`-th decode attempt has the
clamped size of `j` doublings. -/
theorem next_header_loop_terminates (s : PageStream) (offset finish_offset : Nat)
    (hoff : offset < 2 ^ 64) (hfin : finish_offset < 2 ^ 64) :
    ∀ (n i : Nat) (st : HeaderLoopState),
      kMaxPageHeaderSize ≤ st.allowed_page_size * 2 ^ n →
      ∃ r : HeaderLoopResult,
        (∀ fuel, n + 1 ≤ fuel →
          next_header_loop s offset finish_offset
            ((finish_offset + 2 ^ 64 - offset) % 2 ^ 64) fuel i st = some r) ∧
        (decode_sizes r.calls).length ≤ n + 1 ∧
        (∀ c ∈ r.calls, c.requested ≤ kMaxPageHeaderSize) ∧
        (∀ j, j < (decode_sizes r.calls).length →
          (decode_sizes r.calls)[j]? =
            some (min (min (st.allowed_page_size * 2 ^ j)
              ((finish_offset + 2 ^ 64 - offset) % 2 ^ 64)) kMaxPageHeaderSize)) := by
  have hfacts := fun i st => next_header_iteration_facts s offset finish_offset i st hoff hfin
  generalize (finish_offset + 2 ^ 64 - offset) % 2 ^ 64 = remaining at hfacts ⊢
  have hnow : ∀ (n i : Nat) (st : HeaderLoopState) (e : HeaderLoopExit),
      (next_header_iteration s offset finish_offset
        remaining i st).exit = some e →
      ∃ r : HeaderLoopResult,
        (∀ fuel, n + 1 ≤ fuel →
          next_header_loop s offset finish_offset
            remaining fuel i st = some r) ∧
        (decode_sizes r.calls).length ≤ n + 1 ∧
        (∀ c ∈ r.calls, c.requested ≤ kMaxPageHeaderSize) ∧
        (∀ j, j < (decode_sizes r.calls).length →
          (decode_sizes r.calls)[j]? =
            some (min (min (st.allowed_page_size * 2 ^ j)
              remaining) kMaxPageHeaderSize)) := by
    intro n i st e hexit
    obtain ⟨hreq, hdec, _⟩ := hfacts i st
    refine ⟨{ exit := e,
              state := (next_header_iteration s offset finish_offset
                remaining i st).state,
              calls := (next_header_iteration s offset finish_offset
                remaining i st).calls }, ?_, ?_, hreq, ?_⟩
    · intro fuel hfuel
      obtain ⟨f, rfl⟩ : ∃ f, fuel = f + 1 := ⟨fuel - 1, by omega⟩
      simp only [next_header_loop, hexit]
    · rcases hdec with hdec | hdec <;> simp [hdec]
    · intro j hj
      rcases hdec with hdec | hdec
      · simp [hdec] at hj
      · simp only [hdec, List.length_singleton, Nat.lt_one_iff] at hj ⊢
        subst hj
        simp
  intro n
  induction n with
  | zero =>
    intro i st h
    obtain ⟨_, _, hgo⟩ := hfacts i st
    cases hexit : (next_header_iteration s offset finish_offset
        remaining i st).exit with
    | none =>
      obtain ⟨_, _, hlt, _⟩ := hgo hexit
      simp at h
      omega
    | some e => exact hnow 0 i st e hexit
  | succ n ih =>
    intro i st h
    obtain ⟨hreq, _, hgo⟩ := hfacts i st
    cases hexit : (next_header_iteration s offset finish_offset
        remaining i st).exit with
    | some e => exact hnow (n + 1) i st e hexit
    | none =>
      obtain ⟨hdec, hclamp, _, hnext⟩ := hgo hexit
      have hnext2 : kMaxPageHeaderSize ≤ (next_header_iteration s offset finish_offset
          remaining i st).state.allowed_page_size
            * 2 ^ n := by
        rw [hnext]
        calc kMaxPageHeaderSize ≤ st.allowed_page_size * 2 ^ (n + 1) := h
          _ = 2 * st.allowed_page_size * 2 ^ n := by ring
      obtain ⟨r, hr1, hr2, hr3, hr4⟩ := ih (i + 1) _ hnext2
      refine ⟨{ r with calls := (next_header_iteration s offset finish_offset
          remaining i st).calls ++ r.calls }, ?_, ?_, ?_, ?_⟩
      · intro fuel hfuel
        obtain ⟨f, rfl⟩ : ∃ f, fuel = f + 1 := ⟨fuel - 1, by omega⟩
        simp only [next_header_loop, hexit, hr1 f (by omega)]
      · simp only [decode_sizes_append, hdec, List.length_append, List.length_singleton]
        omega
      · intro c hc
        rcases List.mem_append.mp hc with hc | hc
        · exact hreq c hc
        · exact hr3 c hc
      · intro j hj
        simp only [decode_sizes_append, hdec, List.length_append, List.length_singleton]
          at hj ⊢
        cases j with
        | zero =>
          simp only [List.singleton_append, List.getElem?_cons_zero, pow_zero, mul_one]
        | succ k =>
          simp only [List.singleton_append, List.getElem?_cons_succ]
          rw [hr4 k (by omega), hnext]
          congr 3
          ring

/-! ## Lemmas: binary64 rounding and the capacity test -/

/-- The rounded integer is within one half of the argument. -/
theorem round_half_even_near (x : ℚ) :
    x - 1 / 2 ≤ (round_half_even x : ℚ) ∧ (round_half_even x : ℚ) ≤ x + 1 / 2 := by
  have h1 := Int.floor_le x
  have h2 := Int.lt_floor_add_one x
  unfold round_half_even
  dsimp only
  split_ifs with a b c
  · constructor <;> linarith
  · push_cast
    constructor <;> linarith
  · constructor <;> linarith
  · push_cast
    constructor <;> linarith

/-- An integer rounds to itself. -/
theorem round_half_even_int (z : Int) : round_half_even (z : ℚ) = z := by
  unfold round_half_even
  simp

/-- Rounding to the nearest integer is monotone. -/
theorem round_half_even_mono {x y : ℚ} (h : x ≤ y) : round_half_even x ≤ round_half_even y := by
  have hf := Int.floor_mono h
  have hx1 := Int.floor_le x
  have hx2 := Int.lt_floor_add_one x
  have hy1 := Int.floor_le y
  have hy2 := Int.lt_floor_add_one y
  rcases lt_or_eq_of_le hf with hlt | heq
  · have hxle : round_half_even x ≤ ⌊x⌋ + 1 := by
      unfold round_half_even
      dsimp only
      split_ifs <;> omega
    have hyge : ⌊y⌋ ≤ round_half_even y := by
      unfold round_half_even
      dsimp only
      split_ifs <;> omega
    omega
  · unfold round_half_even
    dsimp only
    rw [← heq]
    split_ifs <;> first | omega | (exfalso; linarith)


/-- The rounding of a positive rational, unfolded. -/
theorem round_to_double_of_pos {q : ℚ} (hq : 0 < q) :
    round_to_double q
      = round_half_even (q / 2 ^ (Int.log 2 q - 52)) * 2 ^ (Int.log 2 q - 52) := by
  unfold round_to_double
  rw [if_neg (ne_of_gt hq), abs_of_pos hq]

/-- A positive rational is at least the power of two of its binade. -/
theorem two_zpow_log_le {q : ℚ} (hq : 0 < q) : (2 : ℚ) ^ Int.log 2 q ≤ q := by
  have h := Int.zpow_log_le_self (b := 2) (by norm_num) hq
  simpa using h

/-- A rational is below the next power of two after its binade. -/
theorem lt_two_zpow_log_succ (q : ℚ) : q < (2 : ℚ) ^ (Int.log 2 q + 1) := by
  have h := Int.lt_zpow_succ_log_self (b := 2) (by norm_num) q
  simpa using h

/-- The scaled value lies between `2 ^ 52` and `2 ^ 53`. -/
theorem scaled_mantissa_bounds {q : ℚ} (hq : 0 < q) :
    (2 : ℚ) ^ (52 : ℕ) ≤ q / 2 ^ (Int.log 2 q - 52) ∧
    q / 2 ^ (Int.log 2 q - 52) < (2 : ℚ) ^ (53 : ℕ) := by
  have hu : (0 : ℚ) < 2 ^ (Int.log 2 q - 52) := zpow_pos (by norm_num) _
  have h1 := two_zpow_log_le hq
  have h2 := lt_two_zpow_log_succ q
  have e1 : (2 : ℚ) ^ (52 : ℕ) * 2 ^ (Int.log 2 q - 52) = 2 ^ Int.log 2 q := by
    rw [← zpow_natCast, ← zpow_add₀ (by norm_num : (2 : ℚ) ≠ 0)]
    congr 1
    push_cast
    ring
  have e2 : (2 : ℚ) ^ (53 : ℕ) * 2 ^ (Int.log 2 q - 52) = 2 ^ (Int.log 2 q + 1) := by
    rw [← zpow_natCast, ← zpow_add₀ (by norm_num : (2 : ℚ) ≠ 0)]
    congr 1
    push_cast
    ring
  constructor
  · rw [le_div_iff₀ hu, e1]
    exact h1
  · rw [div_lt_iff₀ hu, e2]
    exact h2

/-- The rounded value of a positive rational stays within its binade, ends included. -/
theorem round_to_double_pos_bounds {q : ℚ} (hq : 0 < q) :
    (2 : ℚ) ^ Int.log 2 q ≤ round_to_double q ∧
    round_to_double q ≤ (2 : ℚ) ^ (Int.log 2 q + 1) := by
  have hu : (0 : ℚ) < 2 ^ (Int.log 2 q - 52) := zpow_pos (by norm_num) _
  obtain ⟨hm1, hm2⟩ := scaled_mantissa_bounds hq
  have e1 : (2 : ℚ) ^ (52 : ℕ) * 2 ^ (Int.log 2 q - 52) = 2 ^ Int.log 2 q := by
    rw [← zpow_natCast, ← zpow_add₀ (by norm_num : (2 : ℚ) ≠ 0)]
    congr 1
    push_cast
    ring
  have e2 : (2 : ℚ) ^ (53 : ℕ) * 2 ^ (Int.log 2 q - 52) = 2 ^ (Int.log 2 q + 1) := by
    rw [← zpow_natCast, ← zpow_add₀ (by norm_num : (2 : ℚ) ≠ 0)]
    congr 1
    push_cast
    ring
  have c52 : ((2 ^ 52 : Int) : ℚ) = (2 : ℚ) ^ (52 : ℕ) := by norm_num
  have c53 : ((2 ^ 53 : Int) : ℚ) = (2 : ℚ) ^ (53 : ℕ) := by norm_num
  have r1 : (2 ^ 52 : Int) ≤ round_half_even (q / 2 ^ (Int.log 2 q - 52)) := by
    have h := round_half_even_mono (c52 ▸ hm1 : ((2 ^ 52 : Int) : ℚ) ≤ _)
    rwa [round_half_even_int] at h
  have r2 : round_half_even (q / 2 ^ (Int.log 2 q - 52)) ≤ (2 ^ 53 : Int) := by
    have h := round_half_even_mono (c53 ▸ le_of_lt hm2 : _ ≤ ((2 ^ 53 : Int) : ℚ))
    rwa [round_half_even_int] at h
  have r1q : (2 : ℚ) ^ (52 : ℕ) ≤ (round_half_even (q / 2 ^ (Int.log 2 q - 52)) : ℚ) := by
    rw [← c52]
    exact_mod_cast r1
  have r2q : (round_half_even (q / 2 ^ (Int.log 2 q - 52)) : ℚ) ≤ (2 : ℚ) ^ (53 : ℕ) := by
    rw [← c53]
    exact_mod_cast r2
  rw [round_to_double_of_pos hq]
  constructor
  · rw [← e1]
    exact mul_le_mul_of_nonneg_right r1q (le_of_lt hu)
  · rw [← e2]
    exact mul_le_mul_of_nonneg_right r2q (le_of_lt hu)

/-- Rounding to binary64 is monotone on the non-negative rationals. -/
theorem round_to_double_mono {q q' : ℚ} (hq : 0 ≤ q) (h : q ≤ q') :
    round_to_double q ≤ round_to_double q' := by
  rcases eq_or_lt_of_le hq with h0 | hpos
  · rw [← h0]
    rcases eq_or_lt_of_le (le_trans hq h) with h0' | hpos'
    · rw [← h0']
    · have hb := (round_to_double_pos_bounds hpos').1
      have hz : (0 : ℚ) < 2 ^ Int.log 2 q' := zpow_pos (by norm_num) _
      have : round_to_double 0 = 0 := by simp [round_to_double]
      rw [this]
      linarith
  · have hpos' : 0 < q' := lt_of_lt_of_le hpos h
    have hlog : Int.log 2 q ≤ Int.log 2 q' := Int.log_mono_right hpos h
    rcases eq_or_lt_of_le hlog with heq | hlt
    · rw [round_to_double_of_pos hpos, round_to_double_of_pos hpos', ← heq]
      have hu : (0 : ℚ) < 2 ^ (Int.log 2 q - 52) := zpow_pos (by norm_num) _
      have hm : q / 2 ^ (Int.log 2 q - 52) ≤ q' / 2 ^ (Int.log 2 q - 52) :=
        div_le_div_of_nonneg_right h (le_of_lt hu)
      have hr := round_half_even_mono hm
      exact mul_le_mul_of_nonneg_right (by exact_mod_cast hr) (le_of_lt hu)
    · have h1 := (round_to_double_pos_bounds hpos).2
      have h2 := (round_to_double_pos_bounds hpos').1
      have h3 : (2 : ℚ) ^ (Int.log 2 q + 1) ≤ 2 ^ Int.log 2 q' :=
        zpow_le_zpow_right₀ (by norm_num) (by omega)
      linarith

/-- The relative error of rounding a positive rational to binary64 is at most
`2 ^ (-53)`. -/
theorem round_to_double_error {q : ℚ} (hq : 0 < q) :
    q - q / 2 ^ (53 : ℕ) ≤ round_to_double q ∧ round_to_double q ≤ q + q / 2 ^ (53 : ℕ) := by
  have hu : (0 : ℚ) < 2 ^ (Int.log 2 q - 52) := zpow_pos (by norm_num) _
  obtain ⟨hn1, hn2⟩ := round_half_even_near (q / 2 ^ (Int.log 2 q - 52))
  have h1 := two_zpow_log_le hq
  have e1 : (2 : ℚ) ^ (Int.log 2 q - 52) = 2 ^ Int.log 2 q / 2 ^ (52 : ℕ) := by
    rw [zpow_sub₀ (by norm_num : (2 : ℚ) ≠ 0)]
    norm_num
  have hhalf : (2 : ℚ) ^ (Int.log 2 q - 52) / 2 ≤ q / 2 ^ (53 : ℕ) := by
    rw [e1]
    have : (2 : ℚ) ^ Int.log 2 q / 2 ^ (52 : ℕ) / 2 = 2 ^ Int.log 2 q / 2 ^ (53 : ℕ) := by
      norm_num
      ring
    rw [this]
    exact div_le_div_of_nonneg_right h1 (by positivity)
  have hmul : q / 2 ^ (Int.log 2 q - 52) * 2 ^ (Int.log 2 q - 52) = q :=
    div_mul_cancel₀ q (ne_of_gt hu)
  rw [round_to_double_of_pos hq]
  constructor
  · have := mul_le_mul_of_nonneg_right hn1 (le_of_lt hu)
    rw [sub_mul, hmul] at this
    linarith
  · have := mul_le_mul_of_nonneg_right hn2 (le_of_lt hu)
    rw [add_mul, hmul] at this
    linarith


/-- The binade of a positive rational, from its bounds. -/
theorem log_eq_of_bounds {q : ℚ} (e : ℤ) (hq : 0 < q) (h1 : (2 : ℚ) ^ e ≤ q)
    (h2 : q < (2 : ℚ) ^ (e + 1)) : Int.log 2 q = e := by
  have a : e ≤ Int.log 2 q := by
    rw [← Int.zpow_le_iff_le_log (by norm_num) hq]
    simpa using h1
  have b : Int.log 2 q < e + 1 := by
    rw [← Int.lt_zpow_iff_log_lt (by norm_num) hq]
    simpa using h2
  omega

/-- The rounded integer, from strict bounds of one half around it. -/
theorem round_half_even_eq {x : ℚ} (m : ℤ) (h1 : (m : ℚ) - 1 / 2 < x)
    (h2 : x < (m : ℚ) + 1 / 2) : round_half_even x = m := by
  obtain ⟨a, b⟩ := round_half_even_near x
  have c : (m : ℚ) - 1 < (round_half_even x : ℚ) := by linarith
  have d : (round_half_even x : ℚ) < (m : ℚ) + 1 := by linarith
  have c' : m - 1 < round_half_even x := by exact_mod_cast c
  have d' : round_half_even x < m + 1 := by exact_mod_cast d
  omega

/-- Evaluation of the rounding at a rational whose binade and nearest mantissa are
known. -/
theorem round_to_double_eq {q : ℚ} (e m : ℤ) (hq : 0 < q) (h1 : (2 : ℚ) ^ e ≤ q)
    (h2 : q < (2 : ℚ) ^ (e + 1)) (hm1 : (m : ℚ) - 1 / 2 < q / 2 ^ (e - 52))
    (hm2 : q / 2 ^ (e - 52) < (m : ℚ) + 1 / 2) :
    round_to_double q = m * 2 ^ (e - 52) := by
  rw [round_to_double_of_pos hq, log_eq_of_bounds e hq h1 h2, round_half_even_eq m hm1 hm2]

/-- A non-negative integer below `2 ^ 53` is a binary64 number. -/
theorem round_to_double_int (i : ℤ) (h0 : 0 ≤ i) (h1 : i < 2 ^ 53) :
    round_to_double (i : ℚ) = i := by
  rcases eq_or_lt_of_le h0 with hz | hpos
  · rw [← hz]
    simp [round_to_double]
  · have hq : (0 : ℚ) < (i : ℚ) := by exact_mod_cast hpos
    have hlt : (i : ℚ) < (2 : ℚ) ^ (53 : ℤ) := by
      have : (i : ℚ) < ((2 ^ 53 : ℤ) : ℚ) := by exact_mod_cast h1
      rw [zpow_ofNat]
      exact_mod_cast this
    have hlog : Int.log 2 (i : ℚ) < 53 := by
      rw [← Int.lt_zpow_iff_log_lt (by norm_num) hq]
      simpa using hlt
    obtain ⟨k, hk⟩ : ∃ k : ℕ, (52 : ℤ) - Int.log 2 (i : ℚ) = k :=
      ⟨(52 - Int.log 2 (i : ℚ)).toNat, (Int.toNat_of_nonneg (by omega)).symm⟩
    have hexp : Int.log 2 (i : ℚ) - 52 = -(k : ℤ) := by omega
    rw [round_to_double_of_pos hq, hexp, zpow_neg, zpow_natCast]
    have hscaled : (i : ℚ) / ((2 : ℚ) ^ k)⁻¹ = ((i * 2 ^ k : ℤ) : ℚ) := by
      rw [div_inv_eq_mul]
      push_cast
      ring
    rw [hscaled, round_half_even_int]
    push_cast
    have hk0 : ((2 : ℚ) ^ k) ≠ 0 := by positivity
    field_simp


/-- With a capacity and a used size that are binary64 numbers, the limit test compares
the rounded quotient with the rounded percentage. -/
theorem capacity_limit_reached_rounded (cfg : Config) (dir : DataDir) (incoming : Int)
    (hcap : 0 < dir.disk_capacity_bytes) (hcap2 : dir.disk_capacity_bytes < 2 ^ 53)
    (hused : 0 ≤ dir.disk_capacity_bytes - dir.available_bytes + incoming)
    (hused2 : dir.disk_capacity_bytes - dir.available_bytes + incoming < 2 ^ 53)
    (hpct : 0 ≤ cfg.storage_flood_stage_usage_percent)
    (hpct2 : cfg.storage_flood_stage_usage_percent < 2 ^ 31) :
    capacity_limit_reached cfg dir incoming = true ↔
      (round_to_double ((cfg.storage_flood_stage_usage_percent : ℚ) / 100)
          ≤ round_to_double
            (((dir.disk_capacity_bytes - dir.available_bytes + incoming : Int) : ℚ)
              / (dir.disk_capacity_bytes : ℚ)) ∧
        dir.available_bytes - incoming ≤ cfg.storage_flood_stage_left_capacity_bytes) := by
  have e1 := round_to_double_int _ (le_of_lt hcap) hcap2
  have e2 := round_to_double_int _ hused hused2
  have e3 := round_to_double_int _ hpct (lt_trans hpct2 (by norm_num))
  have hc : (dir.disk_capacity_bytes : ℚ) ≠ 0 := by
    have : (0 : ℚ) < (dir.disk_capacity_bytes : ℚ) := by exact_mod_cast hcap
    exact ne_of_gt this
  unfold capacity_limit_reached disk_usage Double.of_int
  simp only [e1, e2, e3, Double.div, if_neg hc, Double.ge]
  norm_num

/-- The binary64 number nearest to 95/100. -/
theorem round_to_double_95 :
    round_to_double ((95 : ℚ) / 100) = 8556839292003942 * 2 ^ (-53 : ℤ) := by
  have h := round_to_double_eq (q := (95 : ℚ) / 100) (-1) 8556839292003942 (by norm_num)
    (by norm_num) (by norm_num) (by norm_num) (by norm_num)
  simpa using h

/-! ## Theorems -/

/-- C1 as stated fails: the lookup is made anew for every candidate, and a request names
the tablet-id directory, which several candidates share. Here tablet 100 is in the
catalog while candidate `/disk1/data/0/100/200` is processed, so that candidate is
skipped, and is dropped before candidate `/disk1/data/0/100/201` is processed: the sweep
then hands `/disk1/data/0/100`, the parent directory of the skipped candidate, to the
deletion call. -/
theorem perform_path_gc_by_tablet_parent_counterexample :
    (ex_drop_timeline 1).get_tablet_id_and_schema_hash_from_path "/disk1/data/0/100/200"
      = some (100, 200) ∧
    ((ex_drop_timeline 1).get_tablet 100 true).map (fun t => t.tablet_id) = some 100 ∧
    parent_path "/disk1/data/0/100/200" = "/disk1/data/0/100" ∧
    (perform_path_gc_by_tablet ex_cfg ex_drop_timeline ex_two_schema_dir).2
      = [Action.try_delete_unused_tablet_path "/disk1" 100 201 "/disk1/data/0/100",
         Action.log_tablet_path ["/disk1/data/0/100"]] := by
  decide

/-- C1 (amended). Tablet-directory sweep: a candidate that parses to
`(tablet_id, schema_hash)` and whose catalog lookup with deleted tablets included returns
a tablet is skipped: its iteration issues nothing but the pacing sleep and leaves the log
batch alone. Every deletion request of the whole sweep stems from another candidate, one
that was looked up in the catalog in its own iteration and not found, and targets the
parent directory of that candidate. If the answers of the catalog and of the path parser
do not change during the sweep, no request names the tablet id of the skipped candidate;
if moreover the candidates that lie in the same tablet-id directory, or directly below
the path, parse to the same tablet id, no request targets the path or its parent
directory. -/
theorem perform_path_gc_by_tablet_retains_catalog_tablet (cfg : Config) (tl : Nat → World)
    (dir : DataDir) (pre post : List String) (p : String) (tid sh : Int) (tab : Tablet)
    (hpaths : dir.all_tablet_schemahash_paths = pre ++ p :: post)
    (hparse : (tl (pre.length + 1)).get_tablet_id_and_schema_hash_from_path p
      = some (tid, sh))
    (hlive : (tl (pre.length + 1)).get_tablet tid true = some tab) :
    (∀ batch, gc_by_tablet_step cfg (tl (pre.length + 1)) (pre.length + 1) batch p
        = (batch, gc_pacing cfg (pre.length + 1))) ∧
    (∀ s t h x, Action.try_delete_unused_tablet_path s t h x
        ∈ (perform_path_gc_by_tablet cfg tl dir).2 →
      ∃ i q, i ≠ pre.length ∧ (pre ++ p :: post)[i]? = some q ∧ x = parent_path q ∧
        (tl (i + 1)).get_tablet_id_and_schema_hash_from_path q = some (t, h) ∧
        (tl (i + 1)).get_tablet t true = none) ∧
    ((∀ n, tl n = tl 0) → ∀ s t h x, Action.try_delete_unused_tablet_path s t h x
        ∈ (perform_path_gc_by_tablet cfg tl dir).2 → t ≠ tid) ∧
    ((∀ n, tl n = tl 0) →
      (∀ q ∈ pre ++ p :: post, parent_path q = parent_path p ∨ parent_path q = p →
        ∀ t h, (tl 0).get_tablet_id_and_schema_hash_from_path q = some (t, h) → t = tid) →
      ∀ s t h x, Action.try_delete_unused_tablet_path s t h x
        ∈ (perform_path_gc_by_tablet cfg tl dir).2 → x ≠ p ∧ x ≠ parent_path p) := by
  have hall : ∀ s t h x, Action.try_delete_unused_tablet_path s t h x
        ∈ (perform_path_gc_by_tablet cfg tl dir).2 →
      ∃ i q, (pre ++ p :: post)[i]? = some q ∧ x = parent_path q ∧
        (tl (i + 1)).get_tablet_id_and_schema_hash_from_path q = some (t, h) ∧
        (tl (i + 1)).get_tablet t true = none := by
    intro s t h x hmem
    unfold perform_path_gc_by_tablet at hmem
    split at hmem
    · simp at hmem
    · simp only [hpaths] at hmem
      obtain ⟨i, q, hq, hx, hpq, hg⟩ := gc_by_tablet_loop_request cfg tl _ 0 [] s t h x hmem
      refine ⟨i, q, hq, hx, ?_, ?_⟩
      · simpa using hpq
      · simpa using hg
  refine ⟨?_, ?_, ?_, ?_⟩
  · intro batch
    unfold gc_by_tablet_step
    simp only [hparse, hlive]
    split <;> rfl
  · intro s t h x hmem
    obtain ⟨i, q, hq, hx, hpq, hg⟩ := hall s t h x hmem
    refine ⟨i, q, ?_, hq, hx, hpq, hg⟩
    intro hi
    subst hi
    have hp : (pre ++ p :: post)[pre.length]? = some p := by
      rw [List.getElem?_append_right (le_refl _)]
      simp
    rw [hp] at hq
    simp only [Option.some.injEq] at hq
    subst hq
    rw [hparse] at hpq
    simp only [Option.some.injEq, Prod.mk.injEq] at hpq
    rw [← hpq.1, hlive] at hg
    simp at hg
  · intro hconst s t h x hmem htid
    obtain ⟨i, q, _, _, _, hg⟩ := hall s t h x hmem
    rw [hconst (i + 1), htid] at hg
    rw [hconst (pre.length + 1), hg] at hlive
    simp at hlive
  · intro hconst hsib s t h x hmem
    obtain ⟨i, q, hq, hx, hpq, hg⟩ := hall s t h x hmem
    rw [hconst (i + 1)] at hpq hg
    rw [hconst (pre.length + 1)] at hlive
    have hne : ¬ (parent_path q = parent_path p ∨ parent_path q = p) := by
      intro hrel
      have ht := hsib q (List.getElem?_mem hq) hrel t h hpq
      rw [ht, hlive] at hg
      simp at hg
    constructor
    · intro hxp
      exact hne (Or.inr (hx ▸ hxp))
    · intro hxp
      exact hne (Or.inl (hx ▸ hxp))

/-- C1 witness: with tablet 100 in the catalog and tablet 101 absent, the candidate
`/disk1/data/0/100/200` is skipped and no request targets it or `/disk1/data/0/100`; the
one request of the sweep is for `/disk1/data/0/101`, the parent of the other candidate. -/
theorem perform_path_gc_by_tablet_retains_catalog_tablet_witness :
    gc_by_tablet_step ex_cfg ex_two_tablet_world 1 [] "/disk1/data/0/100/200"
      = ([], gc_pacing ex_cfg 1) ∧
    (∀ s t h x, Action.try_delete_unused_tablet_path s t h x
        ∈ (perform_path_gc_by_tablet ex_cfg (fun _ => ex_two_tablet_world)
            ex_two_tablet_dir).2 →
      x ≠ "/disk1/data/0/100/200" ∧ x ≠ parent_path "/disk1/data/0/100/200") ∧
    (perform_path_gc_by_tablet ex_cfg (fun _ => ex_two_tablet_world) ex_two_tablet_dir).2
      = [Action.try_delete_unused_tablet_path "/disk1" 101 300 "/disk1/data/0/101",
         Action.log_tablet_path ["/disk1/data/0/101"]] :=
  ⟨(perform_path_gc_by_tablet_retains_catalog_tablet ex_cfg (fun _ => ex_two_tablet_world)
      ex_two_tablet_dir [] ["/disk1/data/0/101/300"] "/disk1/data/0/100/200" 100 200
      ex_tablet rfl rfl rfl).1 [],
    (perform_path_gc_by_tablet_retains_catalog_tablet ex_cfg (fun _ => ex_two_tablet_world)
      ex_two_tablet_dir [] ["/disk1/data/0/101/300"] "/disk1/data/0/100/200" 100 200
      ex_tablet rfl rfl rfl).2.2.2 (fun _ => rfl) (by
        intro q hq hrel t h hparse
        simp only [List.nil_append, List.mem_cons, List.mem_singleton, List.not_mem_nil,
          or_false] at hq
        rcases hq with hq | hq
        · subst hq
          revert hparse
          simp only [ex_two_tablet_world, if_true, Option.some.injEq, Prod.mk.injEq]
          intro hparse
          exact hparse.1.symm
        · subst hq
          exact absurd hrel (by decide)),
    by decide⟩

/-- C2. Rowset-id sweep: a path is deleted only if it is a candidate that, in the
snapshot of its iteration, parses to a positive tablet id and schema hash, is a rowset
file with some rowset id `r`, has an owning tablet whose `check_rowset_id r` is false,
and `r` is not in the unused-rowsets registry of the storage engine. Conversely an
iteration whose candidate has a rowset id that the owning tablet recognises, or that the
registry claims, deletes nothing. -/
theorem perform_path_gc_by_rowsetid_deletes_only_unreferenced (cfg : Config)
    (tl : Nat → World) (dir : DataDir) :
    (∀ x, Action.delete_dir_recursive x ∈ (perform_path_gc_by_rowsetid cfg tl dir).2 →
      ∃ i, dir.all_check_paths[i]? = some x ∧ ∃ tid sh rid tab,
        (tl (i + 1)).get_tablet_id_and_schema_hash_from_path x = some (tid, sh) ∧
        0 < tid ∧ 0 < sh ∧
        (tl (i + 1)).get_rowset_id_from_path x = some rid ∧
        (tl (i + 1)).get_tablet tid false = some tab ∧
        tab.check_rowset_id rid = false ∧
        (tl (i + 1)).check_rowset_id_in_unused_rowsets rid = false) ∧
    (∀ (w : World) (counter : Nat) (p : String) (tid sh : Int) (rid : RowsetId),
      w.get_tablet_id_and_schema_hash_from_path p = some (tid, sh) →
      w.get_rowset_id_from_path p = some rid →
      ((∃ tab, w.get_tablet tid false = some tab ∧ tab.check_rowset_id rid = true) ∨
        w.check_rowset_id_in_unused_rowsets rid = true) →
      ∀ x, Action.delete_dir_recursive x ∉ gc_by_rowsetid_step cfg w counter p) := by
  constructor
  · intro x hmem
    unfold perform_path_gc_by_rowsetid at hmem
    split at hmem
    · simp at hmem
    · obtain ⟨i, hq, hrest⟩ := gc_by_rowsetid_loop_delete cfg tl _ 0 x hmem
      refine ⟨i, hq, ?_⟩
      simpa using hrest
  · intro w counter p tid sh rid hparse hrid hused x hmem
    obtain ⟨_, tid', sh', rid', tab', h1, _, _, h4, h5, h6, h7⟩ :=
      gc_by_rowsetid_step_delete cfg w counter p x hmem
    rw [hparse] at h1
    rw [hrid] at h4
    simp only [Option.some.injEq, Prod.mk.injEq] at h1 h4
    obtain ⟨htid, _⟩ := h1
    subst htid h4
    rcases hused with ⟨tab, hget, hchk⟩ | hreg
    · rw [hget] at h5
      simp only [Option.some.injEq] at h5
      subst h5
      rw [hchk] at h6
      exact Bool.noConfusion h6
    · rw [hreg] at h7
      exact Bool.noConfusion h7

/-- C2 witness: `/disk1/data/0/100/200/rowset1.dat` with live tablet 100 referencing
`rowset1` is retained. -/
theorem perform_path_gc_by_rowsetid_deletes_only_unreferenced_witness :
    Action.delete_dir_recursive "/disk1/data/0/100/200/rowset1.dat"
        ∉ gc_by_rowsetid_step ex_cfg ex_world 1 "/disk1/data/0/100/200/rowset1.dat" ∧
    (perform_path_gc_by_rowsetid ex_cfg (fun _ => ex_world) ex_dir).2 = [] :=
  ⟨(perform_path_gc_by_rowsetid_deletes_only_unreferenced ex_cfg (fun _ => ex_world) ex_dir).2
      ex_world 1 "/disk1/data/0/100/200/rowset1.dat" 100 200 "rowset1" rfl rfl
      (Or.inl ⟨ex_tablet, rfl, rfl⟩) "/disk1/data/0/100/200/rowset1.dat", by decide⟩

/-- C4 as stated fails: the pending-apply test is made only when the file set of the
tablet is not yet in the map of the sweep. Here the set of tablet 100 is loaded while
`a.cols` is processed; when `b.cols` is processed the tablet has a pending apply task,
yet `_need_gc_delta_column_files` returns true and the file is deleted. -/
theorem need_gc_delta_column_files_pending_apply_counterexample :
    (∃ tab, (ex_dcg_timeline 2).get_tablet 100 false = some tab ∧ tab.need_apply = true) ∧
    (need_gc_delta_column_files (ex_dcg_timeline 2) "/disk1/data/0/100/200/b.cols" 100
      (dcg_gc_step ex_cfg (ex_dcg_timeline 1) 1 [] "/disk1/data/0/100/200/a.cols").1).1 = true ∧
    Action.delete_dir_recursive "/disk1/data/0/100/200/b.cols"
      ∈ (perform_delta_column_files_gc ex_cfg ex_dcg_timeline ex_dcg_dir).2 := by
  refine ⟨⟨ex_pk_tablet false true, rfl, rfl⟩, ?_, ?_⟩
  · decide
  · decide

/-- C4 (amended). Delta-column-file sweep: if, in the snapshot of its iteration, the
owning tablet is absent, or is not a PRIMARY_KEYS tablet, or is not in TABLET_RUNNING
state, or is being cloned, or is migrating, or has a pending apply task while its file
set is not yet in the map of the sweep, then `_need_gc_delta_column_files` returns false
without touching the map, whatever the delta-column-group listing holds, and the
iteration of that candidate deletes nothing. -/
theorem need_gc_delta_column_files_skips_unstable_tablet (cfg : Config) (w : World)
    (counter : Nat) (path : String) (tid sh : Int) (cache : DcgCache)
    (hparse : w.get_tablet_id_and_schema_hash_from_path path = some (tid, sh))
    (h : w.get_tablet tid false = none ∨
      ∃ tab, w.get_tablet tid false = some tab ∧
        (tab.keys_type ≠ KeysType.PRIMARY_KEYS ∨
          tab.tablet_state ≠ TabletState.TABLET_RUNNING ∨
          w.check_clone_tablet tid = true ∨ tab.is_migrating = true ∨
          (tab.need_apply = true ∧ cache.lookup tid = none))) :
    need_gc_delta_column_files w path tid cache = (false, cache) ∧
    dcg_gc_step cfg w counter cache path = (cache, gc_pacing cfg counter) := by
  have hneed : need_gc_delta_column_files w path tid cache = (false, cache) := by
    unfold need_gc_delta_column_files
    rcases h with hnone | ⟨tab, hget, hcond⟩
    · simp only [hnone]
    · simp only [hget]
      by_cases hskip : tab.keys_type ≠ KeysType.PRIMARY_KEYS ∨
          tab.tablet_state ≠ TabletState.TABLET_RUNNING ∨
          w.check_clone_tablet tid = true ∨ tab.is_migrating = true
      · rw [if_pos hskip]
      · rw [if_neg hskip]
        have happly : tab.need_apply = true ∧ cache.lookup tid = none := by
          rcases hcond with h1 | h1 | h1 | h1 | h1
          · exact absurd (Or.inl h1) hskip
          · exact absurd (Or.inr (Or.inl h1)) hskip
          · exact absurd (Or.inr (Or.inr (Or.inl h1))) hskip
          · exact absurd (Or.inr (Or.inr (Or.inr h1))) hskip
          · exact h1
        simp only [happly.2, happly.1, if_true]
  refine ⟨hneed, ?_⟩
  unfold dcg_gc_step
  simp only [hparse, hneed]
  split <;> simp

/-- C4 witness: a `.cols` file of a primary-key tablet that is mid-migration is not
deleted, although the delta-column-group listing does not reference it. -/
theorem need_gc_delta_column_files_skips_unstable_tablet_witness :
    need_gc_delta_column_files (ex_pk_world true false []) "/disk1/data/0/100/200/a.cols"
        100 [] = (false, []) ∧
    dcg_gc_step ex_cfg (ex_pk_world true false []) 1 [] "/disk1/data/0/100/200/a.cols"
        = ([], gc_pacing ex_cfg 1) :=
  need_gc_delta_column_files_skips_unstable_tablet ex_cfg (ex_pk_world true false []) 1
    "/disk1/data/0/100/200/a.cols" 100 200 [] rfl
    (Or.inr ⟨ex_pk_tablet true false, rfl, Or.inr (Or.inr (Or.inr (Or.inl rfl)))⟩)

/-- C5. Delta-column-file sweep, eligible tablet (present, PRIMARY_KEYS, running, not
cloning, not migrating, no pending apply) whose delta-column-group scan succeeds.
(1) When the map of the sweep has no set for the tablet, the result is true iff no
record of the tablet lists the file name of the path among its `relative_column_files`;
the set stored in the map for the tablet holds exactly the names listed by some record,
and a later lookup of the tablet finds it. (2) When the map already has a set for the
tablet, that set is reused as it is: the map is unchanged and the result is true iff the
file name is not in it. (3) Hence, with collaborators that do not change during the
sweep, after any processed candidates the result is true iff no record of the tablet
lists the file name. -/
theorem need_gc_delta_column_files_iff_unreferenced (w : World) (path : String) (tid : Int)
    (cache : DcgCache) (tab : Tablet)
    (hget : w.get_tablet tid false = some tab)
    (hpk : tab.keys_type = KeysType.PRIMARY_KEYS)
    (hrun : tab.tablet_state = TabletState.TABLET_RUNNING)
    (hclone : w.check_clone_tablet tid = false)
    (hmig : tab.is_migrating = false)
    (happly : tab.need_apply = false)
    (hscan : (w.scan_tablet_delta_column_group tid).1 = Status.OK) :
    (cache.lookup tid = none →
      ((need_gc_delta_column_files w path tid cache).1 = true ↔
        ¬ ∃ dcg ∈ (w.scan_tablet_delta_column_group tid).2,
          filename path ∈ dcg.relative_column_files) ∧
      ∃ files, (need_gc_delta_column_files w path tid cache).2 = (tid, files) :: cache ∧
        (need_gc_delta_column_files w path tid cache).2.lookup tid = some files ∧
        ∀ f, f ∈ files ↔
          ∃ dcg ∈ (w.scan_tablet_delta_column_group tid).2, f ∈ dcg.relative_column_files) ∧
    (∀ files, cache.lookup tid = some files →
      ((need_gc_delta_column_files w path tid cache).1 = true ↔ filename path ∉ files) ∧
      (need_gc_delta_column_files w path tid cache).2 = cache) ∧
    (∀ (cfg : Config) (processed : List String),
      (need_gc_delta_column_files w path tid
          (dcg_gc_loop cfg (fun _ => w) 0 [] processed).1).1 = true ↔
        ¬ ∃ dcg ∈ (w.scan_tablet_delta_column_group tid).2,
          filename path ∈ dcg.relative_column_files) := by
  have hskip : ¬ (tab.keys_type ≠ KeysType.PRIMARY_KEYS ∨
      tab.tablet_state ≠ TabletState.TABLET_RUNNING ∨
      w.check_clone_tablet tid = true ∨ tab.is_migrating = true) := by
    simp [hpk, hrun, hclone, hmig]
  have hok : ¬ ((w.scan_tablet_delta_column_group tid).1.ok = false) := by
    simp [hscan, Status.ok]
  have hmiss : ∀ c : DcgCache, c.lookup tid = none →
      need_gc_delta_column_files w path tid c
        = (decide (filename path ∉ dcg_file_names (w.scan_tablet_delta_column_group tid).2),
            (tid, dcg_file_names (w.scan_tablet_delta_column_group tid).2) :: c) := by
    intro c hc
    unfold need_gc_delta_column_files
    simp only [hget, if_neg hskip, hc, happly, if_neg hok]
    simp
  have hhit : ∀ (c : DcgCache) files, c.lookup tid = some files →
      need_gc_delta_column_files w path tid c = (decide (filename path ∉ files), c) := by
    intro c files hc
    unfold need_gc_delta_column_files
    simp only [hget, if_neg hskip, hc]
  have hunion : filename path ∉ dcg_file_names (w.scan_tablet_delta_column_group tid).2 ↔
      ¬ ∃ dcg ∈ (w.scan_tablet_delta_column_group tid).2,
        filename path ∈ dcg.relative_column_files :=
    not_congr (mem_dcg_file_names _ _)
  refine ⟨?_, ?_, ?_⟩
  · intro hc
    rw [hmiss cache hc]
    refine ⟨?_, _, rfl, ?_, fun f => mem_dcg_file_names _ f⟩
    · rw [← hunion]
      simp
    · simp [List.lookup]
  · intro files hc
    rw [hhit cache files hc]
    simp
  · intro cfg processed
    rw [← hunion]
    cases hc : (dcg_gc_loop cfg (fun _ => w) 0 [] processed).1.lookup tid with
    | none =>
      rw [hmiss _ hc]
      simp
    | some files =>
      rw [hhit _ files hc]
      have hsound := dcg_gc_loop_cache_sound cfg w processed 0 []
        (by intro t files hl; simp at hl) tid files hc
      rw [hsound]
      simp

/-- C5 witness: for the eligible primary-key tablet 100 whose one record lists `a.cols`
only, `b.cols` is garbage after the set was loaded and cached for `a.cols`, and `a.cols`
itself is kept; the sweep over both deletes `b.cols` alone. -/
theorem need_gc_delta_column_files_iff_unreferenced_witness :
    (need_gc_delta_column_files (ex_dcg_timeline 1) "/disk1/data/0/100/200/b.cols" 100
        (dcg_gc_loop ex_cfg (fun _ => ex_dcg_timeline 1) 0 []
          ["/disk1/data/0/100/200/a.cols"]).1).1 = true ∧
    need_gc_delta_column_files (ex_dcg_timeline 1) "/disk1/data/0/100/200/a.cols" 100 []
      = (false, [(100, ["a.cols"])]) ∧
    need_gc_delta_column_files (ex_dcg_timeline 1) "/disk1/data/0/100/200/b.cols" 100
        [(100, ["a.cols"])] = (true, [(100, ["a.cols"])]) ∧
    (perform_delta_column_files_gc ex_cfg (fun _ => ex_dcg_timeline 1) ex_dcg_dir).2
      = [Action.delete_dir_recursive "/disk1/data/0/100/200/b.cols"] :=
  ⟨((need_gc_delta_column_files_iff_unreferenced (ex_dcg_timeline 1)
      "/disk1/data/0/100/200/b.cols" 100 [] (ex_pk_tablet false false)
      rfl rfl rfl rfl rfl rfl rfl).2.2 ex_cfg ["/disk1/data/0/100/200/a.cols"]).mpr
      (by decide),
    by decide, by decide, by decide⟩

/-- C3. Recovery phase 2: a rowset-meta record whose `tablet_uid` differs from the uid
of the tablet resolved by its tablet id makes no call at all (neither
`TxnManager::commit_txn` nor `Tablet::load_rowset`), whatever its state and whether or
not the rowset object could be built, and raises the error counter by exactly one. -/
theorem load_rowset_func_uid_mismatch_is_error (w : LoadWorld) (st : RowsetLoadState)
    (r : RowsetRecord) (meta : RowsetMeta) (tab : Tablet)
    (hparse : w.parse_rowset_meta r.meta_str = some meta)
    (hget : w.get_tablet meta.tablet_id false = some tab)
    (huid : meta.tablet_uid ≠ tab.tablet_uid) :
    (load_rowset_func w st r).1.calls = st.calls ∧
    (load_rowset_func w st r).1.error_rowset_count = st.error_rowset_count + 1 := by
  unfold load_rowset_func
  simp only [hparse, hget, huid, and_false, if_false]
  split <;> simp

/-- C3 witness: a COMMITTED record of tablet 100 carrying the uid of an older
incarnation is counted as an error and not committed. -/
theorem load_rowset_func_uid_mismatch_is_error_witness :
    (load_rowset_func
        (ex_load_world (ex_rowset_meta RowsetStatePB.COMMITTED { hi := 9, lo := 9 })
          ex_tablet Status.OK Status.OK) ex_load_state ex_rowset_record).1.calls
      = ex_load_state.calls ∧
    (load_rowset_func
        (ex_load_world (ex_rowset_meta RowsetStatePB.COMMITTED { hi := 9, lo := 9 })
          ex_tablet Status.OK Status.OK) ex_load_state ex_rowset_record).1.error_rowset_count
      = ex_load_state.error_rowset_count + 1 :=
  load_rowset_func_uid_mismatch_is_error
    (ex_load_world (ex_rowset_meta RowsetStatePB.COMMITTED { hi := 9, lo := 9 })
      ex_tablet Status.OK Status.OK) ex_load_state ex_rowset_record
    (ex_rowset_meta RowsetStatePB.COMMITTED { hi := 9, lo := 9 }) ex_tablet rfl rfl
    (by decide)

/-- C8. Recovery phase 2, COMMITTED dispatch: for a parsed record whose tablet exists,
whose rowset object is built, whose state is COMMITTED and whose `tablet_uid` equals the
uid of the live tablet, the only call made is one `TxnManager::commit_txn`, with the
partition id, txn id, tablet id, schema hash, uid and load id of the record and
`is_recovery = true`; the error counter is raised by one if the returned status is
neither OK nor already-exists and is unchanged otherwise. -/
theorem load_rowset_func_committed_dispatch (w : LoadWorld) (st : RowsetLoadState)
    (r : RowsetRecord) (meta : RowsetMeta) (tab : Tablet)
    (hparse : w.parse_rowset_meta r.meta_str = some meta)
    (hget : w.get_tablet meta.tablet_id false = some tab)
    (hcreate : (w.create_rowset tab meta).ok = true)
    (hstate : meta.rowset_state = RowsetStatePB.COMMITTED)
    (huid : meta.tablet_uid = tab.tablet_uid) :
    ∃ args : CommitTxnArgs,
      (load_rowset_func w st r).1.calls = st.calls ++ [LoadCall.commit_txn args] ∧
      args.partition_id = meta.partition_id ∧ args.txn_id = meta.txn_id ∧
      args.tablet_id = meta.tablet_id ∧ args.schema_hash = meta.tablet_schema_hash ∧
      args.tablet_uid = meta.tablet_uid ∧ args.load_id = meta.load_id ∧
      args.is_recovery = true ∧
      ((load_rowset_func w st r).1.error_rowset_count = st.error_rowset_count + 1 ↔
        (w.commit_txn args ≠ Status.OK ∧ w.commit_txn args ≠ Status.AlreadyExist)) ∧
      ((load_rowset_func w st r).1.error_rowset_count = st.error_rowset_count ↔
        (w.commit_txn args = Status.OK ∨ w.commit_txn args = Status.AlreadyExist)) := by
  have hfill : ∀ m : RowsetMeta, (fill_tablet_schema m).partition_id = m.partition_id ∧
      (fill_tablet_schema m).txn_id = m.txn_id ∧
      (fill_tablet_schema m).tablet_id = m.tablet_id ∧
      (fill_tablet_schema m).tablet_schema_hash = m.tablet_schema_hash ∧
      (fill_tablet_schema m).tablet_uid = m.tablet_uid ∧
      (fill_tablet_schema m).load_id = m.load_id := by
    intro m
    unfold fill_tablet_schema
    split <;> simp
  obtain ⟨f1, f2, f3, f4, f5, f6⟩ := hfill meta
  refine ⟨{ partition_id := (fill_tablet_schema meta).partition_id,
            txn_id := (fill_tablet_schema meta).txn_id,
            tablet_id := (fill_tablet_schema meta).tablet_id,
            schema_hash := (fill_tablet_schema meta).tablet_schema_hash,
            tablet_uid := (fill_tablet_schema meta).tablet_uid,
            load_id := (fill_tablet_schema meta).load_id,
            rowset := { rowset_meta := fill_tablet_schema meta,
                        schema_hash_path := tab.schema_hash_path },
            is_recovery := true }, ?_, f1, f2, f3, f4, f5, f6, rfl, ?_, ?_⟩
  all_goals
    unfold load_rowset_func
    simp only [hparse, hget, hcreate, hstate, huid, and_self, if_true]
    generalize w.commit_txn _ = s
    cases s <;> simp [Status.ok, Status.is_already_exist]

/-- C8 witness: a COMMITTED record of the live incarnation is handed to `commit_txn`;
an already-exists answer is not counted. -/
theorem load_rowset_func_committed_dispatch_witness :
    ∃ args : CommitTxnArgs,
      (load_rowset_func
          (ex_load_world (ex_rowset_meta RowsetStatePB.COMMITTED { hi := 1, lo := 1 })
            ex_tablet Status.OK Status.AlreadyExist) ex_load_state ex_rowset_record).1.calls
        = [LoadCall.commit_txn args] ∧ args.txn_id = 77 ∧ args.is_recovery = true := by
  obtain ⟨args, h1, _, h3, _, _, _, _, h8, _⟩ := load_rowset_func_committed_dispatch
    (ex_load_world (ex_rowset_meta RowsetStatePB.COMMITTED { hi := 1, lo := 1 })
      ex_tablet Status.OK Status.AlreadyExist) ex_load_state ex_rowset_record
    (ex_rowset_meta RowsetStatePB.COMMITTED { hi := 1, lo := 1 }) ex_tablet rfl rfl rfl rfl
    rfl
  exact ⟨args, h1, h3, h8⟩

/-- C9 as stated fails: a parsed VISIBLE record with matching uid still has to pass the
construction of the rowset object. When `create_rowset` fails, the record of a
primary-key tablet raises the error counter (the claim says unchanged), and the record
of a duplicate-key tablet is counted as an error without `load_rowset` being called (the
claim says called once). -/
theorem load_rowset_func_visible_create_failure_counterexample :
    (ex_rowset_meta RowsetStatePB.VISIBLE { hi := 1, lo := 1 }).tablet_uid
        = (ex_pk_tablet false false).tablet_uid ∧
    (ex_pk_tablet false false).keys_type = KeysType.PRIMARY_KEYS ∧
    (load_rowset_func
        (ex_load_world (ex_rowset_meta RowsetStatePB.VISIBLE { hi := 1, lo := 1 })
          (ex_pk_tablet false false) Status.Corruption Status.OK)
        ex_load_state ex_rowset_record).1.error_rowset_count = 1 ∧
    ex_tablet.keys_type ≠ KeysType.PRIMARY_KEYS ∧
    (load_rowset_func
        (ex_load_world (ex_rowset_meta RowsetStatePB.VISIBLE { hi := 1, lo := 1 })
          ex_tablet Status.Corruption Status.OK)
        ex_load_state ex_rowset_record).1.calls = [] := by
  decide

/-- C9 (amended). Recovery phase 2, VISIBLE dispatch: for a parsed record whose tablet
exists, whose rowset object is built, whose state is VISIBLE and whose `tablet_uid`
equals the uid of the live tablet: if the keys type of the tablet is PRIMARY_KEYS, no
call is made and the error counter is unchanged; otherwise the only call made is one
`Tablet::load_rowset` on that tablet, and the error counter is raised by one if its
status is neither OK nor already-exists and is unchanged otherwise. -/
theorem load_rowset_func_visible_dispatch (w : LoadWorld) (st : RowsetLoadState)
    (r : RowsetRecord) (meta : RowsetMeta) (tab : Tablet)
    (hparse : w.parse_rowset_meta r.meta_str = some meta)
    (hget : w.get_tablet meta.tablet_id false = some tab)
    (hcreate : (w.create_rowset tab meta).ok = true)
    (hstate : meta.rowset_state = RowsetStatePB.VISIBLE)
    (huid : meta.tablet_uid = tab.tablet_uid) :
    (tab.keys_type = KeysType.PRIMARY_KEYS →
      (load_rowset_func w st r).1.calls = st.calls ∧
      (load_rowset_func w st r).1.error_rowset_count = st.error_rowset_count) ∧
    (tab.keys_type ≠ KeysType.PRIMARY_KEYS →
      (load_rowset_func w st r).1.calls = st.calls ++
        [LoadCall.load_rowset tab.tablet_id tab.tablet_uid
          { rowset_meta := meta, schema_hash_path := tab.schema_hash_path }] ∧
      ((load_rowset_func w st r).1.error_rowset_count = st.error_rowset_count + 1 ↔
        (w.load_rowset tab { rowset_meta := meta, schema_hash_path := tab.schema_hash_path }
            ≠ Status.OK ∧
          w.load_rowset tab { rowset_meta := meta, schema_hash_path := tab.schema_hash_path }
            ≠ Status.AlreadyExist)) ∧
      ((load_rowset_func w st r).1.error_rowset_count = st.error_rowset_count ↔
        (w.load_rowset tab { rowset_meta := meta, schema_hash_path := tab.schema_hash_path }
            = Status.OK ∨
          w.load_rowset tab { rowset_meta := meta, schema_hash_path := tab.schema_hash_path }
            = Status.AlreadyExist))) := by
  have hnc : ¬ (meta.rowset_state = RowsetStatePB.COMMITTED ∧
      meta.tablet_uid = tab.tablet_uid) := by
    rw [hstate]
    simp
  constructor
  · intro hpk
    unfold load_rowset_func
    simp only [hparse, hget, hcreate, hstate, huid, hpk, and_self, if_true]
    simp
  · intro hpk
    unfold load_rowset_func
    simp only [hparse, hget, hcreate, hstate, huid, hpk, and_self, if_true, if_false]
    generalize w.load_rowset _ _ = s
    cases s <;> simp [Status.ok, Status.is_already_exist]

/-- C9 witness: a VISIBLE record of the live duplicate-key tablet 100 is merged with one
`load_rowset` call; for the primary-key tablet nothing is called. -/
theorem load_rowset_func_visible_dispatch_witness :
    (load_rowset_func
        (ex_load_world (ex_rowset_meta RowsetStatePB.VISIBLE { hi := 1, lo := 1 })
          ex_tablet Status.OK Status.OK) ex_load_state ex_rowset_record).1.calls
      = ex_load_state.calls ++
        [LoadCall.load_rowset ex_tablet.tablet_id ex_tablet.tablet_uid
          { rowset_meta := ex_rowset_meta RowsetStatePB.VISIBLE { hi := 1, lo := 1 },
            schema_hash_path := ex_tablet.schema_hash_path }] :=
  ((load_rowset_func_visible_dispatch
    (ex_load_world (ex_rowset_meta RowsetStatePB.VISIBLE { hi := 1, lo := 1 })
      ex_tablet Status.OK Status.OK) ex_load_state ex_rowset_record
    (ex_rowset_meta RowsetStatePB.VISIBLE { hi := 1, lo := 1 }) ex_tablet rfl rfl rfl rfl
    rfl).2 (by decide)).1

/-- C6. Recovery phase 1 termination rule. The final walk is the retry walk when the
bounded walk timed out and the bounded walk otherwise. `DataDir::load` stops the process
iff (a) some record of the final walk was materialized with a status that is not OK, not
not-found and not already-exists while `ignore_load_tablet_failure` is off, or (b) the
status of the final walk is not OK. A record whose materialization returns not-found or
already-exists has its id put into the loaded set and leaves the failed set alone. -/
theorem load_tablets_fatal_iff (cfg : Config) (ms : MetaStore) :
    ((load_tablets cfg ms).exit ≠ TabletLoadExit.finished ↔
      ((cfg.ignore_load_tablet_failure = false ∧
          ∃ r ∈ (if (ms.walk_until_timeout cfg.load_tablet_timeout_seconds).2 = Status.TimedOut
                  then ms.walk else ms.walk_until_timeout cfg.load_tablet_timeout_seconds).1,
            ms.load_tablet_from_meta
                (if (ms.walk_until_timeout cfg.load_tablet_timeout_seconds).2 = Status.TimedOut
                  then 1 else 0) r ≠ Status.OK ∧
            ms.load_tablet_from_meta
                (if (ms.walk_until_timeout cfg.load_tablet_timeout_seconds).2 = Status.TimedOut
                  then 1 else 0) r ≠ Status.NotFound ∧
            ms.load_tablet_from_meta
                (if (ms.walk_until_timeout cfg.load_tablet_timeout_seconds).2 = Status.TimedOut
                  then 1 else 0) r ≠ Status.AlreadyExist) ∨
        (if (ms.walk_until_timeout cfg.load_tablet_timeout_seconds).2 = Status.TimedOut
          then ms.walk else ms.walk_until_timeout cfg.load_tablet_timeout_seconds).2
            ≠ Status.OK)) ∧
    (∀ (answer : TabletMetaRecord → Status) (st : TabletLoadState) (r : TabletMetaRecord),
      answer r = Status.NotFound ∨ answer r = Status.AlreadyExist →
      (load_tablet_func answer st r).1.tablet_ids = set_insert r.tablet_id st.tablet_ids ∧
      (load_tablet_func answer st r).1.failed_tablet_ids = st.failed_tablet_ids) := by
  constructor
  · rw [load_tablets_exit, tablet_load_exit_iff]
    by_cases ht : (ms.walk_until_timeout cfg.load_tablet_timeout_seconds).2 = Status.TimedOut
    · obtain ⟨hstate, hstatus⟩ := load_tablets_with_timeout cfg ms ht
      rw [hstate, hstatus]
      simp only [ht, if_true]
      obtain ⟨_, _, _, hfailed, _, _⟩ := load_tablet_walk (ms.load_tablet_from_meta 1) ms.walk.1 0
        { tablet_ids := [], failed_tablet_ids := [],
          calls := (iterate_store (fun _ => load_tablet_func (ms.load_tablet_from_meta 0)) 0
                { tablet_ids := [], failed_tablet_ids := [],
                  calls := [LoadCall.walk_until_timeout cfg.load_tablet_timeout_seconds] }
                (ms.walk_until_timeout cfg.load_tablet_timeout_seconds).1).1.calls
              ++ [LoadCall.compact]
              ++ (iterate_store (fun _ => load_tablet_func (ms.load_tablet_from_meta 0)) 0
                { tablet_ids := [], failed_tablet_ids := [],
                  calls := [LoadCall.walk_until_timeout cfg.load_tablet_timeout_seconds] }
                (ms.walk_until_timeout cfg.load_tablet_timeout_seconds).1).1.tablet_ids.map
                  LoadCall.drop_tablet_keep_meta_and_files
              ++ [LoadCall.walk] }
      simp only [hfailed, List.not_mem_nil, false_or]
      constructor
      · rintro (⟨hi, x, r, hr, _, hbad⟩ | h)
        · exact Or.inl ⟨hi, r, hr, hbad⟩
        · exact Or.inr h
      · rintro (⟨hi, r, hr, hbad⟩ | h)
        · exact Or.inl ⟨hi, r.tablet_id, r, hr, rfl, hbad⟩
        · exact Or.inr h
    · obtain ⟨hstate, hstatus⟩ := load_tablets_without_timeout cfg ms ht
      rw [hstate, hstatus]
      simp only [ht, if_false]
      obtain ⟨_, _, _, hfailed, _, _⟩ := load_tablet_walk (ms.load_tablet_from_meta 0)
        (ms.walk_until_timeout cfg.load_tablet_timeout_seconds).1 0
        { tablet_ids := [], failed_tablet_ids := [],
          calls := [LoadCall.walk_until_timeout cfg.load_tablet_timeout_seconds] }
      simp only [hfailed, List.not_mem_nil, false_or]
      constructor
      · rintro (⟨hi, x, r, hr, _, hbad⟩ | h)
        · exact Or.inl ⟨hi, r, hr, hbad⟩
        · exact Or.inr h
      · rintro (⟨hi, r, hr, hbad⟩ | h)
        · exact Or.inl ⟨hi, r.tablet_id, r, hr, rfl, hbad⟩
        · exact Or.inr h
  · intro answer st r h
    have hsoft : ¬ ((!(answer r).ok && !(answer r).is_not_found
        && !(answer r).is_already_exist) = true) := by
      rw [hard_failure_iff]
      rcases h with h | h <;> simp [h]
    unfold load_tablet_func
    simp only [hsoft, if_false]
    exact ⟨rfl, rfl⟩

/-- C6 witness: a record answered with not-found goes to the loaded set; the example
store, whose retry walk ends OK with no hard failure, lets the load finish. -/
theorem load_tablets_fatal_iff_witness :
    (load_tablet_func (ex_meta_store.load_tablet_from_meta 1)
        { tablet_ids := [100], failed_tablet_ids := [], calls := [] }
        { tablet_id := 102, schema_hash := 202, value := "m102" }).1.tablet_ids
      = set_insert 102 [100] ∧
    (load_tablets ex_cfg ex_meta_store).exit = TabletLoadExit.finished :=
  ⟨((load_tablets_fatal_iff ex_cfg ex_meta_store).2 (ex_meta_store.load_tablet_from_meta 1)
      { tablet_ids := [100], failed_tablet_ids := [], calls := [] }
      { tablet_id := 102, schema_hash := 202, value := "m102" } (Or.inl rfl)).1, by decide⟩

/-- C7. Recovery phase 1 timeout protocol. When the bounded walk returns a timeout
status, the calls of phase 1 are, in order: the bounded walk with its materialization
calls, one compaction, one `drop_tablet` (keeping meta and files) for every tablet id
recorded as loaded so far, each once, and one walk without timeout with its
materialization calls. This does not depend on the status of the compaction. The loaded
and failed sets used afterwards hold exactly the ids sorted into them by the retry walk,
each id at most once, and the walk status used afterwards is that of the retry walk. -/
theorem load_tablets_timeout_retry (cfg : Config) (ms : MetaStore)
    (htimeout : (ms.walk_until_timeout cfg.load_tablet_timeout_seconds).2 = Status.TimedOut) :
    ∃ dropped : List Int,
      (load_tablets cfg ms).state.calls
        = [LoadCall.walk_until_timeout cfg.load_tablet_timeout_seconds]
          ++ (ms.walk_until_timeout cfg.load_tablet_timeout_seconds).1.map
            (fun r => LoadCall.load_tablet_from_meta r.tablet_id r.schema_hash r.value)
          ++ [LoadCall.compact]
          ++ dropped.map LoadCall.drop_tablet_keep_meta_and_files
          ++ [LoadCall.walk]
          ++ ms.walk.1.map
            (fun r => LoadCall.load_tablet_from_meta r.tablet_id r.schema_hash r.value) ∧
      dropped.Nodup ∧
      (∀ x, x ∈ dropped ↔
        ∃ r ∈ (ms.walk_until_timeout cfg.load_tablet_timeout_seconds).1, r.tablet_id = x ∧
          ¬ (ms.load_tablet_from_meta 0 r ≠ Status.OK ∧
              ms.load_tablet_from_meta 0 r ≠ Status.NotFound ∧
              ms.load_tablet_from_meta 0 r ≠ Status.AlreadyExist)) ∧
      (load_tablets cfg ms).state.calls.count LoadCall.compact = 1 ∧
      (load_tablets cfg ms).state.calls.count LoadCall.walk = 1 ∧
      (∀ x, x ∈ (load_tablets cfg ms).state.tablet_ids ↔
        ∃ r ∈ ms.walk.1, r.tablet_id = x ∧
          ¬ (ms.load_tablet_from_meta 1 r ≠ Status.OK ∧
              ms.load_tablet_from_meta 1 r ≠ Status.NotFound ∧
              ms.load_tablet_from_meta 1 r ≠ Status.AlreadyExist)) ∧
      (∀ x, x ∈ (load_tablets cfg ms).state.failed_tablet_ids ↔
        ∃ r ∈ ms.walk.1, r.tablet_id = x ∧
          (ms.load_tablet_from_meta 1 r ≠ Status.OK ∧
            ms.load_tablet_from_meta 1 r ≠ Status.NotFound ∧
            ms.load_tablet_from_meta 1 r ≠ Status.AlreadyExist)) ∧
      (load_tablets cfg ms).state.tablet_ids.Nodup ∧
      (load_tablets cfg ms).state.failed_tablet_ids.Nodup ∧
      (load_tablets cfg ms).load_tablet_status = ms.walk.2 := by
  obtain ⟨hstate, hstatus⟩ := load_tablets_with_timeout cfg ms htimeout
  obtain ⟨_, a2, a3, _, a5, _⟩ := load_tablet_walk (ms.load_tablet_from_meta 0)
    (ms.walk_until_timeout cfg.load_tablet_timeout_seconds).1 0
    { tablet_ids := [], failed_tablet_ids := [],
      calls := [LoadCall.walk_until_timeout cfg.load_tablet_timeout_seconds] }
  obtain ⟨_, b2, b3, b4, b5, b6⟩ := load_tablet_walk (ms.load_tablet_from_meta 1) ms.walk.1 0
    { tablet_ids := [], failed_tablet_ids := [],
      calls := (iterate_store (fun _ => load_tablet_func (ms.load_tablet_from_meta 0)) 0
            { tablet_ids := [], failed_tablet_ids := [],
              calls := [LoadCall.walk_until_timeout cfg.load_tablet_timeout_seconds] }
            (ms.walk_until_timeout cfg.load_tablet_timeout_seconds).1).1.calls
          ++ [LoadCall.compact]
          ++ (iterate_store (fun _ => load_tablet_func (ms.load_tablet_from_meta 0)) 0
            { tablet_ids := [], failed_tablet_ids := [],
              calls := [LoadCall.walk_until_timeout cfg.load_tablet_timeout_seconds] }
            (ms.walk_until_timeout cfg.load_tablet_timeout_seconds).1).1.tablet_ids.map
              LoadCall.drop_tablet_keep_meta_and_files
          ++ [LoadCall.walk] }
  have hcalls : (load_tablets cfg ms).state.calls
        = [LoadCall.walk_until_timeout cfg.load_tablet_timeout_seconds]
          ++ (ms.walk_until_timeout cfg.load_tablet_timeout_seconds).1.map
            (fun r => LoadCall.load_tablet_from_meta r.tablet_id r.schema_hash r.value)
          ++ [LoadCall.compact]
          ++ (iterate_store (fun _ => load_tablet_func (ms.load_tablet_from_meta 0)) 0
            { tablet_ids := [], failed_tablet_ids := [],
              calls := [LoadCall.walk_until_timeout cfg.load_tablet_timeout_seconds] }
            (ms.walk_until_timeout cfg.load_tablet_timeout_seconds).1).1.tablet_ids.map
              LoadCall.drop_tablet_keep_meta_and_files
          ++ [LoadCall.walk]
          ++ ms.walk.1.map
            (fun r => LoadCall.load_tablet_from_meta r.tablet_id r.schema_hash r.value) := by
    rw [hstate, b2, a2]
  have hcount : ∀ (c : LoadCall) (rs : List TabletMetaRecord),
      (∀ t h v, c ≠ LoadCall.load_tablet_from_meta t h v) →
      (rs.map (fun r => LoadCall.load_tablet_from_meta r.tablet_id r.schema_hash r.value)).count c
        = 0 := by
    intro c rs hc
    rw [List.count_eq_zero]
    intro hmem
    obtain ⟨r, _, hr⟩ := List.mem_map.mp hmem
    exact hc _ _ _ hr.symm
  have hcountd : ∀ (c : LoadCall) (ids : List Int),
      (∀ t, c ≠ LoadCall.drop_tablet_keep_meta_and_files t) →
      (ids.map LoadCall.drop_tablet_keep_meta_and_files).count c = 0 := by
    intro c ids hc
    rw [List.count_eq_zero]
    intro hmem
    obtain ⟨r, _, hr⟩ := List.mem_map.mp hmem
    exact hc _ hr.symm
  refine ⟨_, hcalls, sorted_nodup _ (a5 List.Pairwise.nil), ?_, ?_, ?_, ?_, ?_, ?_, ?_, hstatus⟩
  · intro x
    rw [a3 x]
    simp
  · rw [hcalls]
    simp only [List.count_append, hcount LoadCall.compact _ (by simp),
      hcountd LoadCall.compact _ (by simp)]
    simp [List.count_singleton]
  · rw [hcalls]
    simp only [List.count_append, hcount LoadCall.walk _ (by simp),
      hcountd LoadCall.walk _ (by simp)]
    simp [List.count_singleton]
  · intro x
    rw [hstate, b3 x]
    simp
  · intro x
    rw [hstate, b4 x]
    simp
  · rw [hstate]
    exact sorted_nodup _ (b5 List.Pairwise.nil)
  · rw [hstate]
    exact sorted_nodup _ (b6 List.Pairwise.nil)

/-- C7 witness: the example store times out after tablets 101 and 100 and its
compaction fails; both tablets are dropped in ascending order, the retry walk runs once
and the loaded set ends as 100, 101, 102 without duplicates. -/
theorem load_tablets_timeout_retry_witness :
    (ex_meta_store.walk_until_timeout ex_cfg.load_tablet_timeout_seconds).2 = Status.TimedOut ∧
    ex_meta_store.compact ≠ Status.OK ∧
    (load_tablets ex_cfg ex_meta_store).state.calls.count LoadCall.walk = 1 ∧
    (load_tablets ex_cfg ex_meta_store).state.tablet_ids.Nodup ∧
    (load_tablets ex_cfg ex_meta_store).state.tablet_ids = [100, 101, 102] ∧
    (load_tablets ex_cfg ex_meta_store).state.calls
      = [LoadCall.walk_until_timeout 30,
         LoadCall.load_tablet_from_meta 101 201 "m101",
         LoadCall.load_tablet_from_meta 100 200 "m100",
         LoadCall.compact,
         LoadCall.drop_tablet_keep_meta_and_files 100,
         LoadCall.drop_tablet_keep_meta_and_files 101,
         LoadCall.walk,
         LoadCall.load_tablet_from_meta 101 201 "m101",
         LoadCall.load_tablet_from_meta 100 200 "m100",
         LoadCall.load_tablet_from_meta 102 202 "m102"] := by
  obtain ⟨_, _, _, _, _, hwalk, _, _, hnodup, _, _⟩ :=
    load_tablets_timeout_retry ex_cfg ex_meta_store rfl
  exact ⟨rfl, by decide, hwalk, hnodup, by decide, by decide⟩

/-- C11 as stated fails next to the threshold, because the percentage test is made on
`double` values. On a volume of 1000000000000019 bytes with 50000000000001 bytes
available the projected used fraction is below 95/100, yet it rounds to the same
`double` as 95/100 does, and with the bytes condition met `capacity_limit_reached`
returns true. -/
theorem capacity_limit_reached_rounding_counterexample :
    ¬ (((ex_rounding_dir.disk_capacity_bytes - ex_rounding_dir.available_bytes + 0 : Int) : ℚ)
        / (ex_rounding_dir.disk_capacity_bytes : ℚ)
        ≥ (ex_rounding_cfg.storage_flood_stage_usage_percent : ℚ) / 100) ∧
    capacity_limit_reached ex_rounding_cfg ex_rounding_dir 0 = true := by
  constructor
  · norm_num [ex_rounding_dir, ex_rounding_cfg, ex_cfg, ex_dir]
  · rw [capacity_limit_reached_rounded ex_rounding_cfg ex_rounding_dir 0 (by decide)
      (by decide) (by decide) (by decide) (by decide) (by decide)]
    refine ⟨?_, by decide⟩
    have h1 : ((ex_rounding_cfg.storage_flood_stage_usage_percent : ℚ) / 100) = 95 / 100 := by
      norm_num [ex_rounding_cfg, ex_cfg]
    have h2 : (((ex_rounding_dir.disk_capacity_bytes - ex_rounding_dir.available_bytes + 0 : Int)
        : ℚ) / (ex_rounding_dir.disk_capacity_bytes : ℚ))
        = 950000000000018 / 1000000000000019 := by
      norm_num [ex_rounding_dir, ex_dir]
    have h3 : round_to_double ((950000000000018 : ℚ) / 1000000000000019)
        = 8556839292003942 * 2 ^ (-53 : ℤ) := by
      have h := round_to_double_eq (q := (950000000000018 : ℚ) / 1000000000000019) (-1)
        8556839292003942 (by norm_num) (by norm_num) (by norm_num) (by norm_num)
        (by norm_num)
      simpa using h
    rw [h1, h2, h3, round_to_double_95]


/-- C11 (amended). `capacity_limit_reached(incoming)` returns true iff both hold: the
`double` `used_pct` is at least the `double` `storage_flood_stage_usage_percent / 100.0`,
and the projected remaining bytes `available - incoming` are at most
`storage_flood_stage_left_capacity_bytes`; when the bytes condition fails it returns
false. For a capacity in `(0, 2^53)`, a projected used size `capacity - available +
incoming` in `[0, 2^53)` and a percentage in `[0, 2^31)`, `used_pct` is the projected
used fraction rounded to `double`, and in exact arithmetic: if the fraction is at least
`percent / 100` and the bytes condition holds, the result is true; if the result is
true, the fraction is at least `percent / 100 * (1 - 2^-52)`; so a fraction below that
bound gives false whatever the bytes condition. -/
theorem capacity_limit_reached_iff_both (cfg : Config) (dir : DataDir) (incoming : Int) :
    (capacity_limit_reached cfg dir incoming = true ↔
      (Double.ge (disk_usage dir incoming)
          (Double.div (Double.of_int cfg.storage_flood_stage_usage_percent)
            (Double.finite 100)) = true ∧
        dir.available_bytes - incoming ≤ cfg.storage_flood_stage_left_capacity_bytes)) ∧
    (¬ dir.available_bytes - incoming ≤ cfg.storage_flood_stage_left_capacity_bytes →
      capacity_limit_reached cfg dir incoming = false) ∧
    (0 < dir.disk_capacity_bytes → dir.disk_capacity_bytes < 2 ^ 53 →
      0 ≤ dir.disk_capacity_bytes - dir.available_bytes + incoming →
      dir.disk_capacity_bytes - dir.available_bytes + incoming < 2 ^ 53 →
      0 ≤ cfg.storage_flood_stage_usage_percent →
      cfg.storage_flood_stage_usage_percent < 2 ^ 31 →
      disk_usage dir incoming = Double.finite (round_to_double
        (((dir.disk_capacity_bytes - dir.available_bytes + incoming : Int) : ℚ)
          / (dir.disk_capacity_bytes : ℚ))) ∧
      ((((dir.disk_capacity_bytes - dir.available_bytes + incoming : Int) : ℚ)
            / (dir.disk_capacity_bytes : ℚ)
            ≥ (cfg.storage_flood_stage_usage_percent : ℚ) / 100 ∧
          dir.available_bytes - incoming ≤ cfg.storage_flood_stage_left_capacity_bytes) →
        capacity_limit_reached cfg dir incoming = true) ∧
      (capacity_limit_reached cfg dir incoming = true →
        ((dir.disk_capacity_bytes - dir.available_bytes + incoming : Int) : ℚ)
            / (dir.disk_capacity_bytes : ℚ)
            ≥ (cfg.storage_flood_stage_usage_percent : ℚ) / 100 * (1 - 1 / 2 ^ 52) ∧
        dir.available_bytes - incoming ≤ cfg.storage_flood_stage_left_capacity_bytes) ∧
      (((dir.disk_capacity_bytes - dir.available_bytes + incoming : Int) : ℚ)
            / (dir.disk_capacity_bytes : ℚ)
            < (cfg.storage_flood_stage_usage_percent : ℚ) / 100 * (1 - 1 / 2 ^ 52) →
        capacity_limit_reached cfg dir incoming = false)) := by
  have hiff : capacity_limit_reached cfg dir incoming = true ↔
      (Double.ge (disk_usage dir incoming)
          (Double.div (Double.of_int cfg.storage_flood_stage_usage_percent)
            (Double.finite 100)) = true ∧
        dir.available_bytes - incoming ≤ cfg.storage_flood_stage_left_capacity_bytes) := by
    unfold capacity_limit_reached
    dsimp only
    constructor
    · intro h
      by_contra hn
      rw [if_neg hn] at h
      exact Bool.noConfusion h
    · intro h
      rw [if_pos h]
  refine ⟨hiff, ?_, ?_⟩
  · intro hleft
    cases hres : capacity_limit_reached cfg dir incoming with
    | false => rfl
    | true => exact absurd (hiff.mp hres).2 hleft
  · intro hcap hcap2 hused hused2 hpct hpct2
    have hround := capacity_limit_reached_rounded cfg dir incoming hcap hcap2 hused hused2
      hpct hpct2
    have hcq : (0 : ℚ) < (dir.disk_capacity_bytes : ℚ) := by exact_mod_cast hcap
    have huq : (0 : ℚ) ≤ ((dir.disk_capacity_bytes - dir.available_bytes + incoming : Int) : ℚ) := by
      exact_mod_cast hused
    have hpq : (0 : ℚ) ≤ (cfg.storage_flood_stage_usage_percent : ℚ) := by exact_mod_cast hpct
    have hq0 : (0 : ℚ) ≤ ((dir.disk_capacity_bytes - dir.available_bytes + incoming : Int) : ℚ)
        / (dir.disk_capacity_bytes : ℚ) := div_nonneg huq (le_of_lt hcq)
    have ht0 : (0 : ℚ) ≤ (cfg.storage_flood_stage_usage_percent : ℚ) / 100 :=
      div_nonneg hpq (by norm_num)
    have hnear : capacity_limit_reached cfg dir incoming = true →
        ((dir.disk_capacity_bytes - dir.available_bytes + incoming : Int) : ℚ)
            / (dir.disk_capacity_bytes : ℚ)
            ≥ (cfg.storage_flood_stage_usage_percent : ℚ) / 100 * (1 - 1 / 2 ^ 52) ∧
        dir.available_bytes - incoming ≤ cfg.storage_flood_stage_left_capacity_bytes := by
      intro hres
      obtain ⟨hge, hleft⟩ := hround.mp hres
      refine ⟨?_, hleft⟩
      generalize ((dir.disk_capacity_bytes - dir.available_bytes + incoming : Int) : ℚ)
        / (dir.disk_capacity_bytes : ℚ) = q at hge hq0 ⊢
      generalize (cfg.storage_flood_stage_usage_percent : ℚ) / 100 = t at hge ht0 ⊢
      rcases eq_or_lt_of_le ht0 with ht | ht
      · rw [← ht]
        simpa using hq0
      · have e1 := (round_to_double_error ht).1
        rcases eq_or_lt_of_le hq0 with hq | hq
        · exfalso
          rw [← hq] at hge
          have hz : round_to_double 0 = 0 := by simp [round_to_double]
          rw [hz] at hge
          have : t / 2 ^ (53 : ℕ) < t := by
            rw [div_lt_iff₀ (by positivity)]
            have : (1 : ℚ) < 2 ^ (53 : ℕ) := by norm_num
            nlinarith
          linarith
        · have e2 := (round_to_double_error hq).2
          have h1 : t - t / 2 ^ (53 : ℕ) ≤ q + q / 2 ^ (53 : ℕ) := by linarith
          by_contra hlt
          push_neg at hlt
          have h2 : q + q / 2 ^ (53 : ℕ)
              < t * (1 - 1 / 2 ^ 52) + t * (1 - 1 / 2 ^ 52) / 2 ^ (53 : ℕ) := by
            have : q / 2 ^ (53 : ℕ) < t * (1 - 1 / 2 ^ 52) / 2 ^ (53 : ℕ) :=
              div_lt_div_of_pos_right hlt (by positivity)
            linarith
          have h3 : t * (1 - 1 / 2 ^ 52) + t * (1 - 1 / 2 ^ 52) / 2 ^ (53 : ℕ)
              ≤ t - t / 2 ^ (53 : ℕ) := by
            have : t * (1 - 1 / 2 ^ 52) + t * (1 - 1 / 2 ^ 52) / 2 ^ (53 : ℕ)
                = t * ((1 - 1 / 2 ^ 52) + (1 - 1 / 2 ^ 52) / 2 ^ (53 : ℕ)) := by ring
            rw [this]
            have : t - t / 2 ^ (53 : ℕ) = t * (1 - 1 / 2 ^ (53 : ℕ)) := by ring
            rw [this]
            exact mul_le_mul_of_nonneg_left (by norm_num) (le_of_lt ht)
          linarith
    refine ⟨?_, ?_, hnear, ?_⟩
    · have e1 := round_to_double_int _ (le_of_lt hcap) hcap2
      have e2 := round_to_double_int _ hused hused2
      unfold disk_usage Double.of_int
      simp only [e1, e2, Double.div, if_neg (ne_of_gt hcq)]
    · rintro ⟨hge, hleft⟩
      exact hround.mpr ⟨round_to_double_mono ht0 hge, hleft⟩
    · intro hlt
      cases hres : capacity_limit_reached cfg dir incoming with
      | false => rfl
      | true => exact absurd (hnear hres).1 (not_le.mpr hlt)


/-- C11 witness: a 100 GiB disk with half a GiB left is at 99.5 percent, above the 95
percent flood stage and below the 1 GiB floor, so the limit is reached; with a floor of
zero bytes only the percentage condition holds and the limit is not reached. On a
directory whose capacity is still zero the used fraction is an infinity for a positive
incoming size, which passes the percentage test, and a NaN for none, which fails it. -/
theorem capacity_limit_reached_iff_both_witness :
    capacity_limit_reached ex_cfg ex_full_dir 0 = true ∧
    capacity_limit_reached { ex_cfg with storage_flood_stage_left_capacity_bytes := 0 }
      ex_full_dir 0 = false ∧
    disk_usage ex_unread_dir 5 = Double.pos_inf ∧
    capacity_limit_reached ex_cfg ex_unread_dir 5 = true ∧
    disk_usage ex_unread_dir 0 = Double.nan ∧
    capacity_limit_reached ex_cfg ex_unread_dir 0 = false := by
  have h5 : round_to_double (5 : ℚ) = 5 := by
    simpa using round_to_double_int 5 (by norm_num) (by norm_num)
  have h0 : round_to_double (0 : ℚ) = 0 := by
    simpa using round_to_double_int 0 (by norm_num) (by norm_num)
  have h95 : round_to_double (95 : ℚ) = 95 := by
    simpa using round_to_double_int 95 (by norm_num) (by norm_num)
  have hinf : disk_usage ex_unread_dir 5 = Double.pos_inf := by
    simp [disk_usage, ex_unread_dir, ex_dir, Double.of_int, Double.div, h5, h0]
  have hnan : disk_usage ex_unread_dir 0 = Double.nan := by
    simp [disk_usage, ex_unread_dir, ex_dir, Double.of_int, Double.div, h0]
  have hthr : Double.div (Double.of_int ex_cfg.storage_flood_stage_usage_percent)
      (Double.finite 100) = Double.finite (round_to_double (95 / 100)) := by
    simp [ex_cfg, Double.of_int, Double.div, h95]
  refine ⟨?_, ?_, hinf, ?_, hnan, ?_⟩
  · exact ((capacity_limit_reached_iff_both ex_cfg ex_full_dir 0).2.2 (by decide) (by decide)
      (by decide) (by decide) (by decide) (by decide)).2.1
      ⟨by norm_num [ex_full_dir, ex_cfg, ex_dir], by decide⟩
  · exact (capacity_limit_reached_iff_both
      { ex_cfg with storage_flood_stage_left_capacity_bytes := 0 } ex_full_dir 0).2.1
      (by decide)
  · exact (capacity_limit_reached_iff_both ex_cfg ex_unread_dir 5).1.mpr
      ⟨by rw [hinf, hthr]; rfl, by decide⟩
  · cases hres : capacity_limit_reached ex_cfg ex_unread_dir 0 with
    | false => rfl
    | true =>
      have h := ((capacity_limit_reached_iff_both ex_cfg ex_unread_dir 0).1.mp hres).1
      rw [hnan] at h
      exact absurd h (by simp [Double.ge])

/-- C12. `health_check`: in state DECOMMISSIONED or DISABLED the directory is unchanged
and no probe is made. Otherwise only the state changes: it becomes OFFLINE iff each of
the 10 attempts fails with an I/O-class error (and then 10 attempts are made), and ONLINE
iff some attempt succeeds or fails with another kind of error; the attempts stop right
after the first such attempt. -/
theorem health_check_transition (probe : Nat → Status) (is_io_error : Status → Bool)
    (dir : DataDir) :
    (dir.state = DiskState.DECOMMISSIONED ∨ dir.state = DiskState.DISABLED →
      health_check probe is_io_error dir = (dir, 0)) ∧
    (dir.state ≠ DiskState.DECOMMISSIONED → dir.state ≠ DiskState.DISABLED →
      ((health_check probe is_io_error dir).1.state = DiskState.OFFLINE ↔
        ∀ i, i < 10 → (probe i).ok = false ∧ is_io_error (probe i) = true) ∧
      ((health_check probe is_io_error dir).1.state = DiskState.ONLINE ↔
        ∃ i, i < 10 ∧ ((probe i).ok = true ∨ is_io_error (probe i) = false)) ∧
      ((∀ i, i < 10 → (probe i).ok = false ∧ is_io_error (probe i) = true) →
        (health_check probe is_io_error dir).2 = 10) ∧
      (∀ k, k < 10 →
        (∀ j, j < k → (probe j).ok = false ∧ is_io_error (probe j) = true) →
        ((probe k).ok = true ∨ is_io_error (probe k) = false) →
        (health_check probe is_io_error dir).2 = k + 1) ∧
      (health_check probe is_io_error dir).1
        = { dir with state := (health_check probe is_io_error dir).1.state }) := by
  constructor
  · intro h
    unfold health_check
    have hn : ¬ (dir.state ≠ DiskState.DECOMMISSIONED ∧ dir.state ≠ DiskState.DISABLED) := by
      rcases h with h | h <;> simp [h]
    rw [if_neg hn]
  · intro h1 h2
    have hrun : dir.state ≠ DiskState.DECOMMISSIONED ∧ dir.state ≠ DiskState.DISABLED :=
      ⟨h1, h2⟩
    have hiff := health_check_loop_all_failed_iff probe is_io_error 10 0
    simp only [Nat.zero_add] at hiff
    have hval : health_check probe is_io_error dir
        = if (health_check_loop probe is_io_error 10 0).1 = true then
            ({ dir with state := DiskState.OFFLINE },
              (health_check_loop probe is_io_error 10 0).2)
          else ({ dir with state := DiskState.ONLINE },
              (health_check_loop probe is_io_error 10 0).2) := by
      unfold health_check
      rw [if_pos hrun]
    refine ⟨?_, ?_, ?_, ?_, ?_⟩
    · rw [hval, ← hiff]
      split <;> simp_all
    · rw [hval]
      have hex : (∃ i, i < 10 ∧ ((probe i).ok = true ∨ is_io_error (probe i) = false)) ↔
          ¬ (health_check_loop probe is_io_error 10 0).1 = true := by
        rw [hiff]
        constructor
        · rintro ⟨i, hi, hg⟩ hall
          have := hall i hi
          rcases hg with hg | hg
          · rw [hg] at this
            exact Bool.noConfusion this.1
          · rw [hg] at this
            exact Bool.noConfusion this.2
        · intro hnot
          by_contra hne
          apply hnot
          intro i hi
          by_contra hbad
          apply hne
          refine ⟨i, hi, ?_⟩
          by_cases hok : (probe i).ok = true
          · exact Or.inl hok
          · right
            by_contra hio
            exact hbad ⟨by simpa using hok, by simpa using hio⟩
      rw [hex]
      split <;> simp_all
    · intro hall
      have hl := health_check_loop_all_failed probe is_io_error 10 0
        (by intro j hj; simpa using hall j hj)
      rw [hval, hl]
      simp
    · intro k hk hbad hgood
      have hl := health_check_loop_stops probe is_io_error 10 0 k hk
        (by intro j hj; simpa using hbad j hj) (by simpa using hgood)
      rw [hval, hl]
      simp
    · rw [hval]
      split <;> rfl

/-- C12 witness: a disabled directory is left alone without a probe; a probe that
succeeds at the third attempt puts an offline directory back online after 3 attempts; a
probe that always fails with an I/O error takes a directory offline. -/
theorem health_check_transition_witness :
    health_check ex_dead_probe ex_is_io_error { ex_dir with state := DiskState.DISABLED }
      = ({ ex_dir with state := DiskState.DISABLED }, 0) ∧
    (health_check ex_flaky_probe ex_is_io_error
      { ex_dir with state := DiskState.OFFLINE }).2 = 2 + 1 ∧
    (health_check ex_dead_probe ex_is_io_error ex_dir).1.state = DiskState.OFFLINE :=
  ⟨(health_check_transition ex_dead_probe ex_is_io_error
      { ex_dir with state := DiskState.DISABLED }).1 (Or.inr rfl),
   ((health_check_transition ex_flaky_probe ex_is_io_error
      { ex_dir with state := DiskState.OFFLINE }).2 (by decide) (by decide)).2.2.2.1 2
      (by decide) (by decide) (by decide),
   ((health_check_transition ex_dead_probe ex_is_io_error ex_dir).2 (by decide)
      (by decide)).1.mpr (by decide)⟩

/-- C13. `get_shard` round robin. Starting from a counter value `c` below
`MAX_SHARD_NUM`, call number `k` (from 0) leaves the counter at
`(c + k + 1) mod MAX_SHARD_NUM`. Its shard path is the data directory joined with
`(c + k) mod MAX_SHARD_NUM`; when the file system creates that directory and the sync of
the data directory succeeds or is not needed (the path existed, or `sync_tablet_meta` is
off), the call returns OK with shard index `(c + k) mod MAX_SHARD_NUM`, and otherwise it
returns an error and no index. Every call counts, also a failing one. Hence on a fresh
directory (`c = 0`) the indices returned by any `MAX_SHARD_NUM` consecutive calls are
pairwise distinct and below `MAX_SHARD_NUM`, and a call whose file system steps succeed
returns the index that the call `MAX_SHARD_NUM` calls earlier returned. -/
theorem get_shard_round_robin (cfg : Config) (m : Nat) (fss : Nat → ShardFs) (dir : DataDir)
    (hc : dir.current_shard < m) :
    (∀ k,
      (get_shard cfg m (fss k) (get_shard_calls cfg m fss dir k)).dir.current_shard
        = (dir.current_shard + k + 1) % m ∧
      (((fss k).create_dir_recursive
            (dir.path ++ DATA_PREFIX ++ "/" ++ toString ((dir.current_shard + k) % m))
            = Status.OK ∧
          ((fss k).path_exist
              (dir.path ++ DATA_PREFIX ++ "/" ++ toString ((dir.current_shard + k) % m))
              = true ∨
            cfg.sync_tablet_meta = false ∨
            (fss k).sync_dir (dir.path ++ DATA_PREFIX) = Status.OK)) →
        (get_shard cfg m (fss k) (get_shard_calls cfg m fss dir k)).status = Status.OK ∧
        (get_shard cfg m (fss k) (get_shard_calls cfg m fss dir k)).shard
          = some ((dir.current_shard + k) % m)) ∧
      (¬ ((fss k).create_dir_recursive
            (dir.path ++ DATA_PREFIX ++ "/" ++ toString ((dir.current_shard + k) % m))
            = Status.OK ∧
          ((fss k).path_exist
              (dir.path ++ DATA_PREFIX ++ "/" ++ toString ((dir.current_shard + k) % m))
              = true ∨
            cfg.sync_tablet_meta = false ∨
            (fss k).sync_dir (dir.path ++ DATA_PREFIX) = Status.OK)) →
        (get_shard cfg m (fss k) (get_shard_calls cfg m fss dir k)).status ≠ Status.OK ∧
        (get_shard cfg m (fss k) (get_shard_calls cfg m fss dir k)).shard = none)) ∧
    (dir.current_shard = 0 →
      (∀ k i j a b, i < m → j < m → i ≠ j →
        (get_shard cfg m (fss (k + i)) (get_shard_calls cfg m fss dir (k + i))).shard = some a →
        (get_shard cfg m (fss (k + j)) (get_shard_calls cfg m fss dir (k + j))).shard = some b →
        a ≠ b ∧ a < m ∧ b < m) ∧
      (∀ k a,
        (get_shard cfg m (fss k) (get_shard_calls cfg m fss dir k)).shard = some a →
        ((fss (k + m)).create_dir_recursive
            (dir.path ++ DATA_PREFIX ++ "/" ++ toString a) = Status.OK ∧
          ((fss (k + m)).path_exist (dir.path ++ DATA_PREFIX ++ "/" ++ toString a) = true ∨
            cfg.sync_tablet_meta = false ∨
            (fss (k + m)).sync_dir (dir.path ++ DATA_PREFIX) = Status.OK)) →
        (get_shard cfg m (fss (k + m)) (get_shard_calls cfg m fss dir (k + m))).status
          = Status.OK ∧
        (get_shard cfg m (fss (k + m)) (get_shard_calls cfg m fss dir (k + m))).shard
          = some a)) := by
  have hpos : 0 < m := Nat.lt_of_le_of_lt (Nat.zero_le _) hc
  have hcount := get_shard_calls_counter cfg m fss dir hc
  have hpath := get_shard_calls_path cfg m fss dir
  have hstatus : ∀ k,
      (((fss k).create_dir_recursive
            (dir.path ++ DATA_PREFIX ++ "/" ++ toString ((dir.current_shard + k) % m))
            = Status.OK ∧
          ((fss k).path_exist
              (dir.path ++ DATA_PREFIX ++ "/" ++ toString ((dir.current_shard + k) % m))
              = true ∨
            cfg.sync_tablet_meta = false ∨
            (fss k).sync_dir (dir.path ++ DATA_PREFIX) = Status.OK)) →
        (get_shard cfg m (fss k) (get_shard_calls cfg m fss dir k)).status = Status.OK ∧
        (get_shard cfg m (fss k) (get_shard_calls cfg m fss dir k)).shard
          = some ((dir.current_shard + k) % m)) ∧
      (¬ ((fss k).create_dir_recursive
            (dir.path ++ DATA_PREFIX ++ "/" ++ toString ((dir.current_shard + k) % m))
            = Status.OK ∧
          ((fss k).path_exist
              (dir.path ++ DATA_PREFIX ++ "/" ++ toString ((dir.current_shard + k) % m))
              = true ∨
            cfg.sync_tablet_meta = false ∨
            (fss k).sync_dir (dir.path ++ DATA_PREFIX) = Status.OK)) →
        (get_shard cfg m (fss k) (get_shard_calls cfg m fss dir k)).status ≠ Status.OK ∧
        (get_shard cfg m (fss k) (get_shard_calls cfg m fss dir k)).shard = none) := by
    intro k
    have h := get_shard_status cfg m (fss k) (get_shard_calls cfg m fss dir k)
    rw [hpath k, hcount k] at h
    exact h
  have hshard : ∀ k a,
      (get_shard cfg m (fss k) (get_shard_calls cfg m fss dir k)).shard = some a →
      a = (dir.current_shard + k) % m := by
    intro k a ha
    by_cases hs : (get_shard cfg m (fss k) (get_shard_calls cfg m fss dir k)).status = Status.OK
    · rw [(get_shard_output cfg m (fss k) _).1 hs, hcount k] at ha
      exact (Option.some.inj ha).symm
    · rw [(get_shard_output cfg m (fss k) _).2 hs] at ha
      exact Option.noConfusion ha
  refine ⟨?_, ?_⟩
  · intro k
    refine ⟨?_, (hstatus k).1, (hstatus k).2⟩
    rw [get_shard_counter, hcount k, Nat.mod_add_mod]
  · intro hzero
    constructor
    · intro k i j a b hi hj hij ha hb
      have ha' := hshard (k + i) a ha
      have hb' := hshard (k + j) b hb
      rw [hzero, Nat.zero_add] at ha' hb'
      refine ⟨?_, ?_, ?_⟩
      · intro hab
        rw [ha', hb'] at hab
        exact hij (mod_shift_injective m k i j hi hj hab)
      · rw [ha']
        exact Nat.mod_lt _ hpos
      · rw [hb']
        exact Nat.mod_lt _ hpos
    · intro k a ha hfs
      have ha' := hshard k a ha
      have hwrap : (dir.current_shard + (k + m)) % m = a := by
        rw [ha', ← Nat.add_assoc, Nat.add_mod_right]
      have h := (hstatus (k + m)).1
      rw [hwrap] at h
      exact h hfs

/-- C13 witness: with 4 shards, `sync_tablet_meta` off and a file system that creates
every directory, a fresh directory hands out 0, 1, 2, 3 and then 0 again, each call
returning OK. -/
theorem get_shard_round_robin_witness :
    ((get_shard ex_cfg 4 ex_shard_fs
        (get_shard_calls ex_cfg 4 (fun _ => ex_shard_fs) ex_dir 3)).status = Status.OK ∧
      (get_shard ex_cfg 4 ex_shard_fs
        (get_shard_calls ex_cfg 4 (fun _ => ex_shard_fs) ex_dir 3)).shard
        = some ((ex_dir.current_shard + 3) % 4)) ∧
    (List.range 5).map (fun k => (get_shard ex_cfg 4 ex_shard_fs
        (get_shard_calls ex_cfg 4 (fun _ => ex_shard_fs) ex_dir k)).shard)
      = [some 0, some 1, some 2, some 3, some 0] ∧
    (get_shard ex_cfg 4 ex_broken_shard_fs
        (get_shard_calls ex_cfg 4 (fun _ => ex_shard_fs) ex_dir 3)).shard = none :=
  ⟨((get_shard_round_robin ex_cfg 4 (fun _ => ex_shard_fs) ex_dir (by decide)).1 3).2.1
      ⟨rfl, Or.inr (Or.inl rfl)⟩,
    by decide, by decide⟩

/-- C14. For every finite sequence of `register_tablet` and `deregister_tablet` calls on
a directory whose tablet set is empty, a following `clear_tablets` into an empty sequence
yields exactly the identities `(tablet_id, schema_hash, tablet_uid)` of which some
registration is not followed by a deregistration, each exactly once, and leaves the
tablet set empty, so that a second `clear_tablets` yields nothing. -/
theorem clear_tablets_yields_registered (dir : DataDir) (calls : List TabletSetCall)
    (hempty : dir.tablet_set = []) :
    (∀ x, x ∈ (clear_tablets (apply_tablet_set_calls dir calls) []).2 ↔
      ∃ pre post t, calls = pre ++ TabletSetCall.register t :: post ∧
        tablet_info_of t = x ∧
        ∀ t', TabletSetCall.deregister t' ∈ post → tablet_info_of t' ≠ x) ∧
    (clear_tablets (apply_tablet_set_calls dir calls) []).2.Nodup ∧
    (clear_tablets (apply_tablet_set_calls dir calls) []).1.tablet_set = [] ∧
    (clear_tablets (clear_tablets (apply_tablet_set_calls dir calls) []).1 []).2 = [] := by
  obtain ⟨hnd, hmem⟩ := apply_tablet_set_calls_spec calls dir (by rw [hempty]; exact List.nodup_nil)
  refine ⟨?_, ?_, rfl, rfl⟩
  · intro x
    simp only [clear_tablets, List.nil_append]
    rw [hmem x, hempty]
    simp
  · simpa [clear_tablets] using hnd

/-- C14 witness: tablet 100 is registered twice, its later incarnation is registered
and deregistered; `clear_tablets` yields the identity of tablet 100 once. -/
theorem clear_tablets_yields_registered_witness :
    (clear_tablets (apply_tablet_set_calls ex_dir
        [TabletSetCall.register ex_tablet, TabletSetCall.register ex_tablet_reborn,
         TabletSetCall.register ex_tablet, TabletSetCall.deregister ex_tablet_reborn]) []).2.Nodup ∧
    (clear_tablets (apply_tablet_set_calls ex_dir
        [TabletSetCall.register ex_tablet, TabletSetCall.register ex_tablet_reborn,
         TabletSetCall.register ex_tablet, TabletSetCall.deregister ex_tablet_reborn]) []).2
      = [tablet_info_of ex_tablet] :=
  ⟨(clear_tablets_yields_registered ex_dir
      [TabletSetCall.register ex_tablet, TabletSetCall.register ex_tablet_reborn,
       TabletSetCall.register ex_tablet, TabletSetCall.deregister ex_tablet_reborn] rfl).2.1,
   by decide⟩

set_option maxHeartbeats 1600000 in
/-- C15. `init` takes its steps in the order file system handle, root path exists, no
alignment marker, capacity update, cluster-id init, data dir, tmp dir, metadata store,
persistent-index dir, and is decided by the first answer that is not OK. It returns OK
iff the file system handle is created, the root path exists, no alignment marker is
found, the space query, the cluster-id init, the creation of the data and of the temp
directory succeed, the metadata store is allocated and initialized and the
persistent-index directory is created; only then is the state ONLINE. If a step fails
while the steps before it succeeded, `init` returns the status of that step (NotFound
for a present alignment marker, MemoryAllocFailed for a store that cannot be
allocated), takes no later step and leaves the state as it was. -/
theorem init_online_only_after_all_steps (env : InitEnv) (dir : DataDir) :
    ((init env dir).status = Status.OK ↔
      (env.create_fs = Status.OK ∧ env.path_exists = Status.OK ∧
        env.align_tag_found = false ∧ env.space.1 = Status.OK ∧
        env.cluster_id_init = Status.OK ∧ env.create_data_dir = Status.OK ∧
        env.create_tmp_dir = Status.OK ∧ env.kv_store_allocated = true ∧
        env.kv_store_init = Status.OK ∧ env.create_persistent_index_dir = Status.OK)) ∧
    ((init env dir).dir.state = DiskState.ONLINE ↔
      ((init env dir).status = Status.OK ∨ dir.state = DiskState.ONLINE)) ∧
    ((init env dir).status ≠ Status.OK → (init env dir).dir.state = dir.state) ∧
    ((init env dir).status = Status.OK →
      (init env dir).steps.map Prod.fst = init_step_order ∧
      (init env dir).dir.available_bytes = env.space.2.1 ∧
      (init env dir).dir.disk_capacity_bytes = env.space.2.2 ∧
      (init env dir).dir.path_hash = env.path_hash) ∧
    (env.create_fs ≠ Status.OK →
      (init env dir).status = env.create_fs ∧ (init env dir).dir = dir ∧
      (init env dir).steps.map Prod.fst = init_step_order.take 1) ∧
    (env.create_fs = Status.OK →
      (env.path_exists ≠ Status.OK →
        (init env dir).status = env.path_exists ∧ (init env dir).dir = dir ∧
        (init env dir).steps.map Prod.fst = init_step_order.take 2) ∧
      (env.path_exists = Status.OK →
        (env.align_tag_found = true →
          (init env dir).status = Status.NotFound ∧ (init env dir).dir = dir ∧
          (init env dir).steps.map Prod.fst = init_step_order.take 3) ∧
        (env.align_tag_found = false →
          (env.space.1 ≠ Status.OK →
            (init env dir).status = env.space.1 ∧ (init env dir).dir = dir ∧
            (init env dir).steps.map Prod.fst = init_step_order.take 4) ∧
          (env.space.1 = Status.OK →
            (env.cluster_id_init ≠ Status.OK →
              (init env dir).status = env.cluster_id_init ∧
              (init env dir).dir =
                { dir with
                    available_bytes := env.space.2.1, disk_capacity_bytes := env.space.2.2 } ∧
              (init env dir).steps.map Prod.fst = init_step_order.take 5) ∧
            (env.cluster_id_init = Status.OK →
              (env.create_data_dir ≠ Status.OK →
                (init env dir).status = env.create_data_dir ∧
                (init env dir).dir =
                  { dir with
                      available_bytes := env.space.2.1, disk_capacity_bytes := env.space.2.2 } ∧
                (init env dir).steps.map Prod.fst = init_step_order.take 6) ∧
              (env.create_data_dir = Status.OK →
                (env.create_tmp_dir ≠ Status.OK →
                  (init env dir).status = env.create_tmp_dir ∧
                  (init env dir).dir =
                    { dir with
                        available_bytes := env.space.2.1, disk_capacity_bytes := env.space.2.2 } ∧
                  (init env dir).steps.map Prod.fst = init_step_order.take 7) ∧
                (env.create_tmp_dir = Status.OK →
                  (env.kv_store_allocated = false →
                    (init env dir).status = Status.MemoryAllocFailed ∧
                    (init env dir).dir =
                      { dir with
                          available_bytes := env.space.2.1, disk_capacity_bytes := env.space.2.2,
                          path_hash := env.path_hash } ∧
                    (init env dir).steps.map Prod.fst = init_step_order.take 8) ∧
                  (env.kv_store_allocated = true →
                    (env.kv_store_init ≠ Status.OK →
                      (init env dir).status = env.kv_store_init ∧
                      (init env dir).dir =
                        { dir with
                            available_bytes := env.space.2.1, disk_capacity_bytes := env.space.2.2,
                            path_hash := env.path_hash } ∧
                      (init env dir).steps.map Prod.fst = init_step_order.take 8) ∧
                    (env.kv_store_init = Status.OK →
                      env.create_persistent_index_dir ≠ Status.OK →
                      (init env dir).status = env.create_persistent_index_dir ∧
                      (init env dir).dir =
                        { dir with
                            available_bytes := env.space.2.1, disk_capacity_bytes := env.space.2.2,
                            path_hash := env.path_hash } ∧
                      (init env dir).steps.map Prod.fst = init_step_order))))))))) := by
  have hok : ∀ s : Status, ¬ s.ok = false → s = Status.OK := by
    intro s h
    cases s <;> simp [Status.ok] at h ⊢
  have hbad : ∀ s : Status, s.ok = false → s ≠ Status.OK := by
    intro s h e
    rw [e] at h
    exact Bool.noConfusion h
  obtain ⟨c1, c2, tag, sp, c5, c6, c7, ph, alloc, c9, c10⟩ := env
  obtain ⟨c4, av, cap⟩ := sp
  simp only [init, update_capacity, init_meta]
  by_cases h1 : c1.ok = false
  · have b := hbad _ h1
    simp only [h1, Bool.true_eq_false, Bool.false_eq_true, if_false, if_true]
    refine ⟨?_, ?_, ?_, ?_, ?_, ?_⟩ <;> simp_all [init_step_order]
  have e1 := hok _ h1
  simp only [h1, Bool.true_eq_false, Bool.false_eq_true, if_false, if_true]
  by_cases h2 : c2.ok = false
  · have b := hbad _ h2
    simp only [h2, Bool.true_eq_false, Bool.false_eq_true, if_false, if_true]
    refine ⟨?_, ?_, ?_, ?_, ?_, ?_⟩ <;> simp_all [init_step_order]
  have e2 := hok _ h2
  simp only [h2, Bool.true_eq_false, Bool.false_eq_true, if_false, if_true]
  by_cases h3 : tag = true
  · simp only [h3, Bool.true_eq_false, Bool.false_eq_true, if_false, if_true]
    refine ⟨?_, ?_, ?_, ?_, ?_, ?_⟩ <;> simp_all [init_step_order]
  simp only [h3, Bool.true_eq_false, Bool.false_eq_true, if_false, if_true]
  by_cases h4 : c4.ok = false
  · have b := hbad _ h4
    simp only [h4, Bool.true_eq_false, Bool.false_eq_true, if_false, if_true]
    refine ⟨?_, ?_, ?_, ?_, ?_, ?_⟩ <;> simp_all [init_step_order]
  have e4 := hok _ h4
  simp only [h4, Bool.true_eq_false, Bool.false_eq_true, if_false, if_true]
  by_cases h5 : c5.ok = false
  · have b := hbad _ h5
    simp only [h5, Bool.true_eq_false, Bool.false_eq_true, if_false, if_true]
    refine ⟨?_, ?_, ?_, ?_, ?_, ?_⟩ <;> simp_all [init_step_order]
  have e5 := hok _ h5
  simp only [h5, Bool.true_eq_false, Bool.false_eq_true, if_false, if_true]
  by_cases h6 : c6.ok = false
  · have b := hbad _ h6
    simp only [h6, Bool.true_eq_false, Bool.false_eq_true, if_false, if_true]
    refine ⟨?_, ?_, ?_, ?_, ?_, ?_⟩ <;> simp_all [init_step_order]
  have e6 := hok _ h6
  simp only [h6, Bool.true_eq_false, Bool.false_eq_true, if_false, if_true]
  by_cases h7 : c7.ok = false
  · have b := hbad _ h7
    simp only [h7, Bool.true_eq_false, Bool.false_eq_true, if_false, if_true]
    refine ⟨?_, ?_, ?_, ?_, ?_, ?_⟩ <;> simp_all [init_step_order]
  have e7 := hok _ h7
  simp only [h7, Bool.true_eq_false, Bool.false_eq_true, if_false, if_true]
  by_cases h8 : alloc = false
  · have b : Status.MemoryAllocFailed ≠ Status.OK := by decide
    have hm : Status.MemoryAllocFailed.ok = false := rfl
    simp only [h8, hm, Bool.true_eq_false, Bool.false_eq_true, if_false, if_true]
    refine ⟨?_, ?_, ?_, ?_, ?_, ?_⟩ <;> simp_all [init_step_order]
  simp only [h8, Bool.true_eq_false, Bool.false_eq_true, if_false, if_true]
  by_cases h9 : c9.ok = false
  · have b := hbad _ h9
    simp only [h9, Bool.true_eq_false, Bool.false_eq_true, if_false, if_true]
    refine ⟨?_, ?_, ?_, ?_, ?_, ?_⟩ <;> simp_all [init_step_order]
  have e9 := hok _ h9
  simp only [h9, Bool.true_eq_false, Bool.false_eq_true, if_false, if_true]
  by_cases h10 : c10.ok = false
  · have b := hbad _ h10
    simp only [h10, Bool.true_eq_false, Bool.false_eq_true, if_false, if_true]
    refine ⟨?_, ?_, ?_, ?_, ?_, ?_⟩ <;> simp_all [init_step_order]
  have e10 := hok _ h10
  simp only [h10, Bool.true_eq_false, Bool.false_eq_true, if_false, if_true]
  refine ⟨?_, ?_, ?_, ?_, ?_, ?_⟩ <;> simp_all [init_step_order]

/-- C15 witness: in a healthy environment an offline directory comes up ONLINE with OK;
when the cluster-id init fails with an I/O error, `init` returns that error after five
steps, never reaches the metadata store and leaves the directory offline; a present
alignment marker gives NotFound after three steps with the directory offline. -/
theorem init_online_only_after_all_steps_witness :
    ((init ex_init_env { ex_dir with state := DiskState.OFFLINE }).status = Status.OK ∧
      (init ex_init_env { ex_dir with state := DiskState.OFFLINE }).dir.state
        = DiskState.ONLINE) ∧
    ((init { ex_init_env with cluster_id_init := Status.IOError }
        { ex_dir with state := DiskState.OFFLINE }).status = Status.IOError ∧
      (init { ex_init_env with cluster_id_init := Status.IOError }
        { ex_dir with state := DiskState.OFFLINE }).dir.state = DiskState.OFFLINE ∧
      (init { ex_init_env with cluster_id_init := Status.IOError }
        { ex_dir with state := DiskState.OFFLINE }).steps
        = [(InitStep.create_fs, Status.OK), (InitStep.path_exists, Status.OK),
           (InitStep.align_tag, Status.OK), (InitStep.update_capacity, Status.OK),
           (InitStep.cluster_id_init, Status.IOError)]) ∧
    ((init { ex_init_env with align_tag_found := true }
        { ex_dir with state := DiskState.OFFLINE }).status = Status.NotFound ∧
      (init { ex_init_env with align_tag_found := true }
        { ex_dir with state := DiskState.OFFLINE }).dir.state = DiskState.OFFLINE ∧
      (init { ex_init_env with align_tag_found := true }
        { ex_dir with state := DiskState.OFFLINE }).steps.map Prod.fst
        = [InitStep.create_fs, InitStep.path_exists, InitStep.align_tag]) ∧
    (init { ex_init_env with create_persistent_index_dir := Status.IOError }
        { ex_dir with state := DiskState.OFFLINE }).dir.state = DiskState.OFFLINE :=
  ⟨⟨(init_online_only_after_all_steps ex_init_env
        { ex_dir with state := DiskState.OFFLINE }).1.mpr
        ⟨rfl, rfl, rfl, rfl, rfl, rfl, rfl, rfl, rfl, rfl⟩,
      by decide⟩,
    by decide, by decide, by decide⟩

/-- C16. Stop flag: when `_stop_bg_worker` is set, each of the four sweeps returns the
directory as it was, with all four candidate sets untouched, and issues no action. The
result is the same for every timeline of collaborator answers, so none of them is
consulted. -/
theorem sweeps_respect_stop_flag (cfg : Config) (tl : Nat → World) (threshold : Int)
    (dir : DataDir) (hstop : dir.stop_bg_worker = true) :
    perform_path_gc_by_tablet cfg tl dir = (dir, []) ∧
    perform_path_gc_by_rowsetid cfg tl dir = (dir, []) ∧
    perform_delta_column_files_gc cfg tl dir = (dir, []) ∧
    perform_crm_gc cfg tl threshold dir = (dir, []) := by
  refine ⟨?_, ?_, ?_, ?_⟩
  · unfold perform_path_gc_by_tablet
    simp [hstop]
  · unfold perform_path_gc_by_rowsetid
    simp [hstop]
  · unfold perform_delta_column_files_gc
    simp [hstop]
  · unfold perform_crm_gc
    simp [hstop]

/-- C16 witness: with the stop flag set the rowset-id sweep leaves its candidate
`rowset1.dat` in the set, although no tablet references it in this catalog. -/
theorem sweeps_respect_stop_flag_witness :
    perform_path_gc_by_rowsetid ex_cfg
        (fun _ => { ex_world with get_tablet := fun _ _ => none })
        { ex_dir with stop_bg_worker := true }
      = ({ ex_dir with stop_bg_worker := true }, []) :=
  (sweeps_respect_stop_flag ex_cfg (fun _ => { ex_world with get_tablet := fun _ _ => none })
    3600 { ex_dir with stop_bg_worker := true } rfl).2.1

/-- C17. A sweep that runs (stop flag clear, input set non-empty) leaves its input set
empty and the rest of the directory as it was, whatever the collaborators answer for the
individual paths; its actions are one block per candidate, in the order of the set, the
block of a candidate being the actions of one loop iteration on it; and a second
invocation on the resulting directory does nothing. This holds for the tablet-directory
sweep, the rowset-id sweep, the delta-column-file sweep and the temp-merge-file sweep. -/
theorem sweeps_consume_their_input (cfg : Config) (tl tl' : Nat → World) (threshold : Int)
    (dir : DataDir) (hrun : dir.stop_bg_worker = false) :
    (dir.all_tablet_schemahash_paths ≠ [] →
      (perform_path_gc_by_tablet cfg tl dir).1
        = { dir with all_tablet_schemahash_paths := [] } ∧
      perform_path_gc_by_tablet cfg tl' (perform_path_gc_by_tablet cfg tl dir).1
        = ((perform_path_gc_by_tablet cfg tl dir).1, []) ∧
      ∃ (outs : List (List Action)) (last : List String),
        outs.length = dir.all_tablet_schemahash_paths.length ∧
        (perform_path_gc_by_tablet cfg tl dir).2 = outs.flatten ++ log_tablet_path last ∧
        ∀ i p, dir.all_tablet_schemahash_paths[i]? = some p →
          ∃ b, outs[i]? = some (gc_by_tablet_step cfg (tl (i + 1)) (i + 1) b p).2) ∧
    (dir.all_check_paths ≠ [] →
      (perform_path_gc_by_rowsetid cfg tl dir).1 = { dir with all_check_paths := [] } ∧
      perform_path_gc_by_rowsetid cfg tl' (perform_path_gc_by_rowsetid cfg tl dir).1
        = ((perform_path_gc_by_rowsetid cfg tl dir).1, []) ∧
      ∃ (outs : List (List Action)),
        outs.length = dir.all_check_paths.length ∧
        (perform_path_gc_by_rowsetid cfg tl dir).2 = outs.flatten ∧
        ∀ i p, dir.all_check_paths[i]? = some p →
          outs[i]? = some (gc_by_rowsetid_step cfg (tl (i + 1)) (i + 1) p)) ∧
    (dir.all_check_dcg_files ≠ [] →
      (perform_delta_column_files_gc cfg tl dir).1 = { dir with all_check_dcg_files := [] } ∧
      perform_delta_column_files_gc cfg tl' (perform_delta_column_files_gc cfg tl dir).1
        = ((perform_delta_column_files_gc cfg tl dir).1, []) ∧
      ∃ (outs : List (List Action)),
        outs.length = dir.all_check_dcg_files.length ∧
        (perform_delta_column_files_gc cfg tl dir).2 = outs.flatten ∧
        ∀ i p, dir.all_check_dcg_files[i]? = some p →
          ∃ c, outs[i]? = some (dcg_gc_step cfg (tl (i + 1)) (i + 1) c p).2) ∧
    (dir.all_check_crm_files ≠ [] →
      (perform_crm_gc cfg tl threshold dir).1 = { dir with all_check_crm_files := [] } ∧
      perform_crm_gc cfg tl' threshold (perform_crm_gc cfg tl threshold dir).1
        = ((perform_crm_gc cfg tl threshold dir).1, []) ∧
      ∃ (outs : List (List Action)),
        outs.length = dir.all_check_crm_files.length ∧
        (perform_crm_gc cfg tl threshold dir).2 = outs.flatten ∧
        ∀ i p, dir.all_check_crm_files[i]? = some p →
          outs[i]? = some (crm_gc_step cfg (tl (i + 1)) (i + 1) threshold p)) := by
  refine ⟨?_, ?_, ?_, ?_⟩
  · intro hne
    have hval : perform_path_gc_by_tablet cfg tl dir
        = ({ dir with all_tablet_schemahash_paths := [] },
            gc_by_tablet_loop cfg tl 0 [] dir.all_tablet_schemahash_paths) := by
      unfold perform_path_gc_by_tablet
      simp [hrun, hne]
    obtain ⟨outs, last, hlen, hact, hidx⟩ :=
      gc_by_tablet_loop_blocks cfg tl dir.all_tablet_schemahash_paths 0 []
    rw [hval]
    refine ⟨rfl, ?_, outs, last, hlen, hact, ?_⟩
    · unfold perform_path_gc_by_tablet
      simp
    · intro i p hp
      obtain ⟨b, hb⟩ := hidx i p hp
      exact ⟨b, by simpa using hb⟩
  · intro hne
    have hval : perform_path_gc_by_rowsetid cfg tl dir
        = ({ dir with all_check_paths := [] },
            gc_by_rowsetid_loop cfg tl 0 dir.all_check_paths) := by
      unfold perform_path_gc_by_rowsetid
      simp [hrun, hne]
    obtain ⟨outs, hlen, hact, hidx⟩ := gc_by_rowsetid_loop_blocks cfg tl dir.all_check_paths 0
    rw [hval]
    refine ⟨rfl, ?_, outs, hlen, hact, ?_⟩
    · unfold perform_path_gc_by_rowsetid
      simp
    · intro i p hp
      simpa using hidx i p hp
  · intro hne
    have hval : perform_delta_column_files_gc cfg tl dir
        = ({ dir with all_check_dcg_files := [] },
            (dcg_gc_loop cfg tl 0 [] dir.all_check_dcg_files).2) := by
      unfold perform_delta_column_files_gc
      simp [hrun, hne]
    obtain ⟨outs, hlen, hact, hidx⟩ := dcg_gc_loop_blocks cfg tl dir.all_check_dcg_files 0 []
    rw [hval]
    refine ⟨rfl, ?_, outs, hlen, hact, ?_⟩
    · unfold perform_delta_column_files_gc
      simp
    · intro i p hp
      obtain ⟨c, hc⟩ := hidx i p hp
      exact ⟨c, by simpa using hc⟩
  · intro hne
    have hval : perform_crm_gc cfg tl threshold dir
        = ({ dir with all_check_crm_files := [] },
            crm_gc_loop cfg tl threshold 0 dir.all_check_crm_files) := by
      unfold perform_crm_gc
      simp [hrun, hne]
    obtain ⟨outs, hlen, hact, hidx⟩ :=
      crm_gc_loop_blocks cfg tl threshold dir.all_check_crm_files 0
    rw [hval]
    refine ⟨rfl, ?_, outs, hlen, hact, ?_⟩
    · unfold perform_crm_gc
      simp
    · intro i p hp
      simpa using hidx i p hp

/-- C17 witness: the rowset-id sweep over the one candidate of the example directory
empties the set, and a second invocation does nothing. -/
theorem sweeps_consume_their_input_witness :
    (perform_path_gc_by_rowsetid ex_cfg (fun _ => ex_world) ex_dir).1
      = { ex_dir with all_check_paths := [] } ∧
    perform_path_gc_by_rowsetid ex_cfg (fun _ => ex_world)
        (perform_path_gc_by_rowsetid ex_cfg (fun _ => ex_world) ex_dir).1
      = ((perform_path_gc_by_rowsetid ex_cfg (fun _ => ex_world) ex_dir).1, []) :=
  ⟨((sweeps_consume_their_input ex_cfg (fun _ => ex_world) (fun _ => ex_world) 3600 ex_dir
      rfl).2.1 (by decide)).1,
   ((sweeps_consume_their_input ex_cfg (fun _ => ex_world) (fun _ => ex_world) 3600 ex_dir
      rfl).2.1 (by decide)).2.1⟩

/-- C20 as stated fails at the boundary: `edge.crm` was modified exactly 3600 seconds
before the clock reading, so `now - m > T` is false for `T = 3600`, yet the sweep
deletes it, because the source compares with `>=`. -/
theorem perform_crm_gc_boundary_counterexample :
    ex_crm_world.get_file_modified_time "/disk1/tmp/edge.crm" = some 6400 ∧
    ¬ (ex_crm_world.now - 6400 > 3600) ∧
    Action.delete_dir_recursive "/disk1/tmp/edge.crm"
      ∈ (perform_crm_gc ex_cfg (fun _ => ex_crm_world) 3600 ex_crm_dir).2 := by
  refine ⟨rfl, by decide, by decide⟩

/-- C20 (amended). Temp-merge-file sweep with threshold `T` seconds and the stop flag
clear. A path is deleted iff it is a candidate that, in the snapshot of its iteration,
has a readable modification time `m` other than zero, passes the unsigned 64-bit test
`now >= T + m` of the source and still exists. For a threshold in `[0, 2^31)`, a clock
in `[0, 2^63)` and modification times below `2^63` nothing wraps, and the test is
`now - m >= T`: the file is deleted iff its modification time lies at least `T` seconds
back. A candidate whose modification time cannot be read or is zero is retained. -/
theorem perform_crm_gc_deletes_iff_stale (cfg : Config) (tl : Nat → World) (threshold : Int)
    (dir : DataDir) (hrun : dir.stop_bg_worker = false) :
    (∀ x, Action.delete_dir_recursive x ∈ (perform_crm_gc cfg tl threshold dir).2 ↔
      ∃ i, dir.all_check_crm_files[i]? = some x ∧ ∃ m,
        (tl (i + 1)).get_file_modified_time x = some m ∧ 0 < m ∧
        (tl (i + 1)).now % 2 ^ 64 ≥ (threshold + (m : Int)) % 2 ^ 64 ∧
        ((tl (i + 1)).path_exists x).ok = true) ∧
    (0 ≤ threshold ∧ threshold < 2 ^ 31 →
      (∀ n, 0 ≤ (tl n).now ∧ (tl n).now < 2 ^ 63) →
      (∀ n p m, (tl n).get_file_modified_time p = some m → m < 2 ^ 63) →
      ∀ x, Action.delete_dir_recursive x ∈ (perform_crm_gc cfg tl threshold dir).2 ↔
        ∃ i, dir.all_check_crm_files[i]? = some x ∧ ∃ m,
          (tl (i + 1)).get_file_modified_time x = some m ∧ 0 < m ∧
          (tl (i + 1)).now - (m : Int) ≥ threshold ∧
          ((tl (i + 1)).path_exists x).ok = true) ∧
    (∀ (w : World) (counter : Nat) (p : String),
      (w.get_file_modified_time p = none ∨ w.get_file_modified_time p = some 0) →
      ∀ x, Action.delete_dir_recursive x ∉ crm_gc_step cfg w counter threshold p) := by
  have hmachine : ∀ x,
      Action.delete_dir_recursive x ∈ (perform_crm_gc cfg tl threshold dir).2 ↔
      ∃ i, dir.all_check_crm_files[i]? = some x ∧ ∃ m,
        (tl (i + 1)).get_file_modified_time x = some m ∧ 0 < m ∧
        (tl (i + 1)).now % 2 ^ 64 ≥ (threshold + (m : Int)) % 2 ^ 64 ∧
        ((tl (i + 1)).path_exists x).ok = true := by
    intro x
    have hloop := crm_gc_loop_delete_iff cfg tl threshold dir.all_check_crm_files 0 x
    simp only [Nat.zero_add] at hloop
    unfold perform_crm_gc
    by_cases hne : dir.all_check_crm_files = []
    · simp [hrun, hne]
    · simp only [hrun, hne, Bool.false_eq_true, or_self, if_false]
      exact hloop
  refine ⟨hmachine, ?_, ?_⟩
  · intro hthr hnow hmtime x
    rw [hmachine x]
    have hcmp : ∀ (i : Nat) (m : Nat), (tl (i + 1)).get_file_modified_time x = some m →
        ((tl (i + 1)).now % 2 ^ 64 ≥ (threshold + (m : Int)) % 2 ^ 64 ↔
          (tl (i + 1)).now - (m : Int) ≥ threshold) := by
      intro i m hm
      have h1 := hnow (i + 1)
      have h2 := hmtime (i + 1) x m hm
      have h3 : ((m : Nat) : Int) < 2 ^ 63 := by exact_mod_cast h2
      obtain ⟨h4, h5⟩ := hthr
      norm_num at h1 h3 h5 ⊢
      rw [Int.emod_eq_of_lt h1.1 (by omega), Int.emod_eq_of_lt (by omega) (by omega)]
      omega
    constructor
    · rintro ⟨i, hi, m, h1, h2, h3, h4⟩
      exact ⟨i, hi, m, h1, h2, (hcmp i m h1).mp h3, h4⟩
    · rintro ⟨i, hi, m, h1, h2, h3, h4⟩
      exact ⟨i, hi, m, h1, h2, (hcmp i m h1).mpr h3, h4⟩
  · intro w counter p h x hmem
    obtain ⟨_, m, hm, hpos, _, _⟩ := (crm_gc_step_delete_iff cfg w counter threshold p x).mp hmem
    rcases h with h | h
    · rw [h] at hm
      exact Option.noConfusion hm
    · rw [h] at hm
      simp only [Option.some.injEq] at hm
      omega

/-- C20 witness: with `T = 3600` the file modified one second ago is retained and the
file modified 3601 seconds ago is deleted; the sweep deletes the file modified exactly
3600 seconds ago as well. With the negative threshold `-20000` the unsigned sum wraps
and nothing is deleted. -/
theorem perform_crm_gc_deletes_iff_stale_witness :
    Action.delete_dir_recursive "/disk1/tmp/new.crm"
      ∉ (perform_crm_gc ex_cfg (fun _ => ex_crm_world) 3600 ex_crm_dir).2 ∧
    Action.delete_dir_recursive "/disk1/tmp/old.crm"
      ∈ (perform_crm_gc ex_cfg (fun _ => ex_crm_world) 3600 ex_crm_dir).2 ∧
    (perform_crm_gc ex_cfg (fun _ => ex_crm_world) 3600 ex_crm_dir).2
      = [Action.delete_dir_recursive "/disk1/tmp/edge.crm",
         Action.delete_dir_recursive "/disk1/tmp/old.crm"] ∧
    (perform_crm_gc ex_cfg (fun _ => ex_crm_world) (-20000) ex_crm_dir).2 = [] :=
  ⟨by decide,
   ((perform_crm_gc_deletes_iff_stale ex_cfg (fun _ => ex_crm_world) 3600 ex_crm_dir rfl).2.1
      (by decide) (fun _ => by decide)
      (by
        intro _ p m hm
        simp only [ex_crm_world] at hm
        split_ifs at hm <;> simp only [Option.some.injEq, reduceCtorEq] at hm <;> omega)
      "/disk1/tmp/old.crm").mpr ⟨2, rfl, 6399, rfl, by decide, by decide, rfl⟩,
   by decide, by decide⟩

/-- C18 as stated fails for the schema-hash set: the guard of `perform_path_scan` tests
the rowset/index path set and the delta-column file set only. Here the schema-hash set
still holds a path of the previous scan, yet the scan lists the file system and changes
the candidate sets. -/
theorem perform_path_scan_schemahash_counterexample :
    ex_half_swept_dir.all_tablet_schemahash_paths ≠ [] ∧
    (perform_path_scan ex_ls ex_half_swept_dir).2
      = ["/disk1/data", "/disk1/data/0", "/disk1/data/0/100", "/disk1/data/0/100/200"] ∧
    (perform_path_scan ex_ls ex_half_swept_dir).1.all_tablet_schemahash_paths
      = ["/disk1/data/0/100/200", "/disk1/data/9/900/901"] ∧
    (perform_path_scan ex_ls ex_half_swept_dir).1.all_check_paths
      = ["/disk1/data/0/100/200/idx.ivt", "/disk1/data/0/100/200/rowset1.dat"] := by
  decide

/-- C18 (amended). Scan back-pressure: while the rowset/index path set or the
delta-column file set is non-empty, `perform_path_scan` returns without listing the file
system and leaves the directory, with all its candidate sets, unchanged; likewise
`perform_tmp_path_scan` returns without iterating and without change while the
temp-merge-file set is non-empty. -/
theorem perform_path_scan_back_pressure (ls : String → DirListing)
    (entries : String → List DirEntry) (dir : DataDir) :
    (dir.all_check_paths ≠ [] ∨ dir.all_check_dcg_files ≠ [] →
      perform_path_scan ls dir = (dir, [])) ∧
    (dir.all_check_crm_files ≠ [] → perform_tmp_path_scan entries dir = (dir, [])) := by
  constructor
  · intro h
    unfold perform_path_scan
    rw [if_pos h]
  · intro h
    unfold perform_tmp_path_scan
    rw [if_pos h]

/-- C18 witness: with `rowset1.dat` still in the rowset/index path set the scan of the
example tree is skipped. -/
theorem perform_path_scan_back_pressure_witness :
    perform_path_scan ex_ls ex_dir = (ex_dir, []) :=
  (perform_path_scan_back_pressure ex_ls (fun _ => []) ex_dir).1 (Or.inl (by decide))

/-- C21 as stated fails: the counter is advanced under the mutex before any file system
step. Here creating the shard directory fails; `get_shard` returns the error and writes
no shard, but the counter has moved from 0 to 1. -/
theorem get_shard_failure_counter_counterexample :
    ex_dir.current_shard = 0 ∧
    (get_shard ex_cfg 4 ex_broken_shard_fs ex_dir).status = Status.IOError ∧
    (get_shard ex_cfg 4 ex_broken_shard_fs ex_dir).shard = none ∧
    (get_shard ex_cfg 4 ex_broken_shard_fs ex_dir).dir.current_shard = 1 := by
  decide

/-- C21 (amended). For every call of `get_shard` in which creating the shard directory
fails, or in which the directory did not exist and the configured sync of the data
directory fails, `get_shard` returns that error and does not write the output shard;
the counter has already been advanced to the next value modulo `MAX_SHARD_NUM`, as in a
successful call. -/
theorem get_shard_failure_returns_error (cfg : Config) (m : Nat) (fs : ShardFs)
    (dir : DataDir) :
    ((fs.create_dir_recursive
          (dir.path ++ DATA_PREFIX ++ "/" ++ toString dir.current_shard)).ok = false →
      (get_shard cfg m fs dir).status
        = fs.create_dir_recursive (dir.path ++ DATA_PREFIX ++ "/" ++ toString dir.current_shard) ∧
      (get_shard cfg m fs dir).status ≠ Status.OK ∧
      (get_shard cfg m fs dir).shard = none ∧
      (get_shard cfg m fs dir).dir.current_shard = (dir.current_shard + 1) % m) ∧
    ((fs.create_dir_recursive
          (dir.path ++ DATA_PREFIX ++ "/" ++ toString dir.current_shard)).ok = true →
      fs.path_exist (dir.path ++ DATA_PREFIX ++ "/" ++ toString dir.current_shard) = false →
      cfg.sync_tablet_meta = true →
      (fs.sync_dir (dir.path ++ DATA_PREFIX)).ok = false →
      (get_shard cfg m fs dir).status = fs.sync_dir (dir.path ++ DATA_PREFIX) ∧
      (get_shard cfg m fs dir).status ≠ Status.OK ∧
      (get_shard cfg m fs dir).shard = none ∧
      (get_shard cfg m fs dir).dir.current_shard = (dir.current_shard + 1) % m) := by
  have hbad : ∀ s : Status, s.ok = false → s ≠ Status.OK := by
    intro s h e
    rw [e] at h
    exact Bool.noConfusion h
  constructor
  · intro hfail
    have hst : (get_shard cfg m fs dir).status
        = fs.create_dir_recursive
            (dir.path ++ DATA_PREFIX ++ "/" ++ toString dir.current_shard) := by
      unfold get_shard
      dsimp only
      rw [if_pos hfail]
    have hne : (get_shard cfg m fs dir).status ≠ Status.OK := by
      rw [hst]
      exact hbad _ hfail
    exact ⟨hst, hne, (get_shard_output cfg m fs dir).2 hne, get_shard_counter cfg m fs dir⟩
  · intro hcreate hnew hcfg hsync
    have hc : ¬ ((fs.create_dir_recursive
        (dir.path ++ DATA_PREFIX ++ "/" ++ toString dir.current_shard)).ok = false) := by
      rw [hcreate]
      decide
    have hs : (!fs.path_exist (dir.path ++ DATA_PREFIX ++ "/" ++ toString dir.current_shard)
        && cfg.sync_tablet_meta && !(fs.sync_dir (dir.path ++ DATA_PREFIX)).ok) = true := by
      rw [hnew, hcfg, hsync]
      rfl
    have hst : (get_shard cfg m fs dir).status = fs.sync_dir (dir.path ++ DATA_PREFIX) := by
      unfold get_shard
      dsimp only
      rw [if_neg hc, if_pos hs]
    have hne : (get_shard cfg m fs dir).status ≠ Status.OK := by
      rw [hst]
      exact hbad _ hsync
    exact ⟨hst, hne, (get_shard_output cfg m fs dir).2 hne, get_shard_counter cfg m fs dir⟩

/-- C21 witness: on the file system that cannot create the shard directory the call
returns the error of the creation and writes no shard. -/
theorem get_shard_failure_returns_error_witness :
    (get_shard ex_cfg 4 ex_broken_shard_fs ex_dir).status
      = ex_broken_shard_fs.create_dir_recursive
          (ex_dir.path ++ DATA_PREFIX ++ "/" ++ toString ex_dir.current_shard) ∧
    (get_shard ex_cfg 4 ex_broken_shard_fs ex_dir).shard = none :=
  ⟨((get_shard_failure_returns_error ex_cfg 4 ex_broken_shard_fs ex_dir).1 rfl).1,
   ((get_shard_failure_returns_error ex_cfg 4 ex_broken_shard_fs ex_dir).1 rfl).2.2.1⟩

/-- C23, the code at the failing input. Tablet 100 is soft-deleted and does not
reference `rowset9`, and the unused-rowsets registry does not claim it. The rowset-id
sweep looks the tablet up with `include_deleted = false`, finds nothing and skips the
candidate: `check_rowset_id` is not evaluated against the soft-deleted tablet and the
file is not deleted. The tablet-directory sweep, which passes `true`, does find the
tablet. -/
theorem gc_by_rowsetid_skips_soft_deleted_tablet :
    (∃ tab, ex_soft_deleted_world.get_tablet 100 true = some tab ∧
      tab.check_rowset_id "rowset9" = false) ∧
    ex_soft_deleted_world.get_tablet 100 false = none ∧
    ex_soft_deleted_world.check_rowset_id_in_unused_rowsets "rowset9" = false ∧
    gc_by_rowsetid_step ex_cfg ex_soft_deleted_world 1 "/disk1/data/0/100/200/rowset9.dat"
      = gc_pacing ex_cfg 1 ∧
    (perform_path_gc_by_rowsetid ex_cfg (fun _ => ex_soft_deleted_world)
      { ex_dir with all_check_paths := ["/disk1/data/0/100/200/rowset9.dat"] }).2 = [] ∧
    (∀ (cfg : Config) (w : World) (deleted_view : Int → Option Tablet) (counter : Nat)
      (path : String),
      gc_by_rowsetid_step cfg
          { w with get_tablet := fun id include_deleted =>
              if include_deleted = true then deleted_view id else w.get_tablet id false }
          counter path
        = gc_by_rowsetid_step cfg w counter path) := by
  refine ⟨⟨ex_tablet, rfl, by decide⟩, rfl, rfl, by decide, by decide, ?_⟩
  intro cfg w deleted_view counter path
  unfold gc_by_rowsetid_step process_garbage_path
  simp

/-- C24 as stated fails: the ids dropped on a timeout are those of the loaded set, and
the visitor puts a record answered with already-exists or not-found into that set as
well. Here the timed-out walk got already-exists for tablet 100 and not-found for tablet
101; both are passed to `drop_tablet`, next to tablet 102 that was loaded with OK. -/
theorem load_tablets_drop_counterexample :
    (ex_mixed_meta_store.walk_until_timeout ex_cfg.load_tablet_timeout_seconds).2
      = Status.TimedOut ∧
    ex_mixed_meta_store.load_tablet_from_meta 0
      { tablet_id := 100, schema_hash := 200, value := "m100" } = Status.AlreadyExist ∧
    ex_mixed_meta_store.load_tablet_from_meta 0
      { tablet_id := 101, schema_hash := 201, value := "m101" } = Status.NotFound ∧
    LoadCall.drop_tablet_keep_meta_and_files 100
      ∈ (load_tablets ex_cfg ex_mixed_meta_store).state.calls ∧
    LoadCall.drop_tablet_keep_meta_and_files 101
      ∈ (load_tablets ex_cfg ex_mixed_meta_store).state.calls := by
  decide

/-- C24 (amended). On a phase-1 walk timeout, the tablet ids passed to `drop_tablet` are
exactly the ids recorded as loaded by the timed-out walk: those of the records whose
materialization returned OK, already-exists or not-found. An id all of whose records
failed otherwise is not dropped. -/
theorem load_tablets_drops_loaded_set (cfg : Config) (ms : MetaStore)
    (htimeout : (ms.walk_until_timeout cfg.load_tablet_timeout_seconds).2 = Status.TimedOut) :
    ∀ x, LoadCall.drop_tablet_keep_meta_and_files x ∈ (load_tablets cfg ms).state.calls ↔
      ∃ r ∈ (ms.walk_until_timeout cfg.load_tablet_timeout_seconds).1, r.tablet_id = x ∧
        (ms.load_tablet_from_meta 0 r = Status.OK ∨
          ms.load_tablet_from_meta 0 r = Status.NotFound ∨
          ms.load_tablet_from_meta 0 r = Status.AlreadyExist) := by
  intro x
  obtain ⟨hstate, _⟩ := load_tablets_with_timeout cfg ms htimeout
  obtain ⟨_, a2, a3, _, _, _⟩ := load_tablet_walk (ms.load_tablet_from_meta 0)
    (ms.walk_until_timeout cfg.load_tablet_timeout_seconds).1 0
    { tablet_ids := [], failed_tablet_ids := [],
      calls := [LoadCall.walk_until_timeout cfg.load_tablet_timeout_seconds] }
  obtain ⟨_, b2, _, _, _, _⟩ := load_tablet_walk (ms.load_tablet_from_meta 1) ms.walk.1 0
    { tablet_ids := [], failed_tablet_ids := [],
      calls := (iterate_store (fun _ => load_tablet_func (ms.load_tablet_from_meta 0)) 0
            { tablet_ids := [], failed_tablet_ids := [],
              calls := [LoadCall.walk_until_timeout cfg.load_tablet_timeout_seconds] }
            (ms.walk_until_timeout cfg.load_tablet_timeout_seconds).1).1.calls
          ++ [LoadCall.compact]
          ++ (iterate_store (fun _ => load_tablet_func (ms.load_tablet_from_meta 0)) 0
            { tablet_ids := [], failed_tablet_ids := [],
              calls := [LoadCall.walk_until_timeout cfg.load_tablet_timeout_seconds] }
            (ms.walk_until_timeout cfg.load_tablet_timeout_seconds).1).1.tablet_ids.map
              LoadCall.drop_tablet_keep_meta_and_files
          ++ [LoadCall.walk] }
  rw [hstate, b2, a2]
  have hsoft : ∀ s : Status,
      ¬ (s ≠ Status.OK ∧ s ≠ Status.NotFound ∧ s ≠ Status.AlreadyExist) ↔
        (s = Status.OK ∨ s = Status.NotFound ∨ s = Status.AlreadyExist) := by
    intro s
    cases s <;> simp
  simp only [List.mem_append, List.mem_map, List.mem_singleton, List.mem_cons,
    List.not_mem_nil, reduceCtorEq, and_false, exists_false, or_false, false_or,
    LoadCall.drop_tablet_keep_meta_and_files.injEq, exists_eq_right, a3, hsoft]

/-- C24 witness: in the example store of the timeout protocol both tablets recorded by
the timed-out walk are dropped. -/
theorem load_tablets_drops_loaded_set_witness :
    LoadCall.drop_tablet_keep_meta_and_files 101
      ∈ (load_tablets ex_cfg ex_meta_store).state.calls :=
  (load_tablets_drops_loaded_set ex_cfg ex_meta_store rfl 101).mpr
    ⟨{ tablet_id := 101, schema_hash := 201, value := "m101" }, by decide, rfl, Or.inl rfl⟩

/-- C25. Phase-2 counters. Every record handed to the rowset visitor raises the total
count by one and the error count by zero or one, and takes exactly one of six branches,
decided by the tests of the lambda: parse failure, missing tablet, construction failure
and the invalid branch count one error and call nothing; the COMMITTED branch calls
`commit_txn` once and counts an error iff the answer is neither OK nor already-exists;
the VISIBLE branch does nothing on a primary-key tablet and otherwise calls
`Tablet::load_rowset` once and counts an error iff the answer is neither OK nor
already-exists. After the traversal the total count is the number of records visited,
which is every record, and the error count is at most the total count. -/
theorem load_rowsets_counter_invariant :
    (∀ (w : LoadWorld) (st : RowsetLoadState) (r : RowsetRecord),
      (load_rowset_func w st r).1.total_rowset_count = st.total_rowset_count + 1 ∧
      ((load_rowset_func w st r).1.error_rowset_count = st.error_rowset_count ∨
        (load_rowset_func w st r).1.error_rowset_count = st.error_rowset_count + 1) ∧
      (rowset_branch w r = RowsetBranch.parse_failure ↔
        w.parse_rowset_meta r.meta_str = none) ∧
      (rowset_branch w r = RowsetBranch.missing_tablet ↔
        ∃ m, w.parse_rowset_meta r.meta_str = some m ∧
          w.get_tablet m.tablet_id false = none) ∧
      (rowset_branch w r = RowsetBranch.construction_failure ↔
        ∃ m t, w.parse_rowset_meta r.meta_str = some m ∧
          w.get_tablet m.tablet_id false = some t ∧ (w.create_rowset t m).ok = false) ∧
      (rowset_branch w r = RowsetBranch.committed ↔
        ∃ m t, w.parse_rowset_meta r.meta_str = some m ∧
          w.get_tablet m.tablet_id false = some t ∧ (w.create_rowset t m).ok = true ∧
          m.rowset_state = RowsetStatePB.COMMITTED ∧ m.tablet_uid = t.tablet_uid) ∧
      (rowset_branch w r = RowsetBranch.visible ↔
        ∃ m t, w.parse_rowset_meta r.meta_str = some m ∧
          w.get_tablet m.tablet_id false = some t ∧ (w.create_rowset t m).ok = true ∧
          m.rowset_state = RowsetStatePB.VISIBLE ∧ m.tablet_uid = t.tablet_uid) ∧
      (rowset_branch w r = RowsetBranch.invalid ↔
        ∃ m t, w.parse_rowset_meta r.meta_str = some m ∧
          w.get_tablet m.tablet_id false = some t ∧ (w.create_rowset t m).ok = true ∧
          ¬ (m.rowset_state = RowsetStatePB.COMMITTED ∧ m.tablet_uid = t.tablet_uid) ∧
          ¬ (m.rowset_state = RowsetStatePB.VISIBLE ∧ m.tablet_uid = t.tablet_uid)) ∧
      (rowset_branch w r ∈ [RowsetBranch.parse_failure, RowsetBranch.missing_tablet,
          RowsetBranch.construction_failure, RowsetBranch.invalid] →
        (load_rowset_func w st r).1.error_rowset_count = st.error_rowset_count + 1 ∧
        (load_rowset_func w st r).1.calls = st.calls) ∧
      (rowset_branch w r = RowsetBranch.committed →
        ∃ args, (load_rowset_func w st r).1.calls = st.calls ++ [LoadCall.commit_txn args] ∧
          (load_rowset_func w st r).1.error_rowset_count = st.error_rowset_count +
            (if (w.commit_txn args).ok = false ∧ (w.commit_txn args).is_already_exist = false
              then 1 else 0)) ∧
      (rowset_branch w r = RowsetBranch.visible →
        ∀ m t, w.parse_rowset_meta r.meta_str = some m →
          w.get_tablet m.tablet_id false = some t →
          (t.keys_type = KeysType.PRIMARY_KEYS →
            (load_rowset_func w st r).1.error_rowset_count = st.error_rowset_count ∧
            (load_rowset_func w st r).1.calls = st.calls) ∧
          (t.keys_type ≠ KeysType.PRIMARY_KEYS →
            (load_rowset_func w st r).1.calls = st.calls ++
              [LoadCall.load_rowset t.tablet_id t.tablet_uid
                { rowset_meta := m, schema_hash_path := t.schema_hash_path }] ∧
            (load_rowset_func w st r).1.error_rowset_count = st.error_rowset_count +
              (if (w.load_rowset t
                    { rowset_meta := m, schema_hash_path := t.schema_hash_path }).ok = false ∧
                  (w.load_rowset t
                    { rowset_meta := m, schema_hash_path := t.schema_hash_path }).is_already_exist
                    = false
                then 1 else 0)))) ∧
    (∀ (tl : Nat → LoadWorld) (records : List RowsetRecord),
      (load_rowsets tl records).2 = records ∧
      (load_rowsets tl records).1.total_rowset_count = (load_rowsets tl records).2.length ∧
      (load_rowsets tl records).1.error_rowset_count
        ≤ (load_rowsets tl records).1.total_rowset_count) := by
  constructor
  · intro w st r
    obtain ⟨_, h2, h3⟩ := load_rowset_func_counts w st r
    refine ⟨h2, h3, ?_⟩
    unfold load_rowset_func rowset_branch
    cases hp : w.parse_rowset_meta r.meta_str with
    | none => simp
    | some m =>
      cases hg : w.get_tablet m.tablet_id false with
      | none => simp [hg]
      | some t =>
        by_cases hc : (w.create_rowset t m).ok = false
        · simp [hg, hc]
        · have hc1 : (w.create_rowset t m).ok = true := by simpa using hc
          by_cases h1 : m.rowset_state = RowsetStatePB.COMMITTED ∧ m.tablet_uid = t.tablet_uid
          · obtain ⟨h1a, h1b⟩ := h1
            simp [hg, hc1, h1a, h1b]
            split_ifs with hk
            · exact ⟨_, rfl, by simp [hk]⟩
            · exact ⟨_, rfl, by simp [hk]⟩
          · by_cases h2 : m.rowset_state = RowsetStatePB.VISIBLE ∧ m.tablet_uid = t.tablet_uid
            · obtain ⟨h2a, h2b⟩ := h2
              simp [hg, hc1, h2a, h2b]
              intro m1 t1 hm1 hg1
              subst hm1
              rw [hg] at hg1
              cases hg1
              constructor
              · intro hk
                simp [hk]
              · intro hk
                simp only [hk, if_false]
                split_ifs with hl
                · simp [hl]
                · simp [hl]
            · simp [hg, hc1, h1, h2]
              tauto
  · intro tl records
    obtain ⟨h1, h2, _, h4⟩ := load_rowsets_loop_counts tl records 0
      { error_rowset_count := 0, total_rowset_count := 0, calls := [] }
    unfold load_rowsets
    rw [h1, h2]
    refine ⟨rfl, by simp, ?_⟩
    simpa using h4

/-- C26. The header-decoding loop of `PageReader::next_header` is left after at most 11
iterations, for every answer of the stream and the decoder and all 64-bit values of
`_offset` and `_finish_offset`: with a bound of 11 or more iterations the result is the
same and is a result. The allowed size starts at 16 KiB, is clamped in every iteration
to the minimum of itself, `_finish_offset - _offset` and 16 MiB, and is doubled after a
failed decode, so the `j`-th decode attempt has the clamped size of `j` doublings; an
iteration whose decode fails returns Corruption when the clamped size has reached 16 MiB
or `_offset` plus that size has reached `_finish_offset`, and goes on with twice the
size otherwise. Hence there are at most 11 decode attempts, and no call asks for more
than 16 MiB. -/
theorem next_header_decode_terminates (s : PageStream) (offset finish_offset : Nat)
    (bytes_read : Int) (hoff : offset < 2 ^ 64) (hfin : finish_offset < 2 ^ 64) :
    kDefaultPageHeaderSize = 16 * 1024 ∧ kMaxPageHeaderSize = 16 * 1024 * 1024 ∧
    (∃ r : HeaderLoopResult,
      (∀ fuel, 11 ≤ fuel →
        next_header_decode s offset finish_offset bytes_read fuel = some r) ∧
      (decode_sizes r.calls).length ≤ 11 ∧
      (∀ c ∈ r.calls, c.requested ≤ kMaxPageHeaderSize) ∧
      (∀ j, j < (decode_sizes r.calls).length →
        (decode_sizes r.calls)[j]? =
          some (min (min (kDefaultPageHeaderSize * 2 ^ j)
            ((finish_offset + 2 ^ 64 - offset) % 2 ^ 64)) kMaxPageHeaderSize))) ∧
    (∀ (i remaining : Nat) (st : HeaderLoopState),
      (s.peek i false (min (min st.allowed_page_size remaining) kMaxPageHeaderSize)
          = some (min (min st.allowed_page_size remaining) kMaxPageHeaderSize) ∨
        (s.read_at_fully i offset
          (min (min st.allowed_page_size remaining) kMaxPageHeaderSize)).ok = true) →
      (s.deserialize_thrift_msg i
        (min (min st.allowed_page_size remaining) kMaxPageHeaderSize)).1.ok = false →
      ((min (min st.allowed_page_size remaining) kMaxPageHeaderSize ≥ kMaxPageHeaderSize ∨
          (offset + min (min st.allowed_page_size remaining) kMaxPageHeaderSize) % 2 ^ 64
            ≥ finish_offset) →
        (next_header_iteration s offset finish_offset remaining i st).exit
          = some (HeaderLoopExit.returned Status.Corruption)) ∧
      (¬ (min (min st.allowed_page_size remaining) kMaxPageHeaderSize ≥ kMaxPageHeaderSize ∨
          (offset + min (min st.allowed_page_size remaining) kMaxPageHeaderSize) % 2 ^ 64
            ≥ finish_offset) →
        (next_header_iteration s offset finish_offset remaining i st).exit = none ∧
        (next_header_iteration s offset finish_offset remaining i st).state.allowed_page_size
          = 2 * min (min st.allowed_page_size remaining) kMaxPageHeaderSize)) := by
  refine ⟨by decide, by decide, ?_, ?_⟩
  · unfold next_header_decode
    dsimp only
    by_cases hseek : (s.seek offset).ok = false
    · simp only [if_pos hseek]
      refine ⟨_, fun _ _ => rfl, ?_, ?_, ?_⟩
      · simp [decode_sizes]
      · simp [StreamCall.requested]
      · simp [decode_sizes]
    · simp only [if_neg hseek]
      obtain ⟨r, hr1, hr2, hr3, hr4⟩ := next_header_loop_terminates s offset finish_offset
        hoff hfin 10 0
        { allowed_page_size := kDefaultPageHeaderSize, header_length := 0,
          bytes_read := bytes_read }
        (by show kMaxPageHeaderSize ≤ kDefaultPageHeaderSize * 2 ^ 10; decide)
      have hds : decode_sizes (StreamCall.seek offset :: r.calls) = decode_sizes r.calls := by
        simp [decode_sizes]
      refine ⟨{ r with calls := StreamCall.seek offset :: r.calls }, ?_, ?_, ?_, ?_⟩
      · intro fuel hfuel
        rw [hr1 fuel hfuel]
      · rw [hds]
        exact hr2
      · intro c hc
        rcases List.mem_cons.mp hc with hc | hc
        · rw [hc]
          simp [StreamCall.requested]
        · exact hr3 c hc
      · rw [hds]
        exact hr4
  · intro i remaining st hfetch hdecode
    have ha : min (min st.allowed_page_size remaining) kMaxPageHeaderSize
        ≤ kMaxPageHeaderSize := min_le_right _ _
    have hk : kMaxPageHeaderSize = 16777216 := by decide
    have hmod : min (min st.allowed_page_size remaining) kMaxPageHeaderSize % 2 ^ 32
        = min (min st.allowed_page_size remaining) kMaxPageHeaderSize :=
      Nat.mod_eq_of_lt (by rw [hk] at ha; norm_num; omega)
    have hlt : ¬ (min (min st.allowed_page_size remaining) kMaxPageHeaderSize
          ≥ kMaxPageHeaderSize ∨
        (offset + min (min st.allowed_page_size remaining) kMaxPageHeaderSize) % 2 ^ 64
          ≥ finish_offset) →
        min (min st.allowed_page_size remaining) kMaxPageHeaderSize * 2 % 2 ^ 64
          = 2 * min (min st.allowed_page_size remaining) kMaxPageHeaderSize := by
      intro hn
      have h1 : min (min st.allowed_page_size remaining) kMaxPageHeaderSize
          < kMaxPageHeaderSize := by
        by_contra hc
        exact hn (Or.inl (by omega))
      rw [hk] at h1
      norm_num
      omega
    have hnok : ¬ (s.deserialize_thrift_msg i
        (min (min st.allowed_page_size remaining) kMaxPageHeaderSize)).1.ok = true := by
      rw [hdecode]
      decide
    have hdec : ∀ (peek_mode : Bool) (br : Int) (fetch_calls : List StreamCall),
        ((min (min st.allowed_page_size remaining) kMaxPageHeaderSize ≥ kMaxPageHeaderSize ∨
            (offset + min (min st.allowed_page_size remaining) kMaxPageHeaderSize) % 2 ^ 64
              ≥ finish_offset) →
          (decode_page_header s offset finish_offset i
            (min (min st.allowed_page_size remaining) kMaxPageHeaderSize) peek_mode br
            fetch_calls).exit = some (HeaderLoopExit.returned Status.Corruption)) ∧
        (¬ (min (min st.allowed_page_size remaining) kMaxPageHeaderSize ≥ kMaxPageHeaderSize ∨
            (offset + min (min st.allowed_page_size remaining) kMaxPageHeaderSize) % 2 ^ 64
              ≥ finish_offset) →
          (decode_page_header s offset finish_offset i
            (min (min st.allowed_page_size remaining) kMaxPageHeaderSize) peek_mode br
            fetch_calls).exit = none ∧
          (decode_page_header s offset finish_offset i
            (min (min st.allowed_page_size remaining) kMaxPageHeaderSize) peek_mode br
            fetch_calls).state.allowed_page_size
            = 2 * min (min st.allowed_page_size remaining) kMaxPageHeaderSize) := by
      intro peek_mode br fetch_calls
      unfold decode_page_header
      simp only [hmod]
      constructor
      · intro hstop
        rw [if_neg hnok, if_pos hstop]
      · intro hgo
        rw [if_neg hnok, if_neg hgo]
        exact ⟨rfl, hlt hgo⟩
    unfold next_header_iteration
    dsimp only
    by_cases h1 : s.peek i false (min (min st.allowed_page_size remaining) kMaxPageHeaderSize)
        = some (min (min st.allowed_page_size remaining) kMaxPageHeaderSize)
    · rw [if_pos h1]
      exact hdec _ _ _
    · rw [if_neg h1]
      have h2 : ¬ (s.read_at_fully i offset
          (min (min st.allowed_page_size remaining) kMaxPageHeaderSize)).ok = false := by
        rcases hfetch with hf | hf
        · exact absurd hf h1
        · rw [hf]
          decide
      rw [if_neg h2]
      split_ifs
      · exact hdec _ _ _
      · exact hdec _ _ _

/-- C26 witness: a header that decodes at the third attempt, with 16 KiB, 32 KiB and
64 KiB asked for in turn; and a stream on which no decode succeeds, where the loop makes
11 attempts, the last of 16 MiB, and returns Corruption. -/
theorem next_header_decode_terminates_witness :
    ((100 : Nat) < 2 ^ 64 ∧ (1000000 : Nat) < 2 ^ 64) ∧
    (∃ r : HeaderLoopResult,
      (∀ fuel, 11 ≤ fuel → next_header_decode ex_page_stream 100 1000000 0 fuel = some r) ∧
      (decode_sizes r.calls).length ≤ 11) ∧
    (next_header_decode ex_page_stream 100 1000000 0 11).map
        (fun r => (r.exit, decode_sizes r.calls, r.state.header_length, r.state.bytes_read))
      = some (HeaderLoopExit.decoded, [16384, 32768, 65536], 40000, 40000) ∧
    (next_header_decode ex_undecodable_stream 0 (2 ^ 40) 0 11).map
        (fun r => (r.exit, (decode_sizes r.calls).length, (decode_sizes r.calls).getLast?))
      = some (HeaderLoopExit.returned Status.Corruption, 11, some 16777216) ∧
    next_header_decode ex_undecodable_stream 0 (2 ^ 40) 0 10 = none :=
  ⟨⟨by norm_num, by norm_num⟩,
    (next_header_decode_terminates ex_page_stream 100 1000000 0 (by norm_num)
      (by norm_num)).2.2.1.imp (fun _ h => ⟨h.1, h.2.1⟩),
    by decide, by decide, by decide⟩

end StarRocks
